import Mathlib

/-!
Verification development for the ASCII dungeon crawler (`project.py`).

The Python program is shallowly embedded: Python dicts produced by
`json.loads`/`json.dumps` become the `JVal` type, the item/tile/enemy class
hierarchies become tagged sum types or structures carrying the dynamic class
as a tag, mutation becomes explicit state passing, `random.*` calls become
explicit parameters, interactive prompts become decision parameters, and the
`GameOver` exception becomes `Except` (the `.error` payload is the state at
the moment the exception is raised).
-/

namespace Dungeon

/-- A JSON-like document value, the image of Python's `json.loads` (`None`,
`bool`, `int`, `float`, `str`, `list`, `dict`). Floats are modelled as `ℚ`. -/
inductive JVal where
  | jnull
  | jbool (b : Bool)
  | jint (n : Int)
  | jnum (q : ℚ)
  | jstr (s : String)
  | jarr (xs : List JVal)
  | jobj (fields : List (String × JVal))

/-- Association-list lookup, modelling Python dict key access
(serialised dicts never repeat a key, so first match is faithful). -/
def alget {α : Type} : List (String × α) → String → Option α
  | [], _ => none
  | (k', v) :: rest, k => if k' = k then some v else alget rest k

/-- `d.get(k)` on a JSON dict: `None` for an absent key. JSON `null` also
deserialises to Python `None`, so an explicit `jnull` value and an absent key
are merged by `jgetD`. -/
def jget (d : List (String × JVal)) (k : String) : Option JVal := alget d k

def jgetD (d : List (String × JVal)) (k : String) : JVal :=
  (jget d k).getD JVal.jnull

/-- Python truthiness of a JSON value. -/
def jTruthy : JVal → Bool
  | .jnull => false
  | .jbool b => b
  | .jint n => n ≠ 0
  | .jnum q => q ≠ 0
  | .jstr s => s ≠ ""
  | .jarr xs => !xs.isEmpty
  | .jobj f => !f.isEmpty

/-- `d.get(k, default)` read as an `Int`. The serialiser only ever stores
ints in these fields; a present non-int value falls back to the default. -/
def jgetIntD (d : List (String × JVal)) (k : String) (dflt : Int) : Int :=
  match jget d k with
  | some (.jint n) => n
  | _ => dflt

def jgetStrD (d : List (String × JVal)) (k : String) (dflt : String) : String :=
  match jget d k with
  | some (.jstr s) => s
  | _ => dflt

/-- `d.get(k, default)` read as a number (`ℚ`); accepts ints and floats. -/
def jgetRatD (d : List (String × JVal)) (k : String) (dflt : ℚ) : ℚ :=
  match jget d k with
  | some (.jint n) => (n : ℚ)
  | some (.jnum q) => q
  | _ => dflt

/-- `d.get(k, default)` used in a boolean position (Python keeps the raw
value and later tests its truthiness). -/
def jgetTruthyD (d : List (String × JVal)) (k : String) (dflt : Bool) : Bool :=
  match jget d k with
  | some v => jTruthy v
  | none => dflt

/-- A present numeric value, `none` if present but non-numeric
(where Python would raise a `TypeError` in a comparison). -/
def jAsNum : JVal → Option ℚ
  | .jint n => some (n : ℚ)
  | .jnum q => some q
  | _ => none

def jIsNum : JVal → Bool
  | .jint _ => true
  | .jnum _ => true
  | _ => false

/-! ## Items

The concrete item classes are `Gold(amount)`, `Potion`, and the three weapon
classes `Dagger`, `Sword`, `Axe` whose constructors fix name and attack range
(`Weapon` itself is never instantiated by the program). The transient
`item_picked_up` flag is modelled as the `Bool` result of `on_pickup`. -/

inductive Item where
  | gold (amount : Int)
  | potion
  | dagger
  | sword
  | axe
  deriving DecidableEq

/-- `item.name` (also equal to `type(item).__name__` for every concrete class). -/
def Item.name : Item → String
  | .gold _ => "Gold"
  | .potion => "Potion"
  | .dagger => "Dagger"
  | .sword => "Sword"
  | .axe => "Axe"

def Item.symbol : Item → String
  | .gold _ => "$"
  | .potion => "p"
  | _ => "w"

/-- `attack_low` of the weapon classes (Dagger 2, Sword 3, Axe 5). -/
def Item.attack_low : Item → Int
  | .dagger => 2
  | .sword => 3
  | .axe => 5
  | _ => 0

/-- `attack_high` of the weapon classes (Dagger 3, Sword 4, Axe 6). -/
def Item.attack_high : Item → Int
  | .dagger => 3
  | .sword => 4
  | .axe => 6
  | _ => 0

def Item.isWeapon : Item → Bool
  | .dagger => true
  | .sword => true
  | .axe => true
  | _ => false

/-! ## Enemies -/

/-- The dynamic class of an enemy object (the serialisation type tag). -/
inductive EType where
  | base | withItem | lvl2 | lvl2item | lvl3 | lvl3item
  deriving DecidableEq

def EType.typeName : EType → String
  | .base => "Enemy"
  | .withItem => "EnemyWithItem"
  | .lvl2 => "EnemyLevelTwo"
  | .lvl2item => "EnemyLevelTwoWithItem"
  | .lvl3 => "EnemyLevelThree"
  | .lvl3item => "EnemyLevelThreeWithItem"

structure Enemy where
  etype : EType
  name : String
  symbol : String
  x : Int
  y : Int
  hp : Int
  attack_damage_low : Int
  attack_damage_high : Int
  item_drop : List Item
  can_move : Bool
  engage_chance : ℚ
  deriving DecidableEq

/-- The enemy constructors. `frozenHp` models the base-class default
`hp = random.randint(4, 10)`, which Python evaluates once at class-definition
time and shares between all `Enemy()`/`EnemyWithItem()` instances; `roll`
models the per-instance `random.randint` the leveled subclasses pass
explicitly. Engage chances 0.2 / 0.4 / 0.7 are the floats from the source. -/
def mkEnemy (frozenHp roll : Int) : EType → Enemy
  | .base => ⟨.base, "monster", "E", 0, 0, frozenHp, 1, 3, [], true, 1/5⟩
  | .withItem => ⟨.withItem, "monster", "E", 0, 0, frozenHp, 1, 3, [.potion], true, 1/5⟩
  | .lvl2 => ⟨.lvl2, "monster", "E", 0, 0, roll, 3, 5, [], true, 2/5⟩
  | .lvl2item => ⟨.lvl2item, "monster", "E", 0, 0, roll, 3, 5, [.potion], true, 2/5⟩
  | .lvl3 => ⟨.lvl3, "monster", "E", 0, 0, roll, 5, 10, [], true, 7/10⟩
  | .lvl3item => ⟨.lvl3item, "monster", "E", 0, 0, roll, 5, 10, [.potion], true, 7/10⟩

/-- The `ENEMY_TYPES` registry. -/
def ENEMY_TYPES : List (String × EType) :=
  [("Enemy", .base), ("EnemyWithItem", .withItem), ("EnemyLevelTwo", .lvl2),
   ("EnemyLevelTwoWithItem", .lvl2item), ("EnemyLevelThree", .lvl3),
   ("EnemyLevelThreeWithItem", .lvl3item)]

/-! ## Tiles -/

/-- The dynamic class of a tile object. -/
inductive TileType where
  | wall | floor | chest | exit
  deriving DecidableEq

def TileType.typeName : TileType → String
  | .wall => "WallTile"
  | .floor => "FloorTile"
  | .chest => "TreasureChestTile"
  | .exit => "ExitTile"

/-- A tile: type tag, display symbol, walkability, exclusive item and enemy
slots, and (for treasure chests only) the owned `treasure` list. -/
structure Tile where
  ttype : TileType
  symbol : String
  walkable : Bool
  item : Option Item
  enemy : Option Enemy
  treasure : List Item
  deriving DecidableEq

def mkWallTile : Tile := ⟨.wall, "#", false, none, none, []⟩
def mkFloorTile : Tile := ⟨.floor, ".", true, none, none, []⟩
/-- `TreasureChestTile()`: `w` is the `pick_random([Dagger(), Sword(), Axe()])`
draw; the chest owns exactly that weapon plus one potion. -/
def mkTreasureChestTile (w : Item) : Tile := ⟨.chest, "T", true, none, none, [w, .potion]⟩
def mkExitTile : Tile := ⟨.exit, "X", false, none, none, []⟩

def TILE_TYPES : List (String × TileType) :=
  [("WallTile", .wall), ("FloorTile", .floor), ("TreasureChestTile", .chest),
   ("ExitTile", .exit)]

/-! ## Player -/

def MAX_INVENTORY : Nat := 5

/-- `MAX_HP` is an instance attribute once the game mutates or loads it; the
class default is 20. -/
structure Player where
  x : Int
  y : Int
  hp : Int
  gold : Int
  weapon : Option Item
  inventory : List Item
  at_exit : Bool
  MAX_HP : Int
  deriving DecidableEq

/-- `Player(x, y)` with all other constructor defaults. -/
def mkPlayer (x y : Int) : Player :=
  ⟨x, y, 20, 0, none, [], false, 20⟩

/-! ## Serialisation (`*_to_dict`) -/

def item_to_dict : Option Item → JVal
  | none => .jnull
  | some (.gold a) => .jobj [("type", .jstr "Gold"), ("amount", .jint a)]
  | some .potion => .jobj [("type", .jstr "Potion")]
  | some w =>
    .jobj [("type", .jstr w.name), ("name", .jstr w.name),
           ("attack_low", .jint w.attack_low), ("attack_high", .jint w.attack_high)]

def enemy_to_dict : Option Enemy → JVal
  | none => .jnull
  | some e =>
    .jobj [("type", .jstr e.etype.typeName), ("name", .jstr e.name),
           ("symbol", .jstr e.symbol), ("x", .jint e.x), ("y", .jint e.y),
           ("hp", .jint e.hp), ("attack_damage_low", .jint e.attack_damage_low),
           ("attack_damage_high", .jint e.attack_damage_high),
           ("can_move", .jbool e.can_move), ("engage_chance", .jnum e.engage_chance),
           ("item_drop", .jarr (e.item_drop.map (fun i => item_to_dict (some i))))]

def tile_to_dict (t : Tile) : JVal :=
  .jobj [("type", .jstr t.ttype.typeName), ("symbol", .jstr t.symbol),
         ("walkable", .jbool t.walkable), ("item", item_to_dict t.item),
         ("enemy", enemy_to_dict t.enemy)]

def player_to_dict (p : Player) : JVal :=
  .jobj [("x", .jint p.x), ("y", .jint p.y), ("hp", .jint p.hp),
         ("gold", .jint p.gold), ("at_exit", .jbool p.at_exit),
         ("MAX_HP", .jint p.MAX_HP), ("weapon", item_to_dict p.weapon),
         ("inventory", .jarr (p.inventory.map (fun i => item_to_dict (some i))))]

abbrev Grid := List (List Tile)

def grid_to_dict (g : Grid) : JVal :=
  .jobj [("rows", .jint g.length),
         ("columns", .jint (match g with | [] => 0 | r :: _ => r.length)),
         ("tiles", .jarr (g.map (fun row => .jarr (row.map tile_to_dict))))]

/-! ## Deserialisation (`*_from_dict`)

Raised Python exceptions (`KeyError`, `TypeError`, `ValueError`) become
`Except.error` with a message naming the exception. -/

def item_from_dict : JVal → Except String (Option Item)
  | .jnull => .ok none
  | .jobj d =>
    match jget d "type" with
    | none => .error "KeyError: type"
    | some (.jstr "Gold") => .ok (some (.gold (jgetIntD d "amount" 1)))
    | some (.jstr "Potion") => .ok (some .potion)
    | some (.jstr "Dagger") => .ok (some .dagger)
    | some (.jstr "Sword") => .ok (some .sword)
    | some (.jstr "Axe") => .ok (some .axe)
    | some _ => .error "ValueError: unknown item type"
  | _ => .error "TypeError: not a dict"

/-- Decoding a JSON list of item dicts (used for `item_drop` and the player
inventory); a `null` element would put Python `None` in the list, which the
serialiser never produces, so it is rejected here. -/
def items_from_list : List JVal → Except String (List Item)
  | [] => .ok []
  | v :: rest => do
    match ← item_from_dict v with
    | none => .error "TypeError: null item"
    | some it => do
      let restI ← items_from_list rest
      .ok (it :: restI)

/-- The `item_drop` handling at the top of `enemy_from_dict`:
`if dictionary.get("item_drop"):` iterates only over a truthy value. -/
def decode_drops (d : List (String × JVal)) : Except String (List Item) :=
  match jget d "item_drop" with
  | none => .ok []
  | some v =>
    if jTruthy v then
      match v with
      | .jarr l => items_from_list l
      | _ => .error "TypeError: not iterable"
    else .ok []

def enemy_from_dict (frozenHp roll : Int) : JVal → Except String (Option Enemy)
  | .jnull => .ok none
  | .jobj d => do
    let drops ← decode_drops d
    match jget d "type" with
    | none => .error "KeyError: type"
    | some tv =>
      let et : EType := match tv with
        | .jstr s => (alget ENEMY_TYPES s).getD .base
        | _ => .base
      let e0 := mkEnemy frozenHp roll et
      .ok (some
        { etype := et
          name := jgetStrD d "name" e0.name
          symbol := jgetStrD d "symbol" e0.symbol
          x := jgetIntD d "x" e0.x
          y := jgetIntD d "y" e0.y
          hp := jgetIntD d "hp" e0.hp
          attack_damage_low := jgetIntD d "attack_damage_low" e0.attack_damage_low
          attack_damage_high := jgetIntD d "attack_damage_high" e0.attack_damage_high
          item_drop := drops
          can_move := jgetTruthyD d "can_move" e0.can_move
          engage_chance := jgetRatD d "engage_chance" e0.engage_chance })
  | _ => .error "TypeError: not a dict"

/-- `tile_from_dict`. `chestW` is the fresh `pick_random` weapon drawn when a
`TreasureChestTile()` is constructed during decoding (its contents are not
serialised), and `frozenHp`/`roll` feed the enemy constructor defaults. -/
def tile_from_dict (chestW : Item) (frozenHp roll : Int) : JVal → Except String Tile
  | .jobj d =>
    match jget d "type" with
    | none => .error "KeyError: type"
    | some tv =>
      let tt : TileType := match tv with
        | .jstr s => (alget TILE_TYPES s).getD .floor
        | _ => .floor
      let t0 : Tile := match tt with
        | .wall => mkWallTile
        | .floor => mkFloorTile
        | .chest => mkTreasureChestTile chestW
        | .exit => mkExitTile
      match jget d "walkable" with
      | none => .error "KeyError: walkable"
      | some wv => do
        let it ← item_from_dict (jgetD d "item")
        let en ← enemy_from_dict frozenHp roll (jgetD d "enemy")
        .ok { t0 with symbol := jgetStrD d "symbol" t0.symbol,
                      walkable := jTruthy wv, item := it, enemy := en }
  | _ => .error "TypeError: not a dict"

def player_from_dict : JVal → Except String Player
  | .jobj d => do
    let inv ← match jget d "inventory" with
      | none => .ok []
      | some v =>
        if jTruthy v then
          match v with
          | .jarr l => items_from_list l
          | _ => .error "TypeError: not iterable"
        else .ok ([] : List Item)
    let w ← item_from_dict (jgetD d "weapon")
    .ok { x := jgetIntD d "x" 0
          y := jgetIntD d "y" 0
          hp := jgetIntD d "hp" 20
          gold := jgetIntD d "gold" 0
          at_exit := jgetTruthyD d "at_exit" false
          MAX_HP := jgetIntD d "MAX_HP" 20
          weapon := w
          inventory := inv }
  | _ => .error "TypeError: not a dict"

/-- Fresh randomness consumed while rebuilding a grid: one potential chest
weapon and one potential enemy hp roll per (row, column) position. -/
structure DeserRng where
  chestW : Nat → Nat → Item
  roll : Nat → Nat → Int

def row_from_dict (rng : DeserRng) (frozenHp : Int) (ri : Nat) :
    Nat → List JVal → Except String (List Tile)
  | _, [] => .ok []
  | ci, v :: rest => do
    let t ← tile_from_dict (rng.chestW ri ci) frozenHp (rng.roll ri ci) v
    let ts ← row_from_dict rng frozenHp ri (ci + 1) rest
    .ok (t :: ts)

def rows_from_dict (rng : DeserRng) (frozenHp : Int) :
    Nat → List JVal → Except String Grid
  | _, [] => .ok []
  | ri, v :: rest =>
    match v with
    | .jarr row => do
      let r ← row_from_dict rng frozenHp ri 0 row
      let rs ← rows_from_dict rng frozenHp (ri + 1) rest
      .ok (r :: rs)
    | _ => .error "TypeError: row is not a list"

def grid_from_dict (rng : DeserRng) (frozenHp : Int) (v : JVal) : Except String Grid :=
  match v with
  | .jobj d =>
    match jget d "tiles" with
    | none => .error "KeyError: tiles"
    | some (.jarr rows) => rows_from_dict rng frozenHp 0 rows
    | some _ => .error "TypeError: tiles is not a list"
  | _ => .error "TypeError: not a dict"

/-! ## Save validation and loading -/

/-- The `0 <= player.get("hp", 0) <= player.get("MAX_HP", 15)` check of
`validate_save`: the Python comparison raises (and thus returns `False`
through the `except` clause) on a present non-numeric value; absent `hp`
defaults to 0 and absent `MAX_HP` to 15, exactly as in the source. -/
def playerHpOk (pv : JVal) : Bool :=
  match pv with
  | .jobj pd =>
    match (jget pd "hp").elim (some (0 : ℚ)) jAsNum,
          (jget pd "MAX_HP").elim (some (15 : ℚ)) jAsNum with
    | some hp, some mx => decide (0 ≤ hp) && decide (hp ≤ mx)
    | _, _ => false
  | _ => false

/-- The `grid["rows"] <= 0 or grid["columns"] <= 0` check (missing keys or
non-numeric values raise, caught as `False`). -/
def gridDimsOk (gv : JVal) : Bool :=
  match gv with
  | .jobj gd =>
    match (jget gd "rows").bind jAsNum, (jget gd "columns").bind jAsNum with
    | some r, some c => decide (0 < r) && decide (0 < c)
    | _, _ => false
  | _ => false

def playTimeOk (d : List (String × JVal)) : Bool :=
  match jget d "play_time" with
  | none => true
  | some pv => jIsNum pv

def validate_save (v : JVal) : Bool :=
  match v with
  | .jobj d =>
    (jget d "player").isSome && (jget d "grid").isSome &&
    (jget d "level_index").isSome &&
    ((jget d "player").getD .jnull |> playerHpOk) &&
    ((jget d "grid").getD .jnull |> gridDimsOk) &&
    playTimeOk d
  | _ => false

/-- The input to `load_game`: `none` when the file does not exist,
`some none` when `json.loads` raises `JSONDecodeError`, and `some (some v)`
for a parsed document. -/
abbrev LoadInput := Option (Option JVal)

/-- `load_game`: every failure path (missing file, parse error, failed
validation, or an exception escaping the `*_from_dict` functions or
`float(...)`) yields `none`. -/
def load_game (rng : DeserRng) (frozenHp : Int) (file : LoadInput) :
    Option (Grid × Player × Int × ℚ) :=
  match file with
  | none => none
  | some none => none
  | some (some v) =>
    if ¬ validate_save v then none
    else
      match v with
      | .jobj d =>
        let li := jgetIntD d "level_index" 1
        match player_from_dict (jgetD d "player") with
        | .error _ => none
        | .ok p =>
          match grid_from_dict rng frozenHp (jgetD d "grid") with
          | .error _ => none
          | .ok g =>
            match jget d "play_time" with
            | none => some (g, p, li, 0)
            | some (.jint n) => some (g, p, li, (n : ℚ))
            | some (.jnum q) => some (g, p, li, q)
            | some _ => none
      | _ => none

/-- The mutable session state the load command may replace wholesale. -/
structure Session where
  grid : Grid
  player : Player
  level_index : Int
  play_time : ℚ

/-- The `"l"` command handler after the player confirms: a `None` result
leaves every piece of current state untouched, otherwise the whole snapshot
is installed. -/
def loadStep (rng : DeserRng) (frozenHp : Int) (st : Session) (file : LoadInput) :
    Session :=
  match load_game rng frozenHp file with
  | none => st
  | some (g, p, li, pt) => ⟨g, p, li, pt⟩

/-! ## Best record -/

structure BestRec where
  best_score : Int
  best_time : Option ℚ
  deriving DecidableEq

/-- The highscore-update computation at the end of a winning session:
`new_best_score = max(best["best_score"], player.gold)` and the new time is
the session time if the old one is `None` or larger. -/
def updateBest (best : BestRec) (gold : Int) (total_time : ℚ) : BestRec :=
  { best_score := max best.best_score gold
    best_time :=
      match best.best_time with
      | none => some total_time
      | some t => if total_time < t then some total_time else some t }

/-- The stored record after session completion: `save_best` runs only when
the record changed, so the store keeps its old contents otherwise. -/
def finishSessionStore (stored : BestRec) (gold : Int) (total_time : ℚ) : BestRec :=
  let best := stored
  let nb := updateBest best gold total_time
  if nb.best_score ≠ best.best_score ∨ nb.best_time ≠ best.best_time then nb
  else stored

/-! ## Grid access -/

/-- `grid[y][x]` as a partial read. -/
def tile? (g : Grid) (x y : Nat) : Option Tile :=
  g[y]?.bind (fun r => r[x]?)

/-- `grid[y][x]`; out-of-range access (which the program always guards)
yields a fresh floor tile. -/
def tileAt (g : Grid) (x y : Nat) : Tile :=
  (tile? g x y).getD mkFloorTile

/-- In-place mutation of one tile (`grid[y][x].field = ...`). -/
def updateTile (g : Grid) (x y : Nat) (f : Tile → Tile) : Grid :=
  match g[y]? with
  | none => g
  | some row =>
    match row[x]? with
    | none => g
    | some t => g.set y (row.set x (f t))

/-- `enemies_remaining`: the count of tiles whose enemy slot is occupied. -/
def enemies_remaining (g : Grid) : Nat :=
  (g.map (fun row => row.countP (fun t => t.enemy.isSome))).sum

def ncols (g : Grid) : Nat := g.headI.length

/-- `in_bounds`: `0 <= y < len(grid) and 0 <= x < len(grid[0])`. -/
def in_bounds (g : Grid) (x y : Int) : Bool :=
  decide (0 ≤ y) && decide (y < g.length) && decide (0 ≤ x) && decide (x < ncols g)

/-- `is_blocked_for_enemy`. -/
def is_blocked_for_enemy (g : Grid) (x y : Int) : Bool :=
  if ¬ in_bounds g x y then true
  else
    let t := tileAt g x.toNat y.toNat
    if ¬ t.walkable then true
    else if t.enemy.isSome then true
    else if t.item.isSome then true
    else if t.ttype = .chest then true
    else false

def surrounding_tiles (x y : Int) : List (Int × Int) :=
  [(x, y - 1), (x, y + 1), (x - 1, y), (x + 1, y)]

/-- `list_enemies`: all `(x, y, enemy)` with the enemy slot occupied. -/
def list_enemies (g : Grid) : List (Nat × Nat × Enemy) :=
  (g.enum.map (fun p =>
    p.2.enum.filterMap (fun q => q.2.enemy.map (fun e => (q.1, p.1, e))))).flatten

/-! ## Item behaviour -/

/-- `on_pickup` for each item class. The returned `Bool` is the
`item_picked_up` flag the callers read back. -/
def item_on_pickup (it : Item) (p : Player) (log : List String) :
    Player × List String × Bool :=
  match it with
  | .gold a =>
    ({ p with gold := p.gold + a },
     log ++ ["You pick up " ++ toString a ++ " gold."], true)
  | .potion =>
    if p.inventory.length < MAX_INVENTORY then
      ({ p with inventory := p.inventory ++ [.potion] },
       log ++ ["You pick up a Potion."], true)
    else
      (p, log ++ ["Your inventory is full. Item cannot be picked up."], false)
  | w =>
    if p.inventory.length < MAX_INVENTORY then
      ({ p with inventory := p.inventory ++ [w] }, log, true)
    else
      (p, log ++ ["Your inventory is full. The " ++ w.name ++
                  " cannot be picked up."], false)

/-- `on_use` for each item class; `heal` models
`random.randint(3, player.MAX_HP)` in `Potion.on_use`. -/
def item_on_use (heal : Int) (it : Item) (p : Player) (log : List String) :
    Player × List String :=
  match it with
  | .gold _ => (p, log)
  | .potion =>
    if p.hp = p.MAX_HP then
      (p, log ++ ["Your health is full. Nothing happens."])
    else
      ({ p with hp := min (p.hp + heal) p.MAX_HP },
       log ++ ["Your health increases."])
  | w =>
    let original := p.weapon
    let p1 := { p with weapon := some w }
    let log1 := log ++ ["You equipped the " ++ w.name]
    match original with
    | none => (p1, log1)
    | some ow =>
      ({ p1 with inventory := p1.inventory ++ [ow] },
       log1 ++ ["You place your " ++ ow.name ++ " back in your inventory."])

/-! ## Enemy attack -/

/-- `Enemy.attack`: `roll` models `get_attack_damage()`; a raised `GameOver`
becomes `.error` carrying the state at the raise. -/
def enemy_attack (roll : Int) (e : Enemy) (p : Player) (log : List String) :
    Except (Player × List String) (Player × List String) :=
  let p' := { p with hp := p.hp - roll }
  let log' := log ++ ["The " ++ e.name ++ " attacks you! You take " ++
                      toString roll ++ " damage!"]
  if p'.hp ≤ 0 then .error (p', log') else .ok (p', log')

/-! ## Whole-game state -/

structure GState where
  grid : Grid
  player : Player
  log : List String
  run_away : Bool
  deriving DecidableEq

/-- The state an operation ends in, whether it returned or raised `GameOver`. -/
def outSt : Except GState GState → GState
  | .ok s => s
  | .error s => s

/-! ## `Enemy.take_damage` -/

/-- The player's answers to the inventory-full prompt chain inside
`take_damage` (`read_int` re-prompts until the answer is valid, so a `swap`
index is in range by construction; an out-of-range index is treated as
keeping, a case the prompt loop makes unreachable). -/
inductive DropDecision where
  | keepN
  | back
  | swap (i : Nat)

/-- Unlocking: set every `ExitTile.walkable` and append one click message per
exit tile. -/
def unlockExits (g : Grid) (log : List String) : Grid × List String :=
  (g.map (fun row => row.map (fun t =>
     if t.ttype = .exit then { t with walkable := true } else t)),
   log ++ List.replicate
     ((g.map (fun row => row.countP (fun t => t.ttype = .exit))).sum)
     "You hear a distant click. The exit has unlocked.")

/-- The drop-transfer loop of `take_damage`. The `Bool` result records the
early `return` taken when the player answers `y` then `0`, which abandons the
remaining drops. -/
def dropLoop (decisions : Nat → DropDecision) (ename : String) :
    List Item → Nat → Player → List String → Player × List String × Bool
  | [], _, p, log => (p, log, false)
  | it :: rest, k, p, log =>
    if p.inventory.length < MAX_INVENTORY then
      dropLoop decisions ename rest k
        { p with inventory := p.inventory ++ [it] }
        (log ++ ["The " ++ ename ++ " dropped a " ++ it.name ++
                 ". You put it in your inventory."])
    else
      let log1 := log ++
        ["The " ++ ename ++ " dropped a " ++ it.name ++
         ", but your inventory is too full.",
         "Would you like to remove an item from your inventory? (y/n)"]
      match decisions k with
      | .keepN =>
        dropLoop decisions ename rest (k + 1) p
          (log1 ++ ["You decide not to remove anything."])
      | .back => (p, log1 ++ ["You decide not to remove anything."], true)
      | .swap i =>
        if i < p.inventory.length then
          dropLoop decisions ename rest (k + 1)
            { p with inventory := p.inventory.eraseIdx i ++ [it] }
            (log1 ++ ["You throw an item away and take the " ++ it.name ++
                      " instead."])
        else
          dropLoop decisions ename rest (k + 1) p log1

/-- `Enemy.take_damage(amount, ...)` on the enemy of the tile at `(x, y)`
(the caller always passes `current_tile = grid[player.y][player.x]`). -/
def take_damage (amount : Int) (decisions : Nat → DropDecision) (x y : Nat)
    (st : GState) : GState :=
  match (tileAt st.grid x y).enemy with
  | none => st
  | some e =>
    let hp' := e.hp - amount
    if 0 < hp' then
      { st with
        grid := updateTile st.grid x y (fun t => { t with enemy := some { e with hp := hp' } })
        log := st.log ++ ["You attack the " ++ e.name ++ ". It takes damage."] }
    else
      let log1 := st.log ++ ["The " ++ e.name ++ " takes damage (HP: 0).",
                             "The " ++ e.name ++ " is defeated!"]
      let g1 := updateTile st.grid x y (fun t => { t with enemy := none })
      let gl2 := if enemies_remaining g1 = 0 then unlockExits g1 log1 else (g1, log1)
      let pl3 := dropLoop decisions e.name e.item_drop 0 st.player gl2.2
      { st with grid := gl2.1, player := pl3.1, log := pl3.2.1 }

/-! ## `move_enemies` -/

/-- The randomness one `move_enemies` pass consumes: the shuffle of the
enemy list, plus per-iteration engage rolls, neighbour choices and attack
damage rolls. -/
structure MoveRng where
  shuffle : List (Nat × Nat × Enemy) → List (Nat × Nat × Enemy)
  engage : Nat → Bool
  choose : Nat → Nat
  atkRoll : Nat → Int

def moveEnemiesAux (rng : MoveRng) :
    List (Nat × Nat × Enemy) → Nat → List (Int × Int) → GState →
    Except GState GState
  | [], _, _, st => .ok st
  | (x, y, e) :: rest, k, reserved, st =>
    if (tileAt st.grid x y).enemy ≠ some e then
      moveEnemiesAux rng rest (k + 1) reserved st
    else if ¬ e.can_move then
      moveEnemiesAux rng rest (k + 1) reserved st
    else if (x : Int) = st.player.x ∧ (y : Int) = st.player.y then
      moveEnemiesAux rng rest (k + 1) reserved st
    else if ((x : Int) - st.player.x).natAbs + ((y : Int) - st.player.y).natAbs = 1 then
      if (st.player.x, st.player.y) ∈ reserved then
        moveEnemiesAux rng rest (k + 1) reserved st
      else if rng.engage k then
        let e' := { e with x := st.player.x, y := st.player.y }
        let g1 := updateTile st.grid x y (fun t => { t with enemy := none })
        let g2 := updateTile g1 st.player.x.toNat st.player.y.toNat
          (fun t => { t with enemy := some e' })
        let log1 := st.log ++ ["A " ++ e.name ++ " lunges at you!"]
        match enemy_attack (rng.atkRoll k) e' st.player log1 with
        | .error pl => .error { st with grid := g2, player := pl.1, log := pl.2 }
        | .ok pl =>
          let log2 := pl.2 ++ ["Press [F] to fight, [R] to run away, or [U] to use an item."]
          moveEnemiesAux rng rest (k + 1)
            ((st.player.x, st.player.y) :: reserved)
            { st with grid := g2, player := pl.1, log := log2 }
      else
        moveEnemiesAux rng rest (k + 1) reserved st
    else
      let possible := (surrounding_tiles x y).filter
        (fun c => ¬ is_blocked_for_enemy st.grid c.1 c.2 ∧ c ∉ reserved)
      if possible.isEmpty then
        moveEnemiesAux rng rest (k + 1) reserved st
      else
        let c := possible.getD (rng.choose k % possible.length) (0, 0)
        let e' := { e with x := c.1, y := c.2 }
        let g1 := updateTile st.grid x y (fun t => { t with enemy := none })
        let g2 := updateTile g1 c.1.toNat c.2.toNat (fun t => { t with enemy := some e' })
        let log1 :=
          if c.1 = st.player.x ∧ c.2 = st.player.y then
            st.log ++ ["A " ++ e.name ++ " has found you!",
                       "Press [F] to fight, [R] to run away, or [U] to use an item."]
          else st.log
        moveEnemiesAux rng rest (k + 1) (c :: reserved) { st with grid := g2, log := log1 }

def move_enemies (rng : MoveRng) (st : GState) : Except GState GState :=
  moveEnemiesAux rng (rng.shuffle (list_enemies st.grid)) 0 [] st

/-! ## Tile `on_enter` and player movement -/

/-- `on_enter` of the tile at `(x, y)` (the ExitTile variant receives the
grid and may set `player.at_exit`). -/
def onEnterTile (g : Grid) (p : Player) (log : List String) (x y : Nat) :
    Player × List String :=
  let t := tileAt g x y
  match t.ttype with
  | .wall => (p, log ++ ["You bump into a wall."])
  | .floor =>
    match t.item with
    | some it => (p, log ++ ["You find a " ++ it.name.toLower ++ ". Press [T] to take."])
    | none =>
      match t.enemy with
      | some e =>
        (p, log ++ ["There is a " ++ e.name ++
                    " in your way. Press [F] to fight. Press [R] to run away."])
      | none => (p, log)
  | .chest =>
    if t.treasure.isEmpty then
      (p, log ++ ["You find an empty treasure chest."])
    else
      (p, log ++ ["You find a treasure chest. Press [T] to open."])
  | .exit =>
    if 0 < enemies_remaining g then
      (p, log ++ ["The exit is sealed by magic. Enemies remain."])
    else
      ({ p with at_exit := true }, log)

/-- The movement block of `main` (bounds check, walkability, `on_enter`,
and `move_enemies` exactly on a successful move). -/
def movePlayer (rng : MoveRng) (dx dy : Int) (st : GState) : Except GState GState :=
  let new_x := st.player.x + dx
  let new_y := st.player.y + dy
  if new_x < 0 ∨ (ncols st.grid : Int) ≤ new_x ∨ (st.grid.length : Int) ≤ new_y ∨ new_y < 0 then
    .ok { st with log := st.log ++ ["You can't move outside the map."] }
  else
    let nt := tileAt st.grid new_x.toNat new_y.toNat
    if nt.walkable then
      let p1 := { st.player with x := new_x, y := new_y }
      let pl := onEnterTile st.grid p1 st.log new_x.toNat new_y.toNat
      move_enemies rng { st with player := pl.1, log := pl.2 }
    else
      let pl := onEnterTile st.grid st.player st.log new_x.toNat new_y.toNat
      .ok { st with player := pl.1, log := pl.2 }

/-- A whole movement command (`w`/`a`/`s`/`d`): the blocked-by-enemy guard,
the `run_away` reset, the hp-depleted break (modelled as `.error`), then the
movement block. -/
def moveCommand (rng : MoveRng) (dx dy : Int) (st : GState) : Except GState GState :=
  let ct := tileAt st.grid st.player.x.toNat st.player.y.toNat
  if ¬ st.run_away ∧ ct.enemy.isSome then
    .ok { st with log := st.log ++
      ["You can't move! There is an enemy blocking your way.",
       "Press [F] to fight, [R] to run away, or [U] to use an item."] }
  else
    let st1 := { st with run_away := false }
    if st1.player.hp ≤ 0 then
      .error { st1 with log := st1.log ++ ["Your health has been depleted.", "GAME OVER!"] }
    else
      movePlayer rng dx dy st1

/-! ## Fight, flee, use -/

/-- The `"f"` command: weapon roll or bare-handed roll, `take_damage`, and a
counter-attack whenever the enemy survives. -/
def fightStep (weaponRoll fistRoll counterRoll : Int)
    (decisions : Nat → DropDecision) (st : GState) : Except GState GState :=
  let x := st.player.x.toNat
  let y := st.player.y.toNat
  if st.run_away then
    .ok { st with log := st.log ++ ["You have already run away."] }
  else
    match (tileAt st.grid x y).enemy with
    | none => .ok { st with log := st.log ++ ["There is nothing to fight."] }
    | some _ =>
      let dmg := match st.player.weapon with
        | some _ => weaponRoll
        | none => fistRoll
      let st1 := take_damage dmg decisions x y st
      match (tileAt st1.grid x y).enemy with
      | none => .ok st1
      | some e' =>
        match enemy_attack counterRoll e' st1.player st1.log with
        | .error pl => .error { st1 with player := pl.1, log := pl.2 }
        | .ok pl =>
          let log2 := pl.2 ++ ["Press [F] to fight, [R] to run away, or [U] to use an item."]
          .ok { st1 with player := pl.1, log := log2 }

/-- The `"r"` command: a `random.randint(1, 6)` die, success exactly when the
roll is at most 3, a counter-attack on failure. -/
def fleeStep (die counterRoll : Int) (st : GState) : Except GState GState :=
  if st.run_away then
    .ok { st with log := st.log ++ ["You have already run away."] }
  else
    match (tileAt st.grid st.player.x.toNat st.player.y.toNat).enemy with
    | none => .ok { st with log := st.log ++ ["There is nothing to runaway from."] }
    | some e =>
      if die ≤ 3 then
        .ok { st with run_away := true, log := st.log ++ ["You successfully run away."] }
      else
        match enemy_attack counterRoll e st.player
                (st.log ++ ["You try to run away but fail."]) with
        | .error pl => .error { st with player := pl.1, log := pl.2 }
        | .ok pl =>
          let log2 := pl.2 ++ ["Press [F] to fight, [R] to run away, or [U] to use an item."]
          .ok { st with player := pl.1, log := log2 }

/-- The `"u"` command: `choice` is the `read_int` answer (1-based index or
`None` for back; `read_int` re-prompts until the index is in range). After a
successful use the enemy on the current tile, if any, counter-attacks. -/
def useStep (choice : Option Nat) (heal counterRoll : Int) (st : GState) :
    Except GState GState :=
  let ct := tileAt st.grid st.player.x.toNat st.player.y.toNat
  if st.player.inventory.isEmpty then
    .ok { st with log := st.log ++ ["Your inventory is empty, there is nothing to use."] }
  else
    match choice with
    | none => .ok { st with log := st.log ++ ["You decide not to use anything."] }
    | some c =>
      let index := c - 1
      if h : index < st.player.inventory.length then
        let it := st.player.inventory.get ⟨index, h⟩
        let pl := item_on_use heal it st.player st.log
        let p2 := { pl.1 with inventory := pl.1.inventory.eraseIdx index }
        match ct.enemy with
        | none => .ok { st with player := p2, log := pl.2 }
        | some e =>
          match enemy_attack counterRoll e p2 pl.2 with
          | .error pl2 => .error { st with player := pl2.1, log := pl2.2 }
          | .ok pl2 =>
            let log2 := pl2.2 ++
              ["Press [F] to fight, [R] to run away, or [U] to use an item."]
            .ok { st with player := pl2.1, log := log2 }
      else .ok st

/-! ## Take / interact -/

/-- The take-one-or-back loop of `TreasureChestTile.on_interact`; each list
entry is one `read_int` answer. -/
def chestLoop (x y : Nat) :
    List (Option Nat) → Grid → Player → List String → Grid × Player × List String
  | [], g, p, log => (g, p, log)
  | none :: _, g, p, log =>
    if (tileAt g x y).treasure.isEmpty then (g, p, log)
    else (g, p, (log ++ ["Pick an item: [0] Back"]) ++ ["You decide not to take anything."])
  | some c :: rest, g, p, log =>
    if (tileAt g x y).treasure.isEmpty then (g, p, log)
    else
      if h : c - 1 < (tileAt g x y).treasure.length then
        if (item_on_pickup ((tileAt g x y).treasure.get ⟨c - 1, h⟩) p
            (log ++ ["Pick an item: [0] Back"])).2.2 then
          chestLoop x y rest
            (updateTile g x y
              (fun t' => { t' with treasure := t'.treasure.eraseIdx (c - 1) }))
            (item_on_pickup ((tileAt g x y).treasure.get ⟨c - 1, h⟩) p
              (log ++ ["Pick an item: [0] Back"])).1
            ((item_on_pickup ((tileAt g x y).treasure.get ⟨c - 1, h⟩) p
              (log ++ ["Pick an item: [0] Back"])).2.1 ++
              ["You take the " ++ ((tileAt g x y).treasure.get ⟨c - 1, h⟩).name ++ "."])
        else
          (g, (item_on_pickup ((tileAt g x y).treasure.get ⟨c - 1, h⟩) p
            (log ++ ["Pick an item: [0] Back"])).1,
            (item_on_pickup ((tileAt g x y).treasure.get ⟨c - 1, h⟩) p
              (log ++ ["Pick an item: [0] Back"])).2.1)
      else (g, p, log ++ ["Pick an item: [0] Back"])

/-- `TreasureChestTile.on_interact`. -/
def chestInteract (decisions : List (Option Nat)) (x y : Nat)
    (g : Grid) (p : Player) (log : List String) : Grid × Player × List String :=
  let t := tileAt g x y
  if t.treasure.isEmpty then (g, p, log ++ ["The chest is empty."])
  else
    let r := chestLoop x y decisions g p (log ++ ["You see the following item(s)."])
    if (tileAt r.1 x y).treasure.isEmpty then
      (r.1, r.2.1, r.2.2 ++ ["The chest is now empty."])
    else r

/-- The `"t"` command (`handle_picking_up_items` →
`tile.on_interact`). -/
def takeStep (decisions : List (Option Nat)) (st : GState) : GState :=
  let x := st.player.x.toNat
  let y := st.player.y.toNat
  let ct := tileAt st.grid x y
  match ct.ttype with
  | .wall => { st with log := st.log ++ ["Nothing happens."] }
  | .exit => st
  | .chest =>
    let r := chestInteract decisions x y st.grid st.player st.log
    { st with grid := r.1, player := r.2.1, log := r.2.2 }
  | .floor =>
    match ct.item with
    | none => { st with log := st.log ++ ["There's nothing interesting on the floor."] }
    | some it =>
      let plb := item_on_pickup it st.player st.log
      let g' := if plb.2.2 then updateTile st.grid x y (fun t => { t with item := none })
                else st.grid
      { st with grid := g', player := plb.1, log := plb.2.1 }

/-! ## The turn-level transition relation

One constructor per command the game loop dispatches while a level is in
play; the successor is the state the handler ends in, whether it returned
normally or raised `GameOver`. -/

inductive Step : GState → GState → Prop where
  | move (dx dy : Int)
      (hdir : (dx, dy) ∈ ([(0, -1), (0, 1), (-1, 0), (1, 0)] : List (Int × Int)))
      (rng : MoveRng) (s : GState) :
      Step s (outSt (moveCommand rng dx dy s))
  | fight (wr fr cr : Int) (ds : Nat → DropDecision) (s : GState) :
      Step s (outSt (fightStep wr fr cr ds s))
  | flee (die cr : Int) (s : GState) :
      Step s (outSt (fleeStep die cr s))
  | takeCmd (ds : List (Option Nat)) (s : GState) :
      Step s (takeStep ds s)
  | useCmd (c : Option Nat) (heal cr : Int) (s : GState) :
      Step s (outSt (useStep c heal cr s))

/-! ## Level construction -/

def MAP_TEXT_LEVEL_1 : List String := [
  "##########################################",
  "#@..E.$..p........#.......$.....#........#",
  "#..#########.....####...........#..$.....#",
  "#..#.....#..........E.....#..#####.......#",
  "#..#..#.......$..#......$.#......#$......#",
  "#..####..####......########......p.......#",
  "#......E.....$..$..$...$....$............#",
  "#$..$.p..#####..$......######........p...#",
  "#..$.......####....###......#.......E....#",
  "#.....T....#.....$.............$.........#",
  "#..........#............#....$...#######.#",
  "#......$.$$#.....p......#..............#.#",
  "#.E.....#.................######.......#.#",
  "#....p..#.....p.......#####......p.....#.#",
  "#.......#.............E...####.........#p#",
  "######################X###################"]

def MAP_TEXT_LEVEL_2 : List String := [
  "######################################################",
  "#.p...............#........$.....#.....E.........ET..#",
  "#..#########.....####....E.......#..$.......##########",
  "#..#.....#.................#..#####.........#...$....#",
  "#..#..#.......$..#......$..#......#$........E..@.....#",
  "#EE####..####......########...........$.....#....p...#",
  "#...........$..$..$...$....$.....p..........#........#",
  "#$..$....#####..$......######.......$.......##########",
  "#..$.......####....###......#......E.....$...........#",
  "#....E.....#.....$................$..........p.......#",
  "#..........#..p.........#....$.......####............#",
  "#.........$#.....p......#........................E...#",
  "#.......#.................######........$............#",
  "#....p..#...X....E....#####......#..................E#",
  "#.......#.................####.....##########........#",
  "#.......####################................#........#",
  "#.E.....#....E.............#........E.......#...######",
  "#.......#.......####........................#........#",
  "#.......#...p.............###....p...................#",
  "######################################################"]

def MAP_TEXT_LEVEL_3 : List String := [
  "##################################################################",
  "#......p..........#........$.....#.....E.#...................p...#",
  "#..#########.....####....E.......#..$....#..p....$.#....##########",
  "#..#.....#...p.............#..#####......#.........#....#...$....#",
  "#..#..#..........#..p...$..#......#$.....#..E......#...........E.#",
  "#...$....####.........................$..########..#.........p...#",
  "#.................$........$....E........#.........#....#........#",
  "#$..$....#####..$......######.......$....#..########..........####",
  "#..$.......####....###......#.........p.......E.....$.....#......#",
  "#....E.....#.....$............p..............$............#......#",
  "#..........#..........p...E........#....$.......###.#.....#......#",
  "#..p......$#.....p........E........#......................#..E...#",
  "#.......#..#............$.E..........######.........$.....#......#",
  "#....p..#........E........E......#####......#.............#.....E#",
  "#.......#.................E..........####.....#.#########........#",
  "#......#############.p.........########.................#........#",
  "#.E.E.#......E........................#......$..........#...######",
  "#.....#...............#....####.........................#.....p..#",
  "#..X..#######.........#........p.....###########....p............#",
  "#.....#...p...........#..............##$.......#..........$......#",
  "#######..........#######################.......#..........p......#",
  "#@..E.........$.....................###$....p.#.................#",
  "#...E...........................$....###.......#.....p...........#",
  "########....p..........p.............###.......##...........$....#",
  "#..p...E...........$.................###.T.....EEE...............#",
  "##################################################################"]

def LEVELS : List (List String) := [MAP_TEXT_LEVEL_1, MAP_TEXT_LEVEL_2, MAP_TEXT_LEVEL_3]

/-- Randomness consumed by `make_map`: the `pick_random` between the plain
and item-carrying enemy variant, the per-instance hp rolls, the chest weapon
draws, and the frozen base-class default hp. -/
structure MapRng where
  pickVariant : Nat → Nat → Bool
  hpRoll : Nat → Nat → Int
  chestWeapon : Nat → Nat → Item
  frozenHp : Int

/-- One cell of `make_map`: tile from `SYMBOL_TO_TILE` (default floor), item
from `SYMBOL_TO_ITEM`, enemy for an `E` cell according to the level tier.
`main` only ever passes levels 1–3 (with any other level the source would
crash on `tile.enemy.x` since no enemy was assigned; that dead branch leaves
the slot empty here). -/
def buildTile (rng : MapRng) (level : Nat) (x y : Nat) (c : Char) : Tile :=
  let t : Tile :=
    if c = '#' then mkWallTile
    else if c = 'T' then mkTreasureChestTile (rng.chestWeapon x y)
    else if c = 'X' then mkExitTile
    else mkFloorTile
  let t :=
    if c = '$' then { t with item := some (.gold 1) }
    else if c = 'p' then { t with item := some .potion }
    else t
  if c = 'E' then
    let et : Option EType :=
      match level with
      | 1 => some (if rng.pickVariant x y then .base else .withItem)
      | 2 => some (if rng.pickVariant x y then .lvl2 else .lvl2item)
      | 3 => some (if rng.pickVariant x y then .lvl3 else .lvl3item)
      | _ => none
    match et with
    | some et =>
      { t with enemy := some { mkEnemy rng.frozenHp (rng.hpRoll x y) et with x := ↑x, y := ↑y } }
    | none => t
  else t

def make_map (rng : MapRng) (map_text : List String) (level : Nat) : Grid :=
  map_text.enum.map (fun p => p.2.toList.enum.map (fun q => buildTile rng level q.1 p.1 q.2))

/-- `find_player`: position of the first `@` (the maps always contain one). -/
def find_player : List String → Nat → Option (Int × Int)
  | [], _ => none
  | row :: rest, y =>
    match row.toList.indexOf? '@' with
    | some x => some ((x : Int), (y : Int))
    | none => find_player rest (y + 1)

/-- The state the game starts a level in. -/
def initLevelState (rng : MapRng) (i : Fin 3) : GState :=
  let text := LEVELS.getD i []
  let start := (find_player text 0).getD (0, 0)
  { grid := make_map rng text (i + 1)
    player := mkPlayer start.1 start.2
    log := []
    run_away := false }

/-! # Theorems -/

theorem BestRec.ext_fields (a b : BestRec) (h1 : a.best_score = b.best_score)
    (h2 : a.best_time = b.best_time) : a = b := by
  cases a; cases b; simp_all

/-- C10: on session completion the best-record store is read-modify-written:
for every old record and new result, the stored best_score becomes the
maximum of the old best_score and the new score, and the stored best_time
becomes the minimum of the old best_time and the new time, where an absent
old best_time is always superseded by the new time. -/
theorem best_record_update (stored : BestRec) (gold : Int) (t : ℚ) :
    finishSessionStore stored gold t = updateBest stored gold t ∧
    (updateBest stored gold t).best_score = max stored.best_score gold ∧
    (updateBest stored gold t).best_time =
      some (match stored.best_time with | none => t | some u => min t u) := by
  refine ⟨?_, rfl, ?_⟩
  · unfold finishSessionStore
    by_cases h : (updateBest stored gold t).best_score ≠ stored.best_score ∨
        (updateBest stored gold t).best_time ≠ stored.best_time
    · simp [h]
    · push_neg at h
      simp only [ne_eq, not_or, not_not] at *
      rw [if_neg (by simp [h.1, h.2])]
      exact (BestRec.ext_fields _ _ h.1 h.2).symm
  · unfold updateBest
    cases stored.best_time with
    | none => rfl
    | some u =>
      simp only
      rcases lt_or_ge t u with h | h
      · rw [if_pos h, min_eq_left h.le]
      · rw [if_neg (not_lt.mpr h), min_eq_right h]

/-! ## Round-trip lemmas (serialise then deserialise) -/

theorem item_round (i : Item) :
    item_from_dict (item_to_dict (some i)) = .ok (some i) := by
  cases i <;> rfl

theorem opt_item_round (o : Option Item) :
    item_from_dict (item_to_dict o) = .ok o := by
  cases o with
  | none => rfl
  | some i => exact item_round i

theorem items_list_round (l : List Item) :
    items_from_list (l.map (fun i => item_to_dict (some i))) = .ok l := by
  induction l with
  | nil => rfl
  | cons i rest ih =>
    simp only [List.map_cons, items_from_list, item_round, ih]
    rfl

theorem decode_drops_round (d : List (String × JVal)) (l : List Item)
    (h : jget d "item_drop" = some (.jarr (l.map (fun i => item_to_dict (some i))))) :
    decode_drops d = .ok l := by
  unfold decode_drops
  rw [h]
  cases l with
  | nil => rfl
  | cons i rest =>
    simp only [jTruthy, List.map_cons, List.isEmpty_cons, Bool.not_false, if_true]
    exact items_list_round (i :: rest)

theorem etype_lookup (et : EType) : (alget ENEMY_TYPES et.typeName).getD .base = et := by
  cases et <;> rfl

theorem enemy_round (f r : Int) (e : Enemy) :
    enemy_from_dict f r (enemy_to_dict (some e)) = .ok (some e) := by
  obtain ⟨et, nm, sy, x, y, hp, lo, hi, drops, cm, ec⟩ := e
  rw [show enemy_to_dict (some ⟨et, nm, sy, x, y, hp, lo, hi, drops, cm, ec⟩) =
      .jobj [("type", .jstr et.typeName), ("name", .jstr nm),
             ("symbol", .jstr sy), ("x", .jint x), ("y", .jint y),
             ("hp", .jint hp), ("attack_damage_low", .jint lo),
             ("attack_damage_high", .jint hi), ("can_move", .jbool cm),
             ("engage_chance", .jnum ec),
             ("item_drop", .jarr (drops.map (fun i => item_to_dict (some i))))] from rfl]
  rw [enemy_from_dict]
  have hd := decode_drops_round
    [("type", JVal.jstr et.typeName), ("name", JVal.jstr nm),
     ("symbol", JVal.jstr sy), ("x", JVal.jint x), ("y", JVal.jint y),
     ("hp", JVal.jint hp), ("attack_damage_low", JVal.jint lo),
     ("attack_damage_high", JVal.jint hi), ("can_move", JVal.jbool cm),
     ("engage_chance", JVal.jnum ec),
     ("item_drop", JVal.jarr (drops.map (fun i => item_to_dict (some i))))]
    drops rfl
  rw [hd]
  cases et <;> rfl

theorem opt_enemy_round (f r : Int) (o : Option Enemy) :
    enemy_from_dict f r (enemy_to_dict o) = .ok o := by
  cases o with
  | none => rfl
  | some e => exact enemy_round f r e

/-- A tile with the `treasure` slot forgotten: exactly the per-tile fields
the save document records. -/
def stripT (t : Tile) : Tile := { t with treasure := [] }

/-- What `tile_from_dict` rebuilds from `tile_to_dict t`: every recorded
field restored, and for a chest a freshly drawn treasure pair. -/
def reloadTile (cw : Item) (t : Tile) : Tile :=
  { t with treasure := if t.ttype = .chest then [cw, .potion] else [] }

theorem tile_round (cw : Item) (f r : Int) (t : Tile) :
    tile_from_dict cw f r (tile_to_dict t) = .ok (reloadTile cw t) := by
  obtain ⟨tt, sy, wk, it, en, tr⟩ := t
  rw [show tile_to_dict ⟨tt, sy, wk, it, en, tr⟩ =
      .jobj [("type", .jstr tt.typeName), ("symbol", .jstr sy),
             ("walkable", .jbool wk), ("item", item_to_dict it),
             ("enemy", enemy_to_dict en)] from rfl]
  rw [tile_from_dict]
  cases tt <;>
    simp only [TileType.typeName, alget, jget, jgetD, jgetStrD, String.reduceEq,
      reduceIte, Option.getD_some, jTruthy, opt_item_round, opt_enemy_round,
      reloadTile] <;>
    rfl

theorem player_round (p : Player) :
    player_from_dict (player_to_dict p) = .ok p := by
  obtain ⟨x, y, hp, gold, w, inv, ae, mh⟩ := p
  rw [show player_to_dict ⟨x, y, hp, gold, w, inv, ae, mh⟩ =
      .jobj [("x", .jint x), ("y", .jint y), ("hp", .jint hp),
             ("gold", .jint gold), ("at_exit", .jbool ae), ("MAX_HP", .jint mh),
             ("weapon", item_to_dict w),
             ("inventory", .jarr (inv.map (fun i => item_to_dict (some i))))] from rfl]
  rw [player_from_dict]
  cases inv with
  | nil =>
    simp only [jget, alget, String.reduceEq, reduceIte, List.map_nil, jTruthy,
      List.isEmpty_nil, Bool.not_true, Bool.false_eq_true, if_false, jgetD,
      Option.getD_some, jgetIntD, jgetTruthyD, opt_item_round]
    rfl
  | cons i rest =>
    have hinv := items_list_round (i :: rest)
    rw [List.map_cons] at hinv
    simp only [jget, alget, String.reduceEq, reduceIte, jTruthy,
      List.map_cons, List.isEmpty_cons, Bool.not_false, if_true, jgetD,
      Option.getD_some, jgetIntD, jgetTruthyD, opt_item_round, hinv]
    rfl

def rowReload (rng : DeserRng) (ri : Nat) : Nat → List Tile → List Tile
  | _, [] => []
  | ci, t :: rest => reloadTile (rng.chestW ri ci) t :: rowReload rng ri (ci + 1) rest

def gridReload (rng : DeserRng) : Nat → Grid → Grid
  | _, [] => []
  | ri, row :: rest => rowReload rng ri 0 row :: gridReload rng (ri + 1) rest

theorem row_round (rng : DeserRng) (f : Int) (ri : Nat) (row : List Tile) :
    ∀ ci, row_from_dict rng f ri ci (row.map tile_to_dict) =
      .ok (rowReload rng ri ci row) := by
  induction row with
  | nil => intro ci; rfl
  | cons t rest ih =>
    intro ci
    simp only [List.map_cons, row_from_dict, tile_round, ih]
    rfl

theorem rows_round (rng : DeserRng) (f : Int) (g : Grid) :
    ∀ ri, rows_from_dict rng f ri (g.map (fun row => .jarr (row.map tile_to_dict))) =
      .ok (gridReload rng ri g) := by
  induction g with
  | nil => intro ri; rfl
  | cons row rest ih =>
    intro ri
    simp only [List.map_cons, rows_from_dict, row_round, ih]
    rfl

theorem grid_round (rng : DeserRng) (f : Int) (g : Grid) :
    grid_from_dict rng f (grid_to_dict g) = .ok (gridReload rng 0 g) := by
  rw [show grid_to_dict g =
      .jobj [("rows", .jint g.length),
             ("columns", .jint (match g with | [] => 0 | r :: _ => r.length)),
             ("tiles", .jarr (g.map (fun row => .jarr (row.map tile_to_dict))))] from rfl]
  rw [grid_from_dict]
  simp only [jget, alget, String.reduceEq, reduceIte]
  exact rows_round rng f g 0

theorem stripT_reload (cw : Item) (t : Tile) : stripT (reloadTile cw t) = stripT t := rfl

theorem rowReload_strip (rng : DeserRng) (ri : Nat) (row : List Tile) :
    ∀ ci, (rowReload rng ri ci row).map stripT = row.map stripT := by
  induction row with
  | nil => intro ci; rfl
  | cons t rest ih =>
    intro ci
    simp only [rowReload, List.map_cons, stripT_reload, ih]

theorem gridReload_strip (rng : DeserRng) (g : Grid) :
    ∀ ri, (gridReload rng ri g).map (List.map stripT) = g.map (List.map stripT) := by
  induction g with
  | nil => intro ri; rfl
  | cons row rest ih =>
    intro ri
    simp only [gridReload, List.map_cons, rowReload_strip, ih]

theorem strip_tileq (g g' : Grid)
    (h : g'.map (List.map stripT) = g.map (List.map stripT)) (x y : Nat) :
    (tile? g' x y).map stripT = (tile? g x y).map stripT := by
  have hy := congrArg (fun l => l[y]?) h
  simp only [List.getElem?_map] at hy
  unfold tile?
  cases hg' : g'[y]? with
  | none =>
    rw [hg'] at hy
    cases hg : g[y]? with
    | none => rfl
    | some row => rw [hg] at hy; simp at hy
  | some row' =>
    rw [hg'] at hy
    cases hg : g[y]? with
    | none => rw [hg] at hy; simp at hy
    | some row =>
      rw [hg] at hy
      simp only [Option.map_some', Option.some.injEq] at hy
      simp only [Option.some_bind]
      have hx := congrArg (fun l => l[x]?) hy
      simp only [List.getElem?_map] at hx
      exact hx

/-- C1: serialising a world (grid, player) and deserialising the document
yields a player with identical stats (position, hp, gold, at_exit, MAX_HP,
equipped weapon, inventory — with weapon attack ranges and gold amounts
intact, since the decoded `Item` values are equal), a grid of identical
dimensions, and per-tile identical type, walkable flag, symbol, item and
enemy fields (enemy hp and engage_chance included, since the decoded `Enemy`
values are equal). Only a chest's unserialised `treasure` list is rebuilt
afresh. -/
theorem serialize_deserialize_round_trip (g : Grid) (p : Player)
    (rng : DeserRng) (frozenHp : Int) :
    player_from_dict (player_to_dict p) = .ok p ∧
    ∃ g', grid_from_dict rng frozenHp (grid_to_dict g) = .ok g' ∧
      g'.length = g.length ∧
      (∀ y : Nat, g'[y]?.map List.length = g[y]?.map List.length) ∧
      (∀ x y t t', tile? g x y = some t → tile? g' x y = some t' →
        t'.ttype = t.ttype ∧ t'.symbol = t.symbol ∧ t'.walkable = t.walkable ∧
        t'.item = t.item ∧ t'.enemy = t.enemy) := by
  refine ⟨player_round p, gridReload rng 0 g, grid_round rng frozenHp g, ?_, ?_, ?_⟩
  · have h := congrArg List.length (gridReload_strip rng g 0)
    simpa using h
  · intro y
    have hy := congrArg (fun l => l[y]?) (gridReload_strip rng g 0)
    simp only [List.getElem?_map] at hy
    cases hg' : (gridReload rng 0 g)[y]? with
    | none =>
      rw [hg'] at hy
      cases hg : g[y]? with
      | none => rfl
      | some row => rw [hg] at hy; simp at hy
    | some row' =>
      rw [hg'] at hy
      cases hg : g[y]? with
      | none => rw [hg] at hy; simp at hy
      | some row =>
        rw [hg] at hy
        simp only [Option.map_some', Option.some.injEq] at hy
        have := congrArg List.length hy
        simpa using this
  · intro x y t t' ht ht'
    have hs := strip_tileq g (gridReload rng 0 g) (gridReload_strip rng g 0) x y
    rw [ht, ht'] at hs
    simp only [Option.map_some', Option.some.injEq] at hs
    have h1 : (stripT t').ttype = (stripT t).ttype := congrArg Tile.ttype hs
    have h2 : (stripT t').symbol = (stripT t).symbol := congrArg Tile.symbol hs
    have h3 : (stripT t').walkable = (stripT t).walkable := congrArg Tile.walkable hs
    have h4 : (stripT t').item = (stripT t).item := congrArg Tile.item hs
    have h5 : (stripT t').enemy = (stripT t).enemy := congrArg Tile.enemy hs
    exact ⟨h1, h2, h3, h4, h5⟩

/-! ## C4: validation gates every load; failures leave state unchanged -/

theorem playerHpOk_iff (v : JVal) :
    playerHpOk v = true ↔
      ∃ pd hp mx, v = .jobj pd ∧
        (jget pd "hp").elim (some (0 : ℚ)) jAsNum = some hp ∧
        (jget pd "MAX_HP").elim (some (15 : ℚ)) jAsNum = some mx ∧
        0 ≤ hp ∧ hp ≤ mx := by
  cases v with
  | jobj pd =>
    simp only [playerHpOk]
    cases hhp : (jget pd "hp").elim (some (0 : ℚ)) jAsNum with
    | none => simp_all
    | some hp =>
      cases hmx : (jget pd "MAX_HP").elim (some (15 : ℚ)) jAsNum with
      | none => simp_all
      | some mx => simp_all
  | jnull => simp [playerHpOk]
  | jbool b => simp [playerHpOk]
  | jint n => simp [playerHpOk]
  | jnum q => simp [playerHpOk]
  | jstr s => simp [playerHpOk]
  | jarr xs => simp [playerHpOk]

theorem gridDimsOk_iff (v : JVal) :
    gridDimsOk v = true ↔
      ∃ gd r c, v = .jobj gd ∧
        (jget gd "rows").bind jAsNum = some r ∧
        (jget gd "columns").bind jAsNum = some c ∧ 0 < r ∧ 0 < c := by
  cases v with
  | jobj gd =>
    simp only [gridDimsOk]
    cases hr : (jget gd "rows").bind jAsNum with
    | none =>
      constructor
      · intro h; cases h
      · rintro ⟨gd', r, c, hgd, h1, h2⟩
        cases hgd
        rw [hr] at h1
        cases h1
    | some r =>
      cases hc : (jget gd "columns").bind jAsNum with
      | none =>
        constructor
        · intro h; cases h
        · rintro ⟨gd', r', c, hgd, h1, h2, h3⟩
          cases hgd
          rw [hc] at h2
          cases h2
      | some c => simp_all
  | jnull => simp [gridDimsOk]
  | jbool b => simp [gridDimsOk]
  | jint n => simp [gridDimsOk]
  | jnum q => simp [gridDimsOk]
  | jstr s => simp [gridDimsOk]
  | jarr xs => simp [gridDimsOk]

theorem playTimeOk_iff (d : List (String × JVal)) :
    playTimeOk d = true ↔ ∀ pv, jget d "play_time" = some pv → jIsNum pv = true := by
  unfold playTimeOk
  cases h : jget d "play_time" <;> simp_all

/-- The validation conditions, written out as the claim states them: a keyed
structure containing player, grid and level_index; player hp within
[0, max_hp] (with the source's defaults 0 and 15 for absent fields); positive
grid row and column counts; numeric play_time when present. -/
def ValidSaveCond (v : JVal) : Prop :=
  ∃ d, v = .jobj d ∧
    (jget d "player").isSome = true ∧ (jget d "grid").isSome = true ∧
    (jget d "level_index").isSome = true ∧
    (∃ pd hp mx, jget d "player" = some (.jobj pd) ∧
       (jget pd "hp").elim (some (0 : ℚ)) jAsNum = some hp ∧
       (jget pd "MAX_HP").elim (some (15 : ℚ)) jAsNum = some mx ∧
       0 ≤ hp ∧ hp ≤ mx) ∧
    (∃ gd r c, jget d "grid" = some (.jobj gd) ∧
       (jget gd "rows").bind jAsNum = some r ∧
       (jget gd "columns").bind jAsNum = some c ∧ 0 < r ∧ 0 < c) ∧
    (∀ pv, jget d "play_time" = some pv → jIsNum pv = true)

theorem validate_save_iff (v : JVal) : validate_save v = true ↔ ValidSaveCond v := by
  cases v with
  | jobj d =>
    simp only [validate_save, Bool.and_eq_true, ValidSaveCond, JVal.jobj.injEq,
      exists_eq_left']
    constructor
    · rintro ⟨⟨⟨⟨⟨hp1, hg1⟩, hl1⟩, hp2⟩, hg2⟩, ht⟩
      refine ⟨hp1, hg1, hl1, ?_, ?_, (playTimeOk_iff d).mp ht⟩
      · cases hpv : jget d "player" with
        | none => rw [hpv] at hp1; simp at hp1
        | some pv =>
          rw [hpv] at hp2
          simp only [Option.getD_some] at hp2
          obtain ⟨pd, hp', mx, hpd, h⟩ := (playerHpOk_iff pv).mp hp2
          exact ⟨pd, hp', mx, congrArg some hpd, h⟩
      · cases hgv : jget d "grid" with
        | none => rw [hgv] at hg1; simp at hg1
        | some gv =>
          rw [hgv] at hg2
          simp only [Option.getD_some] at hg2
          obtain ⟨gd, r, c, hgd, h⟩ := (gridDimsOk_iff gv).mp hg2
          exact ⟨gd, r, c, congrArg some hgd, h⟩
    · rintro ⟨hp1, hg1, hl1, ⟨pd, hp', mx, hpd, h1, h2, h3, h4⟩,
        ⟨gd, r, c, hgd, g1, g2, g3, g4⟩, ht⟩
      refine ⟨⟨⟨⟨⟨hp1, hg1⟩, hl1⟩, ?_⟩, ?_⟩, (playTimeOk_iff d).mpr ht⟩
      · rw [hpd]
        simp only [Option.getD_some]
        exact (playerHpOk_iff _).mpr ⟨pd, hp', mx, rfl, h1, h2, h3, h4⟩
      · rw [hgd]
        simp only [Option.getD_some]
        exact (gridDimsOk_iff _).mpr ⟨gd, r, c, rfl, g1, g2, g3, g4⟩
  | jnull => simp [validate_save, ValidSaveCond]
  | jbool b => simp [validate_save, ValidSaveCond]
  | jint n => simp [validate_save, ValidSaveCond]
  | jnum q => simp [validate_save, ValidSaveCond]
  | jstr s => simp [validate_save, ValidSaveCond]
  | jarr xs => simp [validate_save, ValidSaveCond]

/-- C4: a load accepts a document only if it is a keyed structure containing
player, grid and level_index, with player hp in [0, max_hp], positive grid
dimensions, and numeric play_time when present; every missing, corrupt or
invalid document yields `none` and the current grid, player, level index and
play time are left completely unchanged. -/
theorem load_only_validated_and_rejects_unchanged :
    (∀ (rng : DeserRng) (f : Int) (st : Session) (file : LoadInput),
       load_game rng f file = none → loadStep rng f st file = st) ∧
    (∀ (rng : DeserRng) (f : Int) (file : LoadInput) res,
       load_game rng f file = some res →
       ∃ v, file = some (some v) ∧ validate_save v = true) ∧
    (∀ v, validate_save v = true ↔ ValidSaveCond v) := by
  refine ⟨?_, ?_, validate_save_iff⟩
  · intro rng f st file h
    unfold loadStep
    rw [h]
  · intro rng f file res h
    match file with
    | none => simp [load_game] at h
    | some none => simp [load_game] at h
    | some (some v) =>
      refine ⟨v, rfl, ?_⟩
      by_contra hv
      simp only [load_game, hv, Bool.false_eq_true, not_false_eq_true, if_pos] at h
      cases h

/-! ## C5: unknown type-tag handling -/

def ITEM_TYPE_NAMES : List String := ["Gold", "Potion", "Dagger", "Sword", "Axe"]

/-- C5: when decoding, a tile or enemy document with an unknown type tag
falls back to a safe default type (FloorTile / base Enemy) rather than
failing, whereas an item document with an unknown type tag raises an error
that propagates (fatal to the load attempt). -/
theorem decode_unknown_type_asymmetry :
    (∀ (d : List (String × JVal)) (s : String) (cw : Item) (f r : Int) (wv : JVal)
       (it : Option Item) (en : Option Enemy),
       jget d "type" = some (.jstr s) → alget TILE_TYPES s = none →
       jget d "walkable" = some wv →
       item_from_dict (jgetD d "item") = .ok it →
       enemy_from_dict f r (jgetD d "enemy") = .ok en →
       ∃ t, tile_from_dict cw f r (.jobj d) = .ok t ∧ t.ttype = .floor) ∧
    (∀ (d : List (String × JVal)) (s : String) (f r : Int) (l : List Item),
       jget d "type" = some (.jstr s) → alget ENEMY_TYPES s = none →
       decode_drops d = .ok l →
       ∃ e, enemy_from_dict f r (.jobj d) = .ok (some e) ∧ e.etype = .base) ∧
    (∀ (d : List (String × JVal)) (s : String),
       jget d "type" = some (.jstr s) → s ∉ ITEM_TYPE_NAMES →
       ∃ msg, item_from_dict (.jobj d) = .error msg) := by
  refine ⟨?_, ?_, ?_⟩
  · intro d s cw f r wv it en hty hal hw hit hen
    simp only [tile_from_dict, hty, hal, Option.getD_none, hw, hit, hen]
    exact ⟨_, rfl, rfl⟩
  · intro d s f r l hty hal hdrops
    simp only [enemy_from_dict, hdrops, hty, hal, Option.getD_none]
    exact ⟨_, rfl, rfl⟩
  · intro d s hty hmem
    simp only [item_from_dict, hty]
    split <;> simp_all [ITEM_TYPE_NAMES]

/-! ## Grid surgery lemmas -/

theorem tileAt_eq_getD (g : Grid) (x y : Nat) :
    tileAt g x y = (tile? g x y).getD mkFloorTile := rfl

theorem tile?_of_at (g : Grid) (x y : Nat) (e : Enemy)
    (h : (tileAt g x y).enemy = some e) : tile? g x y = some (tileAt g x y) := by
  rw [tileAt_eq_getD] at h ⊢
  cases ht : tile? g x y with
  | none => rw [ht] at h; cases h
  | some t => simp [ht]

theorem length_updateTile (g : Grid) (x y : Nat) (f : Tile → Tile) :
    (updateTile g x y f).length = g.length := by
  unfold updateTile
  split
  · rfl
  · split
    · rfl
    · simp

theorem tile?_updateTile (g : Grid) (x y : Nat) (f : Tile → Tile) (x' y' : Nat) :
    tile? (updateTile g x y f) x' y' =
      if x' = x ∧ y' = y then (tile? g x y).map f else tile? g x' y' := by
  unfold updateTile
  split
  next hrow =>
    by_cases hc : x' = x ∧ y' = y
    · obtain ⟨hx, hy⟩ := hc
      subst hx; subst hy
      simp [tile?, hrow]
    · simp [hc]
  next row hrow =>
    split
    next hcell =>
      by_cases hc : x' = x ∧ y' = y
      · obtain ⟨hx, hy⟩ := hc
        subst hx; subst hy
        simp [tile?, hrow, hcell]
      · simp [hc]
    next t hcell =>
      have hylt : y < g.length := by
        rcases List.getElem?_eq_some.mp hrow with ⟨hy, -⟩
        exact hy
      have hxlt : x < row.length := by
        rcases List.getElem?_eq_some.mp hcell with ⟨hx, -⟩
        exact hx
      by_cases hy' : y' = y
      · subst hy'
        unfold tile?
        rw [show (g.set y' (row.set x (f t)))[y']? = some (row.set x (f t)) from
          List.getElem?_set_eq_of_lt _ hylt]
        simp only [Option.some_bind]
        by_cases hx' : x' = x
        · subst hx'
          rw [show (row.set x' (f t))[x']? = some (f t) from
            List.getElem?_set_eq_of_lt _ hxlt]
          simp [hrow, hcell]
        · rw [List.getElem?_set_ne (fun h => hx' h.symm)]
          simp [hrow, hx']
      · unfold tile?
        rw [List.getElem?_set_ne (fun h => hy' h.symm)]
        simp [hy']

theorem er_cons (row : List Tile) (g : Grid) :
    enemies_remaining (row :: g) =
      row.countP (fun t => t.enemy.isSome) + enemies_remaining g := by
  simp [enemies_remaining]

theorem countP_set_add {α : Type} (p : α → Bool) :
    ∀ (l : List α) (i : Nat) (a t : α), l[i]? = some t →
      (l.set i a).countP p + (if p t then 1 else 0) =
        l.countP p + (if p a then 1 else 0) := by
  intro l
  induction l with
  | nil => intro i a t h; cases h
  | cons hd tl ih =>
    intro i a t h
    cases i with
    | zero =>
      simp only [List.getElem?_cons_zero, Option.some.injEq] at h
      subst h
      simp only [List.set_cons_zero, List.countP_cons]
      omega
    | succ j =>
      simp only [List.getElem?_cons_succ] at h
      simp only [List.set_cons_succ, List.countP_cons]
      have := ih j a t h
      omega

theorem er_set_row :
    ∀ (g : Grid) (y : Nat) (row row' : List Tile), g[y]? = some row →
      enemies_remaining (g.set y row') + row.countP (fun t => t.enemy.isSome) =
        enemies_remaining g + row'.countP (fun t => t.enemy.isSome) := by
  intro g
  induction g with
  | nil => intro y row row' h; cases h
  | cons hd tl ih =>
    intro y row row' h
    cases y with
    | zero =>
      simp only [List.getElem?_cons_zero, Option.some.injEq] at h
      subst h
      simp only [List.set_cons_zero, er_cons]
      omega
    | succ j =>
      simp only [List.getElem?_cons_succ] at h
      simp only [List.set_cons_succ, er_cons]
      have := ih j row row' h
      omega

theorem updateTile_eq_set (g : Grid) (x y : Nat) (f : Tile → Tile)
    (row : List Tile) (t : Tile) (hrow : g[y]? = some row) (hcell : row[x]? = some t) :
    updateTile g x y f = g.set y (row.set x (f t)) := by
  unfold updateTile
  split
  next h => rw [h] at hrow; cases hrow
  next row' hrow' =>
    rw [hrow'] at hrow
    injection hrow with hrow
    subst hrow
    split
    next h => rw [h] at hcell; cases hcell
    next t' hcell' =>
      rw [hcell'] at hcell
      injection hcell with hcell
      subst hcell
      rfl

theorem er_updateTile (g : Grid) (x y : Nat) (f : Tile → Tile) (t : Tile)
    (h : tile? g x y = some t) :
    enemies_remaining (updateTile g x y f) + (if t.enemy.isSome then 1 else 0) =
      enemies_remaining g + (if (f t).enemy.isSome then 1 else 0) := by
  unfold tile? at h
  cases hrow : g[y]? with
  | none => rw [hrow] at h; cases h
  | some row =>
    rw [hrow] at h
    simp only [Option.some_bind] at h
    rw [updateTile_eq_set g x y f row t hrow h]
    have h1 := er_set_row g y row (row.set x (f t)) hrow
    have h2 := countP_set_add (fun t0 => t0.enemy.isSome) row x (f t) t h
    simp only [] at h2
    omega

theorem updateTile_none (g : Grid) (x y : Nat) (f : Tile → Tile)
    (h : tile? g x y = none) : updateTile g x y f = g := by
  unfold tile? at h
  unfold updateTile
  split
  next => rfl
  next row hrow =>
    rw [hrow] at h
    simp only [Option.some_bind] at h
    split
    next => rfl
    next t hcell => rw [hcell] at h; cases h

theorem er_pos_of_enemy (g : Grid) (x y : Nat) (t : Tile)
    (h : tile? g x y = some t) (he : t.enemy.isSome = true) :
    0 < enemies_remaining g := by
  unfold tile? at h
  cases hrow : g[y]? with
  | none => rw [hrow] at h; cases h
  | some row =>
    rw [hrow] at h
    simp only [Option.some_bind] at h
    have htm : t ∈ row := List.getElem?_mem h
    have h1 : 0 < row.countP (fun t => t.enemy.isSome) :=
      List.countP_pos.mpr ⟨t, htm, he⟩
    have hrm : row.countP (fun t => t.enemy.isSome) ∈
        g.map (fun row => row.countP (fun t => t.enemy.isSome)) :=
      List.mem_map_of_mem _ (List.getElem?_mem hrow)
    have h2 := List.single_le_sum
      (fun x _ => Nat.zero_le x)
      (row.countP (fun t => t.enemy.isSome)) hrm
    unfold enemies_remaining
    omega

/-- The per-tile mutation `unlockExits` applies. -/
def unlockF (t : Tile) : Tile :=
  if t.ttype = .exit then { t with walkable := true } else t

theorem unlockExits_grid (g : Grid) (log : List String) :
    (unlockExits g log).1 = g.map (List.map unlockF) := rfl

theorem unlockF_enemy (t : Tile) : (unlockF t).enemy = t.enemy := by
  unfold unlockF; split <;> rfl

theorem tile?_map (f : Tile → Tile) (g : Grid) (x y : Nat) :
    tile? (g.map (List.map f)) x y = (tile? g x y).map f := by
  unfold tile?
  rw [List.getElem?_map]
  cases g[y]? with
  | none => rfl
  | some row => simp [List.getElem?_map]

theorem er_map_unlock (g : Grid) :
    enemies_remaining (g.map (List.map unlockF)) = enemies_remaining g := by
  unfold enemies_remaining
  rw [List.map_map]
  congr 1
  apply List.map_congr_left
  intro row _
  simp only [Function.comp_apply, List.countP_map]
  apply List.countP_congr
  intro t _
  simp [unlockF_enemy]

/-! ## `take_damage` lemmas -/

theorem dropLoop_all_fit (ds : Nat → DropDecision) (ename : String) :
    ∀ (drops : List Item) (k : Nat) (p : Player) (log : List String),
      p.inventory.length + drops.length ≤ MAX_INVENTORY →
      (dropLoop ds ename drops k p log).1 =
        { p with inventory := p.inventory ++ drops } := by
  intro drops
  induction drops with
  | nil => intro k p log h; simp [dropLoop]
  | cons it rest ih =>
    intro k p log h
    have hlt : p.inventory.length < MAX_INVENTORY := by
      simp only [List.length_cons] at h
      omega
    simp only [dropLoop]
    rw [if_pos hlt]
    rw [ih]
    · simp
    · simp only [List.length_append, List.length_singleton, List.length_cons,
        List.length_nil] at h ⊢
      omega

theorem unlock_exits_walkable (g : Grid) (log : List String) (x y : Nat) (t : Tile)
    (h : tile? (unlockExits g log).1 x y = some t) (he : t.ttype = .exit) :
    t.walkable = true := by
  rw [unlockExits_grid, tile?_map] at h
  cases ht : tile? g x y with
  | none => rw [ht] at h; cases h
  | some t0 =>
    rw [ht] at h
    simp only [Option.map_some', Option.some.injEq] at h
    subst h
    unfold unlockF at he ⊢
    by_cases h0 : t0.ttype = .exit
    · simp [h0]
    · rw [if_neg h0] at he
      exact absurd he h0

/-- C3: `take_damage(amount)` with `amount ≥ hp` removes the enemy from its
tile; when the drops all fit (the inventory stays below capacity for each)
they are appended to the player's inventory; and if this was the last living
enemy in the grid, every Exit tile's walkable flag is set true. -/
theorem take_damage_lethal (amount : Int) (ds : Nat → DropDecision) (x y : Nat)
    (st : GState) (e : Enemy)
    (he : (tileAt st.grid x y).enemy = some e)
    (hk : e.hp ≤ amount) :
    (tileAt (take_damage amount ds x y st).grid x y).enemy = none ∧
    (st.player.inventory.length + e.item_drop.length ≤ MAX_INVENTORY →
      (take_damage amount ds x y st).player.inventory =
        st.player.inventory ++ e.item_drop) ∧
    (enemies_remaining st.grid = 1 →
      ∀ x' y' t, tile? (take_damage amount ds x y st).grid x' y' = some t →
        t.ttype = .exit → t.walkable = true) := by
  have hnot : ¬ 0 < e.hp - amount := by omega
  have htq := tile?_of_at st.grid x y e he
  simp only [take_damage, he, hnot, if_false, reduceIte]
  set t0 := tileAt st.grid x y with ht0
  set g1 := updateTile st.grid x y (fun t => { t with enemy := none }) with hg1
  have htile1 : tile? g1 x y = some { t0 with enemy := none } := by
    rw [hg1, tile?_updateTile]
    simp [htq]
  have her1 : enemies_remaining g1 + 1 = enemies_remaining st.grid := by
    have h := er_updateTile st.grid x y (fun t => { t with enemy := none }) t0 htq
    rw [← hg1] at h
    simp only [he, Option.isSome_some, if_pos, Option.isSome_none] at h
    simpa using h
  refine ⟨?_, ?_, ?_⟩
  · by_cases hz : enemies_remaining g1 = 0
    · simp only [hz, if_pos, reduceIte]
      rw [tileAt_eq_getD, unlockExits_grid, tile?_map, htile1]
      simp [unlockF_enemy]
    · simp only [hz, if_neg, reduceIte]
      rw [tileAt_eq_getD, htile1]
      rfl
  · intro hfit
    by_cases hz : enemies_remaining g1 = 0 <;>
      simp only [hz, reduceIte] <;>
      rw [dropLoop_all_fit ds e.name e.item_drop 0 st.player _ hfit]
  · intro hone x' y' t ht hexit
    have hz : enemies_remaining g1 = 0 := by omega
    rw [hz] at ht
    simp only [reduceIte] at ht
    exact unlock_exits_walkable g1 _ x' y' t ht hexit

/-! ## Shape and invariant plumbing -/

/-- A tile with the enemy slot forgotten (what `move_enemies` leaves alone). -/
def stripEnemy (t : Tile) : Tile := { t with enemy := none }

/-- Every row has the grid's column count (the maps are rectangular and all
grid surgery preserves row lengths). -/
def Rect (g : Grid) : Prop := ∀ row ∈ g, row.length = ncols g

/-- The player's coordinates address a real cell. -/
def PlayerIn (s : GState) : Prop :=
  0 ≤ s.player.x ∧ s.player.x < ncols s.grid ∧
  0 ≤ s.player.y ∧ s.player.y < s.grid.length

theorem ncols_eq_headI_map (g : Grid) : (ncols g : Nat) = (g.map List.length).headI := by
  cases g <;> rfl

theorem ncols_eq_of_rowLens {g g' : Grid}
    (h : g'.map List.length = g.map List.length) : ncols g' = ncols g := by
  rw [ncols_eq_headI_map, ncols_eq_headI_map, h]

theorem length_eq_of_rowLens {g g' : Grid}
    (h : g'.map List.length = g.map List.length) : g'.length = g.length := by
  have := congrArg List.length h
  simpa using this

theorem Rect_of_rowLens {g g' : Grid}
    (h : g'.map List.length = g.map List.length) (hr : Rect g) : Rect g' := by
  intro row' hm
  have h1 : row'.length ∈ g'.map List.length := List.mem_map_of_mem _ hm
  rw [h] at h1
  rcases List.mem_map.mp h1 with ⟨row, hrow, hlen⟩
  rw [ncols_eq_of_rowLens h, ← hlen]
  exact (hr row hrow).symm ▸ rfl

theorem rowLens_set_same (g : Grid) :
    ∀ (y : Nat) (row row' : List Tile), g[y]? = some row → row'.length = row.length →
      (g.set y row').map List.length = g.map List.length := by
  induction g with
  | nil => intro y row row' h _; cases h
  | cons hd tl ih =>
    intro y row row' h hlen
    cases y with
    | zero =>
      simp only [List.getElem?_cons_zero, Option.some.injEq] at h
      subst h
      simp [hlen]
    | succ j =>
      simp only [List.getElem?_cons_succ] at h
      simp only [List.set_cons_succ, List.map_cons]
      rw [ih j row row' h hlen]

theorem rowLens_updateTile (g : Grid) (x y : Nat) (f : Tile → Tile) :
    (updateTile g x y f).map List.length = g.map List.length := by
  unfold updateTile
  split
  next => rfl
  next row hrow =>
    split
    next => rfl
    next t hcell =>
      exact rowLens_set_same g y row (row.set x (f t)) hrow (by simp)

theorem tile?_isSome_of_pos (g : Grid) (hr : Rect g) (x y : Nat)
    (hx : x < ncols g) (hy : y < g.length) : ∃ t, tile? g x y = some t := by
  have hrow : g[y]? = some g[y] := List.getElem?_eq_getElem hy
  have hmem : g[y] ∈ g := List.getElem_mem hy
  have hlen : g[y].length = ncols g := hr _ hmem
  have hcell : (g[y])[x]? = some (g[y])[x] :=
    List.getElem?_eq_getElem (by rw [hlen]; exact hx)
  refine ⟨(g[y])[x], ?_⟩
  unfold tile?
  rw [hrow]
  simp only [Option.some_bind]
  exact hcell

/-- What one `move_enemies` pass (or a prefix of it) does to the state: it
only rearranges enemy slots (everything else per tile is untouched, row
shapes kept), only the player's hp can change (by attacks), the living-enemy
count never increases, never drops to zero, and an empty grid pass is the
identity on the grid. -/
def MoveEffects (st s' : GState) : Prop :=
  (∀ x y, (tile? s'.grid x y).map stripEnemy = (tile? st.grid x y).map stripEnemy) ∧
  s'.grid.map List.length = st.grid.map List.length ∧
  (∃ hp', s'.player = { st.player with hp := hp' }) ∧
  s'.run_away = st.run_away ∧
  enemies_remaining s'.grid ≤ enemies_remaining st.grid ∧
  (0 < enemies_remaining st.grid → 0 < enemies_remaining s'.grid) ∧
  (enemies_remaining st.grid = 0 → s'.grid = st.grid)

theorem MoveEffects.refl (st : GState) : MoveEffects st st :=
  ⟨fun _ _ => Eq.refl _, Eq.refl _, ⟨st.player.hp, Eq.refl _⟩, Eq.refl _,
   le_refl _, fun h => h, fun _ => Eq.refl _⟩

theorem MoveEffects.trans {a b c : GState}
    (h1 : MoveEffects a b) (h2 : MoveEffects b c) : MoveEffects a c := by
  obtain ⟨t1, l1, ⟨hp1, p1⟩, r1, e1, p1', z1⟩ := h1
  obtain ⟨t2, l2, ⟨hp2, p2⟩, r2, e2, p2', z2⟩ := h2
  refine ⟨fun x y => (t2 x y).trans (t1 x y), l2.trans l1, ⟨hp2, ?_⟩,
    r2.trans r1, le_trans e2 e1, fun h => p2' (p1' h), ?_⟩
  · rw [p2, p1]
  · intro hz
    have hb : enemies_remaining b.grid = 0 := by omega
    rw [z2 hb, z1 hz]

theorem tile?_strip_update (g : Grid) (x y : Nat) (e : Option Enemy) (a b : Nat) :
    (tile? (updateTile g x y (fun t => { t with enemy := e })) a b).map stripEnemy =
      (tile? g a b).map stripEnemy := by
  rw [tile?_updateTile]
  by_cases hc : a = x ∧ b = y
  · obtain ⟨ha, hb⟩ := hc
    subst ha; subst hb
    rw [if_pos ⟨rfl, rfl⟩]
    cases tile? g a b <;> rfl
  · rw [if_neg hc]

theorem in_bounds_toNat (g : Grid) (cx cy : Int) (h : in_bounds g cx cy = true) :
    cx.toNat < ncols g ∧ cy.toNat < g.length := by
  unfold in_bounds at h
  simp only [Bool.and_eq_true, decide_eq_true_eq] at h
  obtain ⟨⟨⟨h1, h2⟩, h3⟩, h4⟩ := h
  omega

theorem not_blocked_facts (g : Grid) (cx cy : Int)
    (h : is_blocked_for_enemy g cx cy = false) :
    in_bounds g cx cy = true ∧ (tileAt g cx.toNat cy.toNat).enemy = none ∧
      (tileAt g cx.toNat cy.toNat).walkable = true := by
  unfold is_blocked_for_enemy at h
  simp only [] at h
  split_ifs at h with h1 h2 h3 h4 h5
  exact ⟨h1, Option.not_isSome_iff_eq_none.mp h3, h2⟩

theorem playerIn_toNat (s : GState) (h : PlayerIn s) :
    s.player.x.toNat < ncols s.grid ∧ s.player.y.toNat < s.grid.length := by
  obtain ⟨h1, h2, h3, h4⟩ := h
  omega

/-- Moving one enemy off `(x, y)` onto a target cell `(tx, ty)` that exists
in the (rectangular) grid: the non-enemy tile data and row shapes are
unchanged, the count cannot grow, and at least the moved enemy survives. -/
theorem relocate_effects (g : Grid) (x y tx ty : Nat) (e : Enemy) (e' : Enemy)
    (he : (tileAt g x y).enemy = some e)
    (ht : ∃ t1, tile? (updateTile g x y (fun t => { t with enemy := none })) tx ty = some t1) :
    (∀ a b, (tile? (updateTile (updateTile g x y (fun t => { t with enemy := none }))
        tx ty (fun t => { t with enemy := some e' })) a b).map stripEnemy =
      (tile? g a b).map stripEnemy) ∧
    (updateTile (updateTile g x y (fun t => { t with enemy := none }))
        tx ty (fun t => { t with enemy := some e' })).map List.length =
      g.map List.length ∧
    enemies_remaining (updateTile (updateTile g x y (fun t => { t with enemy := none }))
        tx ty (fun t => { t with enemy := some e' })) ≤ enemies_remaining g ∧
    0 < enemies_remaining (updateTile (updateTile g x y (fun t => { t with enemy := none }))
        tx ty (fun t => { t with enemy := some e' })) := by
  obtain ⟨t1, ht1⟩ := ht
  have htq := tile?_of_at g x y e he
  have her1 := er_updateTile g x y (fun t => { t with enemy := none }) _ htq
  rw [he] at her1
  simp only [Option.isSome_some, Option.isSome_none, Bool.false_eq_true, if_true,
    if_false, reduceIte] at her1
  have her2 := er_updateTile _ tx ty (fun t => { t with enemy := some e' }) t1 ht1
  simp only [Option.isSome_some, if_pos, reduceIte] at her2
  have hpos : tile? (updateTile (updateTile g x y (fun t => { t with enemy := none }))
      tx ty (fun t => { t with enemy := some e' })) tx ty =
      some { t1 with enemy := some e' } := by
    rw [tile?_updateTile, if_pos ⟨rfl, rfl⟩, ht1]
    rfl
  refine ⟨?_, ?_, ?_, ?_⟩
  · intro a b
    rw [tile?_strip_update, tile?_strip_update]
  · rw [rowLens_updateTile, rowLens_updateTile]
  · omega
  · exact er_pos_of_enemy _ tx ty _ hpos rfl

theorem playerIn_transfer (s s' : GState)
    (hL : s'.grid.map List.length = s.grid.map List.length)
    (hx : s'.player.x = s.player.x) (hy : s'.player.y = s.player.y)
    (h : PlayerIn s) : PlayerIn s' := by
  obtain ⟨h1, h2, h3, h4⟩ := h
  refine ⟨hx ▸ h1, ?_, hy ▸ h3, ?_⟩
  · rw [hx, ncols_eq_of_rowLens hL]; exact h2
  · rw [hy, length_eq_of_rowLens hL]; exact h4

/-- Every exit tile's walkable flag is true exactly when the grid-wide
living-enemy count is zero. -/
def ExitsInv (g : Grid) : Prop :=
  ∀ x y t, tile? g x y = some t → t.ttype = .exit →
    (t.walkable = true ↔ enemies_remaining g = 0)

/-- The tile under the player exists and is walkable. -/
def PlayerTile (s : GState) : Prop :=
  ∃ t, tile? s.grid s.player.x.toNat s.player.y.toNat = some t ∧ t.walkable = true

/-- Enemies only ever occupy walkable tiles. -/
def EnemiesOnWalkable (g : Grid) : Prop :=
  ∀ x y t, tile? g x y = some t → t.enemy.isSome = true → t.walkable = true

/-- A missing cell inside the nominal bounds (the level-3 map has one short
row) is fenced off: every existing neighbour of it is a non-walkable
non-exit tile, so nothing ever steps into the gap. -/
def SafeHoles (g : Grid) : Prop :=
  ∀ x y, x < ncols g → y < g.length → tile? g x y = none →
    ∀ p ∈ [(x, y - 1), (x, y + 1), (x - 1, y), (x + 1, y)],
      ∀ t, tile? g p.1 p.2 = some t → t.walkable = false ∧ ¬ t.ttype = .exit

/-- The state invariant every reachable in-level state satisfies. -/
def Inv (s : GState) : Prop :=
  PlayerIn s ∧ PlayerTile s ∧ EnemiesOnWalkable s.grid ∧ SafeHoles s.grid ∧
  ExitsInv s.grid

theorem tile?_proj_update {β : Type} (proj : Tile → β) (g : Grid) (x y : Nat)
    (f : Tile → Tile) (hf : ∀ t, proj (f t) = proj t) (a b : Nat) :
    (tile? (updateTile g x y f) a b).map proj = (tile? g a b).map proj := by
  rw [tile?_updateTile]
  by_cases hc : a = x ∧ b = y
  · obtain ⟨ha, hb⟩ := hc
    subst ha; subst hb
    rw [if_pos ⟨rfl, rfl⟩]
    cases tile? g a b with
    | none => rfl
    | some t => simp [hf t]
  · rw [if_neg hc]

theorem tile?_proj_mapgrid {β : Type} (proj : Tile → β) (g : Grid)
    (f : Tile → Tile) (hf : ∀ t, proj (f t) = proj t) (a b : Nat) :
    (tile? (g.map (List.map f)) a b).map proj = (tile? g a b).map proj := by
  rw [tile?_map]
  cases tile? g a b with
  | none => rfl
  | some t => simp [hf t]

theorem er_updateTile_keep (g : Grid) (x y : Nat) (f : Tile → Tile)
    (hf : ∀ t, (f t).enemy = t.enemy) :
    enemies_remaining (updateTile g x y f) = enemies_remaining g := by
  cases ht : tile? g x y with
  | none => rw [updateTile_none g x y f ht]
  | some t =>
    have h := er_updateTile g x y f t ht
    rw [hf t] at h
    omega

theorem exitsInv_transfer (g g' : Grid)
    (hw : ∀ a b, (tile? g' a b).map (fun t => (t.ttype, t.walkable)) =
                 (tile? g a b).map (fun t => (t.ttype, t.walkable)))
    (her : (enemies_remaining g' = 0) ↔ (enemies_remaining g = 0))
    (hA : ExitsInv g) : ExitsInv g' := by
  intro x y t' ht' hexit
  have hwx := hw x y
  rw [ht'] at hwx
  cases ht : tile? g x y with
  | none => rw [ht] at hwx; cases hwx
  | some t =>
    rw [ht] at hwx
    simp only [Option.map_some', Option.some.injEq, Prod.mk.injEq] at hwx
    obtain ⟨hty, hwk⟩ := hwx
    rw [hwk]
    rw [hty] at hexit
    exact (hA x y t ht hexit).trans her.symm

theorem stripEnemy_proj (t t' : Tile) (h : stripEnemy t' = stripEnemy t) :
    t'.ttype = t.ttype ∧ t'.symbol = t.symbol ∧ t'.walkable = t.walkable ∧
    t'.item = t.item ∧ t'.treasure = t.treasure := by
  have h1 : (stripEnemy t').ttype = (stripEnemy t).ttype := congrArg Tile.ttype h
  have h2 : (stripEnemy t').symbol = (stripEnemy t).symbol := congrArg Tile.symbol h
  have h3 : (stripEnemy t').walkable = (stripEnemy t).walkable := congrArg Tile.walkable h
  have h4 : (stripEnemy t').item = (stripEnemy t).item := congrArg Tile.item h
  have h5 : (stripEnemy t').treasure = (stripEnemy t).treasure := congrArg Tile.treasure h
  exact ⟨h1, h2, h3, h4, h5⟩

theorem rowLens_mapgrid (g : Grid) (f : Tile → Tile) :
    (g.map (List.map f)).map List.length = g.map List.length := by
  rw [List.map_map]
  apply List.map_congr_left
  intro row _
  simp

theorem isSome_of_proj {β : Type} (proj : Tile → β) (g g' : Grid)
    (h : ∀ a b, (tile? g' a b).map proj = (tile? g a b).map proj) (a b : Nat) :
    (tile? g' a b).isSome = (tile? g a b).isSome := by
  have hx := congrArg Option.isSome (h a b)
  simpa using hx

theorem tw_of_strip (g g' : Grid)
    (hstrip : ∀ a b, (tile? g' a b).map stripEnemy = (tile? g a b).map stripEnemy) :
    ∀ a b, (tile? g' a b).map (fun t => (t.ttype, t.walkable)) =
      (tile? g a b).map (fun t => (t.ttype, t.walkable)) := by
  have key : ∀ o : Option Tile, o.map (fun t => (t.ttype, t.walkable)) =
      (o.map stripEnemy).map (fun t => (t.ttype, t.walkable)) := by
    intro o
    cases o <;> rfl
  intro a b
  rw [key (tile? g' a b), key (tile? g a b), hstrip a b]

theorem safeHoles_transfer (g g' : Grid)
    (hlens : g'.map List.length = g.map List.length)
    (htw : ∀ a b, (tile? g' a b).map (fun t => (t.ttype, t.walkable)) =
      (tile? g a b).map (fun t => (t.ttype, t.walkable)))
    (h : SafeHoles g) : SafeHoles g' := by
  intro x y hx hy hnone p hp t' ht'
  have hx2 : x < ncols g := by rw [← ncols_eq_of_rowLens hlens]; exact hx
  have hy2 : y < g.length := by rw [← length_eq_of_rowLens hlens]; exact hy
  have hnone2 : tile? g x y = none := by
    have hs := isSome_of_proj _ g g' htw x y
    rw [hnone] at hs
    cases hcc : tile? g x y
    · rfl
    · rw [hcc] at hs; cases hs
  have hq := htw p.1 p.2
  rw [ht'] at hq
  cases hcc : tile? g p.1 p.2 with
  | none => rw [hcc] at hq; cases hq
  | some t =>
    rw [hcc] at hq
    simp only [Option.map_some', Option.some.injEq, Prod.mk.injEq] at hq
    obtain ⟨hty, hwk⟩ := hq
    obtain ⟨hw0, he0⟩ := h x y hx2 hy2 hnone2 p hp t hcc
    exact ⟨by rw [hwk, hw0], by rw [hty]; exact he0⟩

theorem playerTile_mono (s s' : GState)
    (hsome : ∀ a b, (tile? s'.grid a b).isSome = (tile? s.grid a b).isSome)
    (hw : ∀ a b t t', tile? s.grid a b = some t → tile? s'.grid a b = some t' →
      t.walkable = true → t'.walkable = true)
    (hx : s'.player.x = s.player.x) (hy : s'.player.y = s.player.y)
    (h : PlayerTile s) : PlayerTile s' := by
  obtain ⟨t, ht, htw⟩ := h
  have hs := hsome s.player.x.toNat s.player.y.toNat
  rw [ht] at hs
  cases hc : tile? s'.grid s.player.x.toNat s.player.y.toNat with
  | none => rw [hc] at hs; cases hs
  | some t' =>
    exact ⟨t', by rw [hx, hy]; exact hc, hw _ _ t t' ht hc htw⟩

theorem eow_of (g g' : Grid)
    (h : ∀ a b t', tile? g' a b = some t' → t'.enemy.isSome = true →
      t'.walkable = true ∨
      (∃ t, tile? g a b = some t ∧ t.enemy.isSome = true ∧ t'.walkable = t.walkable))
    (hE : EnemiesOnWalkable g) : EnemiesOnWalkable g' := by
  intro a b t' ht' hen
  rcases h a b t' ht' hen with hw | ⟨t, ht, hen2, hww⟩
  · exact hw
  · rw [hww]
    exact hE a b t ht hen2

theorem eow_set_none (g : Grid) (x y : Nat) (hE : EnemiesOnWalkable g) :
    EnemiesOnWalkable (updateTile g x y (fun t => { t with enemy := none })) := by
  refine eow_of g _ ?_ hE
  intro a b t' ht' hen
  rw [tile?_updateTile] at ht'
  by_cases hc : a = x ∧ b = y
  · obtain ⟨h1, h2⟩ := hc
    subst h1; subst h2
    rw [if_pos ⟨rfl, rfl⟩] at ht'
    cases htg : tile? g a b with
    | none =>
      rw [htg] at ht'
      simp at ht'
    | some t =>
      rw [htg] at ht'
      simp only [Option.map_some', Option.some.injEq] at ht'
      have hnone : t'.enemy = none := by rw [← ht']
      rw [hnone] at hen
      cases hen
  · rw [if_neg hc] at ht'
    exact Or.inr ⟨t', ht', hen, rfl⟩

theorem eow_set_some (g : Grid) (x y : Nat) (e' : Enemy)
    (hwk : ∀ t, tile? g x y = some t → t.walkable = true)
    (hE : EnemiesOnWalkable g) :
    EnemiesOnWalkable (updateTile g x y (fun t => { t with enemy := some e' })) := by
  refine eow_of g _ ?_ hE
  intro a b t' ht' hen
  rw [tile?_updateTile] at ht'
  by_cases hc : a = x ∧ b = y
  · obtain ⟨h1, h2⟩ := hc
    subst h1; subst h2
    rw [if_pos ⟨rfl, rfl⟩] at ht'
    cases htg : tile? g a b with
    | none =>
      rw [htg] at ht'
      simp at ht'
    | some t =>
      rw [htg] at ht'
      simp only [Option.map_some', Option.some.injEq] at ht'
      left
      have hwt : t'.walkable = t.walkable := by rw [← ht']
      rw [hwt]
      exact hwk t htg
  · rw [if_neg hc] at ht'
    exact Or.inr ⟨t', ht', hen, rfl⟩

theorem eow_unlock (g : Grid) (hE : EnemiesOnWalkable g) :
    EnemiesOnWalkable (g.map (List.map unlockF)) := by
  refine eow_of g _ ?_ hE
  intro a b t' ht' hen
  rw [tile?_map] at ht'
  cases htg : tile? g a b with
  | none =>
    rw [htg] at ht'
    simp at ht'
  | some t =>
    rw [htg] at ht'
    simp only [Option.map_some', Option.some.injEq] at ht'
    by_cases hty : t.ttype = .exit
    · left
      rw [← ht']
      unfold unlockF
      rw [if_pos hty]
    · right
      refine ⟨t, rfl, ?_, ?_⟩
      · rw [← ht'] at hen
        rw [unlockF_enemy] at hen
        exact hen
      · rw [← ht']
        unfold unlockF
        rw [if_neg hty]

theorem safeHoles_unlock (g : Grid) (h : SafeHoles g) :
    SafeHoles (g.map (List.map unlockF)) := by
  intro x y hx hy hnone p hp t' ht'
  have hlens := rowLens_mapgrid g unlockF
  have hx2 : x < ncols g := by rw [← ncols_eq_of_rowLens hlens]; exact hx
  have hy2 : y < g.length := by rw [← length_eq_of_rowLens hlens]; exact hy
  have hnone2 : tile? g x y = none := by
    rw [tile?_map] at hnone
    cases htg : tile? g x y
    · rfl
    · rw [htg] at hnone
      simp at hnone
  rw [tile?_map] at ht'
  cases htg : tile? g p.1 p.2 with
  | none =>
    rw [htg] at ht'
    simp at ht'
  | some t =>
    rw [htg] at ht'
    simp only [Option.map_some', Option.some.injEq] at ht'
    obtain ⟨hw0, he0⟩ := h x y hx2 hy2 hnone2 p hp t htg
    have ht2 : t' = t := by
      rw [← ht']
      unfold unlockF
      rw [if_neg he0]
    rw [ht2]
    exact ⟨hw0, he0⟩

theorem safeHoles_of_rect (g : Grid) (h : Rect g) : SafeHoles g := by
  intro x y hx hy hnone
  obtain ⟨t, ht⟩ := tile?_isSome_of_pos g h x y hx hy
  rw [ht] at hnone
  cases hnone

theorem tile?_mem (g : Grid) (x y : Nat) (t : Tile) (h : tile? g x y = some t) :
    t ∈ g.flatten := by
  unfold tile? at h
  cases hrow : g[y]? with
  | none => rw [hrow] at h; cases h
  | some row =>
    rw [hrow] at h
    simp only [Option.some_bind] at h
    exact List.mem_flatten.mpr ⟨row, List.getElem?_mem hrow, List.getElem?_mem h⟩

theorem eow_of_flatten (g : Grid)
    (h : ∀ t ∈ g.flatten, t.enemy.isSome = true → t.walkable = true) :
    EnemiesOnWalkable g :=
  fun x y t ht hen => h t (tile?_mem g x y t ht) hen

theorem playerTile_of_strip (s s' : GState)
    (hstrip : ∀ a b, (tile? s'.grid a b).map stripEnemy =
      (tile? s.grid a b).map stripEnemy)
    (hx : s'.player.x = s.player.x) (hy : s'.player.y = s.player.y)
    (h : PlayerTile s) : PlayerTile s' := by
  refine playerTile_mono s s' (isSome_of_proj stripEnemy s.grid s'.grid hstrip)
    ?_ hx hy h
  intro a b t t' ht ht' hw
  have hq := hstrip a b
  rw [ht, ht'] at hq
  simp only [Option.map_some', Option.some.injEq] at hq
  obtain ⟨-, -, hww, -, -⟩ := stripEnemy_proj t t' hq
  rw [hww]
  exact hw

theorem in_bounds_facts (g : Grid) (cx cy : Int) (h : in_bounds g cx cy = true) :
    0 ≤ cx ∧ 0 ≤ cy ∧ cx.toNat < ncols g ∧ cy.toNat < g.length := by
  unfold in_bounds at h
  simp only [Bool.and_eq_true, decide_eq_true_eq] at h
  obtain ⟨⟨⟨h1, h2⟩, h3⟩, h4⟩ := h
  exact ⟨h3, h1, by omega, by omega⟩

theorem moveStep_combine {st st' out : GState} (h1 : MoveEffects st st')
    (hcont : MoveEffects st' out ∧ EnemiesOnWalkable out.grid) :
    MoveEffects st out ∧ EnemiesOnWalkable out.grid :=
  ⟨MoveEffects.trans h1 hcont.1, hcont.2⟩

theorem moveEnemiesAux_effects (rng : MoveRng) :
    ∀ (l : List (Nat × Nat × Enemy)) (k : Nat) (res : List (Int × Int)) (st : GState),
      PlayerIn st → PlayerTile st → EnemiesOnWalkable st.grid → SafeHoles st.grid →
      MoveEffects st (outSt (moveEnemiesAux rng l k res st)) ∧
      EnemiesOnWalkable (outSt (moveEnemiesAux rng l k res st)).grid := by
  intro l
  induction l with
  | nil =>
    intro k res st _ _ hE _
    exact ⟨MoveEffects.refl st, hE⟩
  | cons hd rest ih =>
    obtain ⟨x, y, e⟩ := hd
    intro k res st hPin hPT hE hS
    by_cases h1 : (tileAt st.grid x y).enemy ≠ some e
    · simp only [moveEnemiesAux, if_pos h1]
      exact ih (k + 1) res st hPin hPT hE hS
    · have he : (tileAt st.grid x y).enemy = some e := not_not.mp h1
      have htq := tile?_of_at st.grid x y e he
      have herpos : 0 < enemies_remaining st.grid :=
        er_pos_of_enemy st.grid x y _ htq (by rw [he]; rfl)
      by_cases h2 : ¬ e.can_move
      · simp only [moveEnemiesAux, if_neg h1, if_pos h2]
        exact ih (k + 1) res st hPin hPT hE hS
      · by_cases h3 : (x : Int) = st.player.x ∧ (y : Int) = st.player.y
        · simp only [moveEnemiesAux, if_neg h1, if_neg h2, if_pos h3]
          exact ih (k + 1) res st hPin hPT hE hS
        · by_cases h4 :
            ((x : Int) - st.player.x).natAbs + ((y : Int) - st.player.y).natAbs = 1
          · by_cases h5 : (st.player.x, st.player.y) ∈ res
            · simp only [moveEnemiesAux, if_neg h1, if_neg h2, if_neg h3, if_pos h4,
                if_pos h5]
              exact ih (k + 1) res st hPin hPT hE hS
            · by_cases h6 : rng.engage k
              · -- engage: relocate onto the player's cell and attack
                simp only [moveEnemiesAux, if_neg h1, if_neg h2, if_neg h3, if_pos h4,
                  if_neg h5, h6, if_true]
                obtain ⟨tp, htp, htpw⟩ := hPT
                have ht1 : ∃ t1, tile? (updateTile st.grid x y
                    (fun t => { t with enemy := none }))
                    st.player.x.toNat st.player.y.toNat = some t1 := by
                  have hq := tile?_strip_update st.grid x y none
                    st.player.x.toNat st.player.y.toNat
                  rw [htp] at hq
                  cases hcc : tile? (updateTile st.grid x y
                      (fun t => { t with enemy := none }))
                      st.player.x.toNat st.player.y.toNat with
                  | none => rw [hcc] at hq; cases hq
                  | some t1 => exact ⟨t1, rfl⟩
                have heff := relocate_effects st.grid x y
                  st.player.x.toNat st.player.y.toNat e
                  { e with x := st.player.x, y := st.player.y } he ht1
                obtain ⟨hstrip, hlens, hle, hpos⟩ := heff
                have hwk1 : ∀ t1, tile? (updateTile st.grid x y
                    (fun t => { t with enemy := none }))
                    st.player.x.toNat st.player.y.toNat = some t1 →
                    t1.walkable = true := by
                  intro t1 hcc
                  have hq := tile?_strip_update st.grid x y none
                    st.player.x.toNat st.player.y.toNat
                  rw [htp, hcc] at hq
                  simp only [Option.map_some', Option.some.injEq] at hq
                  obtain ⟨-, -, hww, -, -⟩ := stripEnemy_proj tp t1 hq
                  rw [hww]
                  exact htpw
                have hE2 := eow_set_some (updateTile st.grid x y
                    (fun t => { t with enemy := none }))
                  st.player.x.toNat st.player.y.toNat
                  { e with x := st.player.x, y := st.player.y } hwk1
                  (eow_set_none st.grid x y hE)
                by_cases hdead :
                    st.player.hp - rng.atkRoll k ≤ 0
                · simp only [enemy_attack, hdead, if_pos, outSt]
                  exact ⟨⟨hstrip, hlens, ⟨_, rfl⟩, rfl, hle, fun _ => hpos,
                    fun hz => absurd hz (by omega)⟩, hE2⟩
                · simp only [enemy_attack, hdead, if_neg, if_false, reduceIte]
                  refine moveStep_combine ?step
                    (ih (k + 1) ((st.player.x, st.player.y) :: res) _ ?_ ?_ ?_ ?_)
                  case step =>
                    exact ⟨hstrip, hlens, ⟨_, rfl⟩, rfl, hle, fun _ => hpos,
                      fun hz => absurd hz (by omega)⟩
                  · exact playerIn_transfer st _ hlens rfl rfl hPin
                  · exact playerTile_of_strip st _ hstrip rfl rfl ⟨tp, htp, htpw⟩
                  · exact hE2
                  · exact safeHoles_transfer st.grid _ hlens (tw_of_strip _ _ hstrip) hS
              · simp only [moveEnemiesAux, if_neg h1, if_neg h2, if_neg h3, if_pos h4,
                  if_neg h5, h6, if_false, reduceIte]
                exact ih (k + 1) res st hPin hPT hE hS
          · by_cases h7 : ((surrounding_tiles x y).filter
                (fun c => ¬ is_blocked_for_enemy st.grid c.1 c.2 ∧ c ∉ res)).isEmpty
            · simp only [moveEnemiesAux, if_neg h1, if_neg h2, if_neg h3, if_neg h4, h7,
                if_true]
              exact ih (k + 1) res st hPin hPT hE hS
            · -- relocate to a free neighbouring cell
              simp only [moveEnemiesAux, if_neg h1, if_neg h2, if_neg h3, if_neg h4, h7,
                if_false, reduceIte]
              set possible := (surrounding_tiles x y).filter
                (fun c => ¬ is_blocked_for_enemy st.grid c.1 c.2 ∧ c ∉ res) with hposs
              have hne : possible ≠ [] := by
                intro hc
                rw [hc] at h7
                exact h7 rfl
              have hlen : rng.choose k % possible.length < possible.length :=
                Nat.mod_lt _ (List.length_pos.mpr hne)
              have hmem : possible.getD (rng.choose k % possible.length) (0, 0) ∈ possible := by
                rw [List.getD_eq_getElem?_getD, List.getElem?_eq_getElem hlen]
                exact List.getElem_mem hlen
              set c := possible.getD (rng.choose k % possible.length) (0, 0) with hc
              have hfilter := List.mem_filter.mp hmem
              have hprops := of_decide_eq_true hfilter.2
              have hnb : is_blocked_for_enemy st.grid c.1 c.2 = false := by
                have := hprops.1
                simpa using this
              obtain ⟨hib, -, hwkb⟩ := not_blocked_facts st.grid c.1 c.2 hnb
              obtain ⟨hc1nn, hc2nn, hcx, hcy⟩ := in_bounds_facts st.grid c.1 c.2 hib
              have hex : ∃ t2, tile? st.grid c.1.toNat c.2.toNat = some t2 := by
                cases htn : tile? st.grid c.1.toNat c.2.toNat with
                | some t2 => exact ⟨t2, rfl⟩
                | none =>
                  exfalso
                  have hmem4 : c ∈ surrounding_tiles (x : Int) (y : Int) := hfilter.1
                  unfold surrounding_tiles at hmem4
                  simp only [List.mem_cons, List.not_mem_nil, or_false,
                    Prod.ext_iff] at hmem4
                  have hmemnbr : ((x : Nat), (y : Nat)) ∈
                      [(c.1.toNat, c.2.toNat - 1), (c.1.toNat, c.2.toNat + 1),
                       (c.1.toNat - 1, c.2.toNat), (c.1.toNat + 1, c.2.toNat)] := by
                    simp only [List.mem_cons, List.not_mem_nil, or_false, Prod.ext_iff]
                    omega
                  have hnbr := hS c.1.toNat c.2.toNat hcx hcy htn (x, y) hmemnbr
                    (tileAt st.grid x y) htq
                  have hwx := hE x y (tileAt st.grid x y) htq (by rw [he]; rfl)
                  rw [hnbr.1] at hwx
                  cases hwx
              have ht1 : ∃ t1, tile? (updateTile st.grid x y
                  (fun t => { t with enemy := none })) c.1.toNat c.2.toNat = some t1 := by
                obtain ⟨t2, ht2⟩ := hex
                have hq := tile?_strip_update st.grid x y none c.1.toNat c.2.toNat
                rw [ht2] at hq
                cases hcc : tile? (updateTile st.grid x y
                    (fun t => { t with enemy := none })) c.1.toNat c.2.toNat with
                | none => rw [hcc] at hq; cases hq
                | some t1 => exact ⟨t1, rfl⟩
              have heff := relocate_effects st.grid x y c.1.toNat c.2.toNat e
                { e with x := c.1, y := c.2 } he ht1
              obtain ⟨hstrip, hlens, hle, hpos⟩ := heff
              have hwk1 : ∀ t1, tile? (updateTile st.grid x y
                  (fun t => { t with enemy := none })) c.1.toNat c.2.toNat = some t1 →
                  t1.walkable = true := by
                intro t1 hcc
                obtain ⟨t2, ht2⟩ := hex
                have hq := tile?_strip_update st.grid x y none c.1.toNat c.2.toNat
                rw [ht2, hcc] at hq
                simp only [Option.map_some', Option.some.injEq] at hq
                obtain ⟨-, -, hww, -, -⟩ := stripEnemy_proj t2 t1 hq
                rw [hww]
                have htA : tileAt st.grid c.1.toNat c.2.toNat = t2 := by
                  unfold tileAt
                  rw [ht2]
                  rfl
                rw [← htA]
                exact hwkb
              have hE2 := eow_set_some (updateTile st.grid x y
                  (fun t => { t with enemy := none })) c.1.toNat c.2.toNat
                { e with x := c.1, y := c.2 } hwk1 (eow_set_none st.grid x y hE)
              refine moveStep_combine ?step (ih (k + 1) (c :: res) _ ?_ ?_ ?_ ?_)
              case step =>
                exact ⟨hstrip, hlens, ⟨st.player.hp, rfl⟩, rfl, hle, fun _ => hpos,
                  fun hz => absurd hz (by omega)⟩
              · exact playerIn_transfer st _ hlens rfl rfl hPin
              · exact playerTile_of_strip st _ hstrip rfl rfl hPT
              · exact hE2
              · exact safeHoles_transfer st.grid _ hlens (tw_of_strip _ _ hstrip) hS

/-! ## The exit-seal invariant and per-command effects -/

theorem moveEffects_exitsInv {a b : GState} (hme : MoveEffects a b)
    (hA : ExitsInv a.grid) : ExitsInv b.grid := by
  obtain ⟨hstrip, hlens, hpl, hra, hle, hpos, hz⟩ := hme
  by_cases h0 : enemies_remaining a.grid = 0
  · rw [hz h0]
    exact hA
  · have h0' : enemies_remaining b.grid ≠ 0 := by
      have := hpos (by omega)
      omega
    apply exitsInv_transfer a.grid b.grid ?_ (by constructor <;> intro h <;> omega) hA
    intro p q
    have h := hstrip p q
    cases hb : tile? b.grid p q with
    | none =>
      rw [hb] at h
      cases ha : tile? a.grid p q with
      | none => rfl
      | some t => rw [ha] at h; cases h
    | some t' =>
      rw [hb] at h
      cases ha : tile? a.grid p q with
      | none => rw [ha] at h; cases h
      | some t =>
        rw [ha] at h
        simp only [Option.map_some', Option.some.injEq] at h
        obtain ⟨h1, -, h3, -, -⟩ := stripEnemy_proj t t' h
        simp [h1, h3]

theorem onEnterTile_shape (g : Grid) (p : Player) (log : List String) (x y : Nat) :
    ∃ ae, (onEnterTile g p log x y).1 = { p with at_exit := ae } := by
  unfold onEnterTile
  cases ht : (tileAt g x y).ttype
  case wall => exact ⟨p.at_exit, by simp [ht]⟩
  case floor =>
    cases hit : (tileAt g x y).item
    case some => exact ⟨p.at_exit, by simp [ht, hit]⟩
    case none =>
      cases hen : (tileAt g x y).enemy
      case some => exact ⟨p.at_exit, by simp [ht, hit, hen]⟩
      case none => exact ⟨p.at_exit, by simp [ht, hit, hen]⟩
  case chest =>
    by_cases hc : (tileAt g x y).treasure.isEmpty
    · exact ⟨p.at_exit, by simp [ht, hc]⟩
    · exact ⟨p.at_exit, by simp [ht, hc]⟩
  case exit =>
    by_cases hz : 0 < enemies_remaining g
    · exact ⟨p.at_exit, by simp [ht, hz]⟩
    · exact ⟨true, by simp [ht, hz]⟩

theorem dropLoop_shape (ds : Nat → DropDecision) (ename : String) :
    ∀ (drops : List Item) (k : Nat) (p : Player) (log : List String),
      ∃ inv, (dropLoop ds ename drops k p log).1 = { p with inventory := inv } ∧
        (p.inventory.length ≤ MAX_INVENTORY → inv.length ≤ MAX_INVENTORY) := by
  intro drops
  induction drops with
  | nil =>
    intro k p log
    exact ⟨p.inventory, by simp [dropLoop], fun h => h⟩
  | cons it rest ih =>
    intro k p log
    by_cases hlt : p.inventory.length < MAX_INVENTORY
    · simp only [dropLoop, if_pos hlt]
      obtain ⟨inv, hshape, hbound⟩ := ih k { p with inventory := p.inventory ++ [it] } _
      refine ⟨inv, hshape, fun _ => hbound ?_⟩
      simp only [List.length_append, List.length_cons, List.length_nil]
      unfold MAX_INVENTORY at hlt ⊢
      omega
    · simp only [dropLoop, if_neg hlt]
      match hd : ds k with
      | .keepN =>
        obtain ⟨inv, hshape, hbound⟩ := ih (k + 1) p _
        exact ⟨inv, hshape, hbound⟩
      | .back => exact ⟨p.inventory, by simp, fun h => h⟩
      | .swap i =>
        by_cases hi : i < p.inventory.length
        · simp only [if_pos hi]
          obtain ⟨inv, hshape, hbound⟩ :=
            ih (k + 1) { p with inventory := p.inventory.eraseIdx i ++ [it] } _
          refine ⟨inv, hshape, fun hb => hbound ?_⟩
          simp only [List.length_append, List.length_cons, List.length_nil]
          have := List.length_eraseIdx_of_lt hi
          omega
        · simp only [if_neg hi]
          obtain ⟨inv, hshape, hbound⟩ := ih (k + 1) p _
          exact ⟨inv, hshape, hbound⟩

theorem take_damage_effects (amount : Int) (ds : Nat → DropDecision) (x y : Nat)
    (st : GState) :
    (take_damage amount ds x y st).grid.map List.length = st.grid.map List.length ∧
    enemies_remaining (take_damage amount ds x y st).grid ≤
      enemies_remaining st.grid ∧
    (ExitsInv st.grid → ExitsInv (take_damage amount ds x y st).grid) ∧
    (∃ inv, (take_damage amount ds x y st).player =
        { st.player with inventory := inv } ∧
      (st.player.inventory.length ≤ MAX_INVENTORY → inv.length ≤ MAX_INVENTORY)) ∧
    (∀ a b, (tile? (take_damage amount ds x y st).grid a b).map Tile.treasure =
       (tile? st.grid a b).map Tile.treasure) ∧
    (take_damage amount ds x y st).run_away = st.run_away := by
  cases he : (tileAt st.grid x y).enemy with
  | none =>
    have hid : take_damage amount ds x y st = st := by
      simp only [take_damage, he]
    rw [hid]
    exact ⟨rfl, le_refl _, fun h => h,
      ⟨st.player.inventory, by simp, fun h => h⟩, fun a b => rfl, rfl⟩
  | some e =>
    have htq := tile?_of_at st.grid x y e he
    simp only [take_damage, he]
    by_cases hsur : 0 < e.hp - amount
    · rw [if_pos hsur]
      have her := er_updateTile st.grid x y
        (fun t => { t with enemy := some { e with hp := e.hp - amount } }) _ htq
      rw [he] at her
      simp only [Option.isSome_some, if_true, reduceIte] at her
      have hereq : enemies_remaining (updateTile st.grid x y
          (fun t => { t with enemy := some { e with hp := e.hp - amount } })) =
          enemies_remaining st.grid := by omega
      refine ⟨rowLens_updateTile _ _ _ _, le_of_eq hereq, ?_,
        ⟨st.player.inventory, by simp, fun h => h⟩, ?_, rfl⟩
      · intro hA
        apply exitsInv_transfer st.grid _ ?_ (by rw [hereq]) hA
        intro a b
        exact tile?_proj_update (fun t => (t.ttype, t.walkable)) st.grid x y
          (fun t => { t with enemy := some { e with hp := e.hp - amount } })
          (fun t => rfl) a b
      · intro a b
        exact tile?_proj_update Tile.treasure st.grid x y
          (fun t => { t with enemy := some { e with hp := e.hp - amount } })
          (fun t => rfl) a b
    · rw [if_neg hsur]
      have her := er_updateTile st.grid x y (fun t => { t with enemy := none }) _ htq
      rw [he] at her
      simp only [Option.isSome_some, Option.isSome_none, Bool.false_eq_true, if_true,
        if_false, reduceIte] at her
      obtain ⟨inv, hinv, hbound⟩ :=
        dropLoop_shape ds e.name e.item_drop 0 st.player
          (if enemies_remaining (updateTile st.grid x y
              (fun t => { t with enemy := none })) = 0 then
            (unlockExits (updateTile st.grid x y (fun t => { t with enemy := none }))
              (st.log ++ ["The " ++ e.name ++ " takes damage (HP: 0).",
                "The " ++ e.name ++ " is defeated!"])).2
          else (st.log ++ ["The " ++ e.name ++ " takes damage (HP: 0).",
            "The " ++ e.name ++ " is defeated!"]))
      by_cases hz : enemies_remaining (updateTile st.grid x y
          (fun t => { t with enemy := none })) = 0
      · simp only [hz, if_true, reduceIte]
        rw [if_pos hz] at hinv
        refine ⟨?_, ?_, ?_, ⟨inv, hinv, hbound⟩, ?_, trivial⟩
        · rw [unlockExits_grid, rowLens_mapgrid, rowLens_updateTile]
        · rw [unlockExits_grid, er_map_unlock, hz]
          omega
        · intro _
          intro a b t ht hexit
          have hwk := unlock_exits_walkable _ _ a b t ht hexit
          rw [unlockExits_grid, er_map_unlock, hz]
          exact ⟨fun _ => rfl, fun _ => hwk⟩
        · intro a b
          rw [unlockExits_grid]
          rw [tile?_proj_mapgrid Tile.treasure _ unlockF
            (fun t => by unfold unlockF; split <;> rfl)]
          exact tile?_proj_update Tile.treasure st.grid x y
            (fun t => { t with enemy := none }) (fun t => rfl) a b
      · simp only [hz, if_false, reduceIte]
        rw [if_neg hz] at hinv
        refine ⟨rowLens_updateTile _ _ _ _, by omega, ?_, ⟨inv, hinv, hbound⟩, ?_, trivial⟩
        · intro hA
          apply exitsInv_transfer st.grid _ ?_ ?_ hA
          · intro a b
            exact tile?_proj_update (fun t => (t.ttype, t.walkable)) st.grid x y
              (fun t => { t with enemy := none }) (fun t => rfl) a b
          · constructor <;> intro h <;> omega
        · intro a b
          exact tile?_proj_update Tile.treasure st.grid x y
            (fun t => { t with enemy := none }) (fun t => rfl) a b

theorem item_on_pickup_shape (it : Item) (p : Player) (log : List String) :
    ∃ inv gd, (item_on_pickup it p log).1 = { p with inventory := inv, gold := gd } ∧
      (p.inventory.length ≤ MAX_INVENTORY → inv.length ≤ MAX_INVENTORY) := by
  cases it with
  | gold a =>
    exact ⟨p.inventory, p.gold + a, by simp [item_on_pickup], fun h => h⟩
  | potion =>
    by_cases h : p.inventory.length < MAX_INVENTORY
    · refine ⟨p.inventory ++ [.potion], p.gold, by simp [item_on_pickup, h], fun _ => ?_⟩
      simp only [List.length_append, List.length_cons, List.length_nil]
      omega
    · exact ⟨p.inventory, p.gold, by simp [item_on_pickup, h], fun hb => hb⟩
  | dagger =>
    by_cases h : p.inventory.length < MAX_INVENTORY
    · refine ⟨p.inventory ++ [.dagger], p.gold, by simp [item_on_pickup, h], fun _ => ?_⟩
      simp only [List.length_append, List.length_cons, List.length_nil]
      omega
    · exact ⟨p.inventory, p.gold, by simp [item_on_pickup, h], fun hb => hb⟩
  | sword =>
    by_cases h : p.inventory.length < MAX_INVENTORY
    · refine ⟨p.inventory ++ [.sword], p.gold, by simp [item_on_pickup, h], fun _ => ?_⟩
      simp only [List.length_append, List.length_cons, List.length_nil]
      omega
    · exact ⟨p.inventory, p.gold, by simp [item_on_pickup, h], fun hb => hb⟩
  | axe =>
    by_cases h : p.inventory.length < MAX_INVENTORY
    · refine ⟨p.inventory ++ [.axe], p.gold, by simp [item_on_pickup, h], fun _ => ?_⟩
      simp only [List.length_append, List.length_cons, List.length_nil]
      omega
    · exact ⟨p.inventory, p.gold, by simp [item_on_pickup, h], fun hb => hb⟩

theorem treasure_sublist_id (g : Grid) :
    ∀ a b (t t' : Tile), tile? g a b = some t → tile? g a b = some t' →
      t'.treasure.Sublist t.treasure := by
  intro a b t t' ht ht'
  rw [ht] at ht'
  injection ht' with ht'
  exact ht' ▸ List.Sublist.refl _

/-- What the treasure-chest loop does: row shapes, the enemy count and the
(ttype, walkable) data of every tile are unchanged, each tile's treasure only
loses elements, and the player changes only in inventory (bounded) and gold. -/
theorem chestLoop_effects (x y : Nat) :
    ∀ (decs : List (Option Nat)) (g : Grid) (p : Player) (log : List String),
      (chestLoop x y decs g p log).1.map List.length = g.map List.length ∧
      enemies_remaining (chestLoop x y decs g p log).1 = enemies_remaining g ∧
      (∀ a b, (tile? (chestLoop x y decs g p log).1 a b).map
          (fun t => (t.ttype, t.walkable, t.enemy)) =
        (tile? g a b).map (fun t => (t.ttype, t.walkable, t.enemy))) ∧
      (∀ a b t t', tile? g a b = some t →
        tile? (chestLoop x y decs g p log).1 a b = some t' →
        t'.treasure.Sublist t.treasure) ∧
      (∃ inv gd, (chestLoop x y decs g p log).2.1 =
          { p with inventory := inv, gold := gd } ∧
        (p.inventory.length ≤ MAX_INVENTORY → inv.length ≤ MAX_INVENTORY)) := by
  intro decs
  induction decs with
  | nil =>
    intro g p log
    exact ⟨rfl, rfl, fun a b => rfl, treasure_sublist_id g,
      ⟨p.inventory, p.gold, rfl, fun h => h⟩⟩
  | cons choice rest ih =>
    intro g p log
    match choice with
    | none =>
      simp only [chestLoop]
      by_cases hemp : (tileAt g x y).treasure.isEmpty
      · rw [if_pos hemp]
        exact ⟨rfl, rfl, fun a b => rfl, treasure_sublist_id g,
          ⟨p.inventory, p.gold, rfl, fun h => h⟩⟩
      · rw [if_neg hemp]
        exact ⟨rfl, rfl, fun a b => rfl, treasure_sublist_id g,
          ⟨p.inventory, p.gold, rfl, fun h => h⟩⟩
    | some c =>
      simp only [chestLoop]
      by_cases hemp : (tileAt g x y).treasure.isEmpty
      · rw [if_pos hemp]
        exact ⟨rfl, rfl, fun a b => rfl, treasure_sublist_id g,
          ⟨p.inventory, p.gold, rfl, fun h => h⟩⟩
      · rw [if_neg hemp]
        by_cases hidx : c - 1 < (tileAt g x y).treasure.length
        · rw [dif_pos hidx]
          obtain ⟨inv1, gd1, hshape1, hbound1⟩ :=
            item_on_pickup_shape ((tileAt g x y).treasure.get ⟨c - 1, hidx⟩) p
              (log ++ ["Pick an item: [0] Back"])
          by_cases hpicked : (item_on_pickup ((tileAt g x y).treasure.get ⟨c - 1, hidx⟩) p
              (log ++ ["Pick an item: [0] Back"])).2.2
          · rw [if_pos hpicked]
            have hup : ∀ a b, tile? (updateTile g x y
                (fun t' => { t' with treasure := t'.treasure.eraseIdx (c - 1) })) a b =
                if a = x ∧ b = y then (tile? g a b).map
                  (fun t' => { t' with treasure := t'.treasure.eraseIdx (c - 1) })
                else tile? g a b := by
              intro a b
              rw [tile?_updateTile]
              by_cases hc : a = x ∧ b = y
              · obtain ⟨h1, h2⟩ := hc
                subst h1; subst h2
                rw [if_pos ⟨rfl, rfl⟩]
              · rw [if_neg hc, if_neg hc]
            obtain ⟨ih1, ih2, ih3, ih4, inv2, gd2, hshape2, hbound2⟩ :=
              ih (updateTile g x y
                  (fun t' => { t' with treasure := t'.treasure.eraseIdx (c - 1) }))
                (item_on_pickup ((tileAt g x y).treasure.get ⟨c - 1, hidx⟩) p
                  (log ++ ["Pick an item: [0] Back"])).1
                ((item_on_pickup ((tileAt g x y).treasure.get ⟨c - 1, hidx⟩) p
                  (log ++ ["Pick an item: [0] Back"])).2.1 ++
                  ["You take the " ++
                    ((tileAt g x y).treasure.get ⟨c - 1, hidx⟩).name ++ "."])
            refine ⟨ih1.trans (rowLens_updateTile _ _ _ _), ?_, ?_, ?_, ?_⟩
            · rw [ih2]
              exact er_updateTile_keep g x y _ (fun t => rfl)
            · intro a b
              rw [ih3 a b]
              exact tile?_proj_update (fun t => (t.ttype, t.walkable, t.enemy)) g x y
                (fun t' => { t' with treasure := t'.treasure.eraseIdx (c - 1) })
                (fun t => rfl) a b
            · intro a b t t' ht ht'
              have hmid := hup a b
              by_cases hc : a = x ∧ b = y
              · rw [if_pos hc, ht] at hmid
                have hsub := ih4 a b _ t' hmid ht'
                exact hsub.trans (List.eraseIdx_sublist _ _)
              · rw [if_neg hc, ht] at hmid
                exact ih4 a b t t' hmid ht'
            · refine ⟨inv2, gd2, ?_, fun hb => hbound2 (by rw [hshape1]; exact hbound1 hb)⟩
              rw [hshape2, hshape1]
          · rw [if_neg hpicked]
            exact ⟨rfl, rfl, fun a b => rfl, treasure_sublist_id g,
              ⟨inv1, gd1, hshape1, hbound1⟩⟩
        · rw [dif_neg hidx]
          exact ⟨rfl, rfl, fun a b => rfl, treasure_sublist_id g,
            ⟨p.inventory, p.gold, rfl, fun h => h⟩⟩

/-! ## Per-command effect lemmas and the step invariant -/

theorem treasure_sublist_of_treasure_eq (g g' : Grid)
    (h : ∀ a b, (tile? g' a b).map Tile.treasure = (tile? g a b).map Tile.treasure) :
    ∀ a b t t', tile? g a b = some t → tile? g' a b = some t' →
      t'.treasure.Sublist t.treasure := by
  intro a b t t' ht ht'
  have hx := h a b
  rw [ht, ht'] at hx
  simp only [Option.map_some', Option.some.injEq] at hx
  exact hx ▸ List.Sublist.refl _

theorem treasure_sublist_of_strip (g g' : Grid)
    (h : ∀ a b, (tile? g' a b).map stripEnemy = (tile? g a b).map stripEnemy) :
    ∀ a b t t', tile? g a b = some t → tile? g' a b = some t' →
      t'.treasure.Sublist t.treasure := by
  intro a b t t' ht ht'
  have hx := h a b
  rw [ht, ht'] at hx
  simp only [Option.map_some', Option.some.injEq] at hx
  obtain ⟨-, -, -, -, h5⟩ := stripEnemy_proj t t' hx
  exact h5 ▸ List.Sublist.refl _

/-- Everything a single game-loop command is proved to guarantee: row shapes
are kept, the living-enemy count never grows, the state invariant is carried
along, each tile's treasure only shrinks, and the inventory-capacity bound is
preserved. -/
def StepOK (s s' : GState) : Prop :=
  s'.grid.map List.length = s.grid.map List.length ∧
  enemies_remaining s'.grid ≤ enemies_remaining s.grid ∧
  Inv s' ∧
  (∀ a b t t', tile? s.grid a b = some t → tile? s'.grid a b = some t' →
    t'.treasure.Sublist t.treasure) ∧
  (s.player.inventory.length ≤ MAX_INVENTORY →
    s'.player.inventory.length ≤ MAX_INVENTORY)

theorem stepOK_refl (s : GState) (hinv : Inv s) : StepOK s s :=
  ⟨rfl, le_refl _, hinv, treasure_sublist_id s.grid, fun h => h⟩

/-- A state that differs from a `StepOK` successor only in log, `run_away`,
or player fields other than position and inventory is itself a `StepOK`
successor. -/
theorem stepOK_player_tweak (s s1 s2 : GState) (hok : StepOK s s1)
    (hg : s2.grid = s1.grid) (hx : s2.player.x = s1.player.x)
    (hy : s2.player.y = s1.player.y)
    (hlen : s1.player.inventory.length ≤ MAX_INVENTORY →
      s2.player.inventory.length ≤ MAX_INVENTORY) : StepOK s s2 := by
  obtain ⟨h1, h2, ⟨hPin, hPT, hE, hS, hX⟩, h4, h5⟩ := hok
  refine ⟨?_, ?_, ⟨?_, ?_, ?_, ?_, ?_⟩, ?_, ?_⟩
  · rw [hg]; exact h1
  · rw [hg]; exact h2
  · exact playerIn_transfer s1 s2 (by rw [hg]) hx hy hPin
  · obtain ⟨t, ht, hw⟩ := hPT
    exact ⟨t, by rw [hg, hx, hy]; exact ht, hw⟩
  · rw [hg]; exact hE
  · rw [hg]; exact hS
  · rw [hg]; exact hX
  · intro a b t t' ht ht'
    rw [hg] at ht'
    exact h4 a b t t' ht ht'
  · exact fun hb => hlen (h5 hb)

/-- Existence of a walkable tile at a fixed cell transfers to a grid whose
tiles keep (or raise) walkability. -/
theorem exists_walk_transfer (g g' : Grid) (a b : Nat)
    (hsome : (tile? g' a b).isSome = (tile? g a b).isSome)
    (hw : ∀ t t', tile? g a b = some t → tile? g' a b = some t' →
      t.walkable = true → t'.walkable = true)
    (h : ∃ t, tile? g a b = some t ∧ t.walkable = true) :
    ∃ t, tile? g' a b = some t ∧ t.walkable = true := by
  obtain ⟨t, ht, htw⟩ := h
  have h1 : (tile? g' a b).isSome = true := by rw [hsome, ht]; rfl
  obtain ⟨t', ht'⟩ := Option.isSome_iff_exists.mp h1
  exact ⟨t', ht', hw t t' ht ht' htw⟩

theorem strip_walk_eq (g g' : Grid)
    (hstrip : ∀ a b, (tile? g' a b).map stripEnemy = (tile? g a b).map stripEnemy)
    (a b : Nat) : ∀ t t', tile? g a b = some t → tile? g' a b = some t' →
      t.walkable = true → t'.walkable = true := by
  intro t t' ht ht' hw
  have hq := hstrip a b
  rw [ht, ht'] at hq
  simp only [Option.map_some', Option.some.injEq] at hq
  obtain ⟨-, -, hww, -, -⟩ := stripEnemy_proj t t' hq
  rw [hww]
  exact hw

theorem unlock_isSome (g : Grid) (a b : Nat) :
    (tile? (g.map (List.map unlockF)) a b).isSome = (tile? g a b).isSome := by
  rw [tile?_map]
  cases tile? g a b <;> rfl

theorem unlock_walk_mono (g : Grid) (a b : Nat) :
    ∀ t t', tile? g a b = some t → tile? (g.map (List.map unlockF)) a b = some t' →
      t.walkable = true → t'.walkable = true := by
  intro t t' ht ht' hw
  rw [tile?_map, ht] at ht'
  simp only [Option.map_some', Option.some.injEq] at ht'
  rw [← ht']
  unfold unlockF
  split_ifs
  · rfl
  · exact hw

/-- Enemy-slot occupancy together with walkability transfers `EnemiesOnWalkable`. -/
theorem eow_proj_keep (g g' : Grid)
    (hkeep : ∀ a b, (tile? g' a b).map (fun t => (t.enemy, t.walkable)) =
      (tile? g a b).map (fun t => (t.enemy, t.walkable)))
    (hE : EnemiesOnWalkable g) : EnemiesOnWalkable g' := by
  refine eow_of g g' ?_ hE
  intro a b t' ht' hen
  have hq := hkeep a b
  rw [ht'] at hq
  cases htg : tile? g a b with
  | none => rw [htg] at hq; simp at hq
  | some t =>
    rw [htg] at hq
    simp only [Option.map_some', Option.some.injEq, Prod.mk.injEq] at hq
    obtain ⟨he2, hw2⟩ := hq
    exact Or.inr ⟨t, rfl, by rw [← he2]; exact hen, hw2⟩

theorem proj_tw_of_twe (g g' : Grid)
    (h : ∀ a b, (tile? g' a b).map (fun t => (t.ttype, t.walkable, t.enemy)) =
      (tile? g a b).map (fun t => (t.ttype, t.walkable, t.enemy))) :
    ∀ a b, (tile? g' a b).map (fun t => (t.ttype, t.walkable)) =
      (tile? g a b).map (fun t => (t.ttype, t.walkable)) := by
  have key : ∀ o : Option Tile, o.map (fun t => (t.ttype, t.walkable)) =
      (o.map (fun t => (t.ttype, t.walkable, t.enemy))).map (fun q => (q.1, q.2.1)) := by
    intro o
    cases o <;> rfl
  intro a b
  rw [key, key, h a b]

theorem proj_ew_of_twe (g g' : Grid)
    (h : ∀ a b, (tile? g' a b).map (fun t => (t.ttype, t.walkable, t.enemy)) =
      (tile? g a b).map (fun t => (t.ttype, t.walkable, t.enemy))) :
    ∀ a b, (tile? g' a b).map (fun t => (t.enemy, t.walkable)) =
      (tile? g a b).map (fun t => (t.enemy, t.walkable)) := by
  have key : ∀ o : Option Tile, o.map (fun t => (t.enemy, t.walkable)) =
      (o.map (fun t => (t.ttype, t.walkable, t.enemy))).map (fun q => (q.2.2, q.2.1)) := by
    intro o
    cases o <;> rfl
  intro a b
  rw [key, key, h a b]

theorem proj_walk_eq (g g' : Grid)
    (htw : ∀ a b, (tile? g' a b).map (fun t => (t.ttype, t.walkable)) =
      (tile? g a b).map (fun t => (t.ttype, t.walkable))) (a b : Nat) :
    ∀ t t', tile? g a b = some t → tile? g' a b = some t' →
      t.walkable = true → t'.walkable = true := by
  intro t t' ht ht' hw
  have hq := htw a b
  rw [ht, ht'] at hq
  simp only [Option.map_some', Option.some.injEq, Prod.mk.injEq] at hq
  rw [hq.2]
  exact hw

/-- The three grid-shape invariants survive `take_damage`. -/
theorem take_damage_inv3 (amount : Int) (ds : Nat → DropDecision) (x y : Nat)
    (s : GState) (hPT : PlayerTile s) (hE : EnemiesOnWalkable s.grid)
    (hS : SafeHoles s.grid) :
    (∃ t, tile? (take_damage amount ds x y s).grid
      s.player.x.toNat s.player.y.toNat = some t ∧ t.walkable = true) ∧
    EnemiesOnWalkable (take_damage amount ds x y s).grid ∧
    SafeHoles (take_damage amount ds x y s).grid := by
  cases he : (tileAt s.grid x y).enemy with
  | none =>
    have hid : take_damage amount ds x y s = s := by
      simp only [take_damage, he]
    rw [hid]
    exact ⟨hPT, hE, hS⟩
  | some e =>
    simp only [take_damage, he]
    by_cases hsur : 0 < e.hp - amount
    · rw [if_pos hsur]
      have hstrip := fun a b => tile?_strip_update s.grid x y
        (some { e with hp := e.hp - amount }) a b
      refine ⟨?_, ?_, ?_⟩
      · obtain ⟨t, ht, hw⟩ := hPT
        exact exists_walk_transfer s.grid _ _ _
          (isSome_of_proj stripEnemy _ _ hstrip _ _)
          (strip_walk_eq _ _ hstrip _ _) ⟨t, ht, hw⟩
      · refine eow_set_some s.grid x y _ ?_ hE
        intro t ht
        have htA : tileAt s.grid x y = t := by
          unfold tileAt
          rw [ht]
          rfl
        have he2 : t.enemy = some e := by rw [← htA]; exact he
        refine hE x y t ht ?_
        rw [he2]
        rfl
      · exact safeHoles_transfer s.grid _ (rowLens_updateTile _ _ _ _)
          (tw_of_strip _ _ hstrip) hS
    · rw [if_neg hsur]
      have hstrip1 := fun a b => tile?_strip_update s.grid x y none a b
      have hPT1 : ∃ t, tile? (updateTile s.grid x y (fun t => { t with enemy := none }))
          s.player.x.toNat s.player.y.toNat = some t ∧ t.walkable = true := by
        obtain ⟨t, ht, hw⟩ := hPT
        exact exists_walk_transfer s.grid _ _ _
          (isSome_of_proj stripEnemy _ _ hstrip1 _ _)
          (strip_walk_eq _ _ hstrip1 _ _) ⟨t, ht, hw⟩
      have hE1 : EnemiesOnWalkable (updateTile s.grid x y
          (fun t => { t with enemy := none })) := eow_set_none s.grid x y hE
      have hS1 : SafeHoles (updateTile s.grid x y
          (fun t => { t with enemy := none })) :=
        safeHoles_transfer s.grid _ (rowLens_updateTile _ _ _ _)
          (tw_of_strip _ _ hstrip1) hS
      by_cases hz : enemies_remaining (updateTile s.grid x y
          (fun t => { t with enemy := none })) = 0
      · simp only [hz, if_true, reduceIte]
        refine ⟨?_, ?_, ?_⟩
        · show ∃ t, tile? (unlockExits (updateTile s.grid x y
              (fun t => { t with enemy := none }))
              (s.log ++ ["The " ++ e.name ++ " takes damage (HP: 0).",
                "The " ++ e.name ++ " is defeated!"])).1
              s.player.x.toNat s.player.y.toNat = some t ∧ t.walkable = true
          rw [unlockExits_grid]
          exact exists_walk_transfer _ _ _ _ (unlock_isSome _ _ _)
            (unlock_walk_mono _ _ _) hPT1
        · show EnemiesOnWalkable (unlockExits (updateTile s.grid x y
              (fun t => { t with enemy := none }))
              (s.log ++ ["The " ++ e.name ++ " takes damage (HP: 0).",
                "The " ++ e.name ++ " is defeated!"])).1
          rw [unlockExits_grid]
          exact eow_unlock _ hE1
        · show SafeHoles (unlockExits (updateTile s.grid x y
              (fun t => { t with enemy := none }))
              (s.log ++ ["The " ++ e.name ++ " takes damage (HP: 0).",
                "The " ++ e.name ++ " is defeated!"])).1
          rw [unlockExits_grid]
          exact safeHoles_unlock _ hS1
      · simp only [hz, if_false, reduceIte]
        exact ⟨hPT1, hE1, hS1⟩

theorem take_damage_stepOK (amount : Int) (ds : Nat → DropDecision) (x y : Nat)
    (s : GState) (hinv : Inv s) : StepOK s (take_damage amount ds x y s) := by
  obtain ⟨hPin, hPT, hE, hS, hX⟩ := hinv
  obtain ⟨h1, h2, h3, ⟨inv, hply, hbnd⟩, h5, h6⟩ := take_damage_effects amount ds x y s
  obtain ⟨hPT2, hE2, hS2⟩ := take_damage_inv3 amount ds x y s hPT hE hS
  refine ⟨h1, h2, ⟨?_, ?_, hE2, hS2, h3 hX⟩,
    treasure_sublist_of_treasure_eq _ _ h5, ?_⟩
  · exact playerIn_transfer s _ h1 (by rw [hply]) (by rw [hply]) hPin
  · obtain ⟨t, ht, hw⟩ := hPT2
    refine ⟨t, ?_, hw⟩
    rw [hply]
    exact ht
  · intro hb
    rw [hply]
    exact hbnd hb

theorem enemy_attack_error_shape (roll : Int) (e : Enemy) (p : Player)
    (log : List String) (pl : Player × List String)
    (h : enemy_attack roll e p log = .error pl) :
    pl.1 = { p with hp := p.hp - roll } ∧ pl.1.hp ≤ 0 := by
  unfold enemy_attack at h
  simp only [] at h
  split_ifs at h with hc
  injection h with h
  rw [← h]
  exact ⟨rfl, hc⟩

theorem enemy_attack_ok_shape (roll : Int) (e : Enemy) (p : Player)
    (log : List String) (pl : Player × List String)
    (h : enemy_attack roll e p log = .ok pl) :
    pl.1 = { p with hp := p.hp - roll } ∧ 0 < pl.1.hp := by
  unfold enemy_attack at h
  simp only [] at h
  split_ifs at h with hc
  injection h with h
  rw [← h]
  refine ⟨rfl, ?_⟩
  show 0 < p.hp - roll
  omega

/-- `on_use` only ever touches hp, the equipped weapon, and the inventory,
and can grow the inventory by at most the unequipped weapon. -/
theorem item_on_use_shape (heal : Int) (it : Item) (p : Player)
    (log : List String) :
    ∃ hp' w' inv', (item_on_use heal it p log).1 =
        { p with hp := hp', weapon := w', inventory := inv' } ∧
      p.inventory.length ≤ inv'.length ∧ inv'.length ≤ p.inventory.length + 1 := by
  cases it with
  | gold a =>
    exact ⟨p.hp, p.weapon, p.inventory, by simp [item_on_use], le_refl _, by omega⟩
  | potion =>
    by_cases h : p.hp = p.MAX_HP
    · exact ⟨p.hp, p.weapon, p.inventory,
        by simp only [item_on_use]; rw [if_pos h], le_refl _, by omega⟩
    · exact ⟨min (p.hp + heal) p.MAX_HP, p.weapon, p.inventory,
        by simp [item_on_use, h], le_refl _, by omega⟩
  | dagger =>
    cases hw : p.weapon with
    | none =>
      exact ⟨p.hp, some .dagger, p.inventory, by simp [item_on_use, hw], le_refl _, by omega⟩
    | some ow =>
      refine ⟨p.hp, some .dagger, p.inventory ++ [ow], by simp [item_on_use, hw], ?_, ?_⟩ <;>
        simp [List.length_append]
  | sword =>
    cases hw : p.weapon with
    | none =>
      exact ⟨p.hp, some .sword, p.inventory, by simp [item_on_use, hw], le_refl _, by omega⟩
    | some ow =>
      refine ⟨p.hp, some .sword, p.inventory ++ [ow], by simp [item_on_use, hw], ?_, ?_⟩ <;>
        simp [List.length_append]
  | axe =>
    cases hw : p.weapon with
    | none =>
      exact ⟨p.hp, some .axe, p.inventory, by simp [item_on_use, hw], le_refl _, by omega⟩
    | some ow =>
      refine ⟨p.hp, some .axe, p.inventory ++ [ow], by simp [item_on_use, hw], ?_, ?_⟩ <;>
        simp [List.length_append]

/-- A pickup that reports failure leaves the player untouched. -/
theorem item_on_pickup_fail (it : Item) (p : Player) (log : List String)
    (h : (item_on_pickup it p log).2.2 = false) :
    (item_on_pickup it p log).1 = p := by
  cases it <;> simp only [item_on_pickup] at h ⊢ <;>
    first
    | cases h
    | (split_ifs at h ⊢ <;> first | rfl | cases h)

theorem chestInteract_effects (ds : List (Option Nat)) (x y : Nat) (g : Grid)
    (p : Player) (log : List String) :
    (chestInteract ds x y g p log).1.map List.length = g.map List.length ∧
    enemies_remaining (chestInteract ds x y g p log).1 = enemies_remaining g ∧
    (∀ a b, (tile? (chestInteract ds x y g p log).1 a b).map
        (fun t => (t.ttype, t.walkable, t.enemy)) =
      (tile? g a b).map (fun t => (t.ttype, t.walkable, t.enemy))) ∧
    (∀ a b t t', tile? g a b = some t →
      tile? (chestInteract ds x y g p log).1 a b = some t' →
      t'.treasure.Sublist t.treasure) ∧
    (∃ inv gd, (chestInteract ds x y g p log).2.1 =
        { p with inventory := inv, gold := gd } ∧
      (p.inventory.length ≤ MAX_INVENTORY → inv.length ≤ MAX_INVENTORY)) := by
  simp only [chestInteract]
  by_cases hemp : (tileAt g x y).treasure.isEmpty
  · rw [if_pos hemp]
    exact ⟨rfl, rfl, fun a b => rfl, treasure_sublist_id g,
      ⟨p.inventory, p.gold, rfl, fun h => h⟩⟩
  · rw [if_neg hemp]
    obtain ⟨h1, h2, h3, h4, h5⟩ := chestLoop_effects x y
      ds g p (log ++ ["You see the following item(s)."])
    by_cases hre : (tileAt (chestLoop x y ds g p
        (log ++ ["You see the following item(s)."])).1 x y).treasure.isEmpty
    · rw [if_pos hre]
      exact ⟨h1, h2, h3, h4, h5⟩
    · rw [if_neg hre]
      exact ⟨h1, h2, h3, h4, h5⟩

theorem takeStep_stepOK (ds : List (Option Nat)) (s : GState) (hinv : Inv s) :
    StepOK s (takeStep ds s) := by
  obtain ⟨hPin, hPT, hE, hS, hX⟩ := hinv
  simp only [takeStep]
  split
  · exact stepOK_player_tweak s s _ (stepOK_refl s ⟨hPin, hPT, hE, hS, hX⟩)
      rfl rfl rfl (fun h => h)
  · exact stepOK_refl s ⟨hPin, hPT, hE, hS, hX⟩
  · obtain ⟨h1, h2, h3, h4, ⟨inv, gd, hply, hbnd⟩⟩ :=
      chestInteract_effects ds s.player.x.toNat s.player.y.toNat s.grid s.player s.log
    have htw := proj_tw_of_twe s.grid _ h3
    refine ⟨h1, le_of_eq h2, ⟨?_, ?_, ?_, ?_, ?_⟩, h4, ?_⟩
    · exact playerIn_transfer s _ h1 (by rw [hply]) (by rw [hply]) hPin
    · obtain ⟨t, ht, hw⟩ := hPT
      obtain ⟨t', ht', hw'⟩ := exists_walk_transfer s.grid _
        s.player.x.toNat s.player.y.toNat
        (isSome_of_proj _ _ _ h3 _ _) (proj_walk_eq _ _ htw _ _) ⟨t, ht, hw⟩
      refine ⟨t', ?_, hw'⟩
      rw [hply]
      exact ht'
    · exact eow_proj_keep s.grid _ (proj_ew_of_twe s.grid _ h3) hE
    · exact safeHoles_transfer s.grid _ h1 htw hS
    · exact exitsInv_transfer s.grid _ htw (by rw [h2]) hX
    · intro hb
      rw [hply]
      exact hbnd hb
  · split
    · exact stepOK_player_tweak s s _ (stepOK_refl s ⟨hPin, hPT, hE, hS, hX⟩)
        rfl rfl rfl (fun h => h)
    · next it hit =>
      obtain ⟨inv, gd, hply, hbnd⟩ := item_on_pickup_shape it s.player s.log
      by_cases hpk : (item_on_pickup it s.player s.log).2.2 = true
      · rw [if_pos hpk]
        have her : enemies_remaining (updateTile s.grid s.player.x.toNat
            s.player.y.toNat (fun t => { t with item := none })) =
            enemies_remaining s.grid :=
          er_updateTile_keep s.grid s.player.x.toNat s.player.y.toNat
            (fun t => { t with item := none }) (fun t => rfl)
        have h3 := fun a b => tile?_proj_update
          (fun t => (t.ttype, t.walkable, t.enemy)) s.grid
          s.player.x.toNat s.player.y.toNat
          (fun t => { t with item := none }) (fun t => rfl) a b
        have htw := proj_tw_of_twe s.grid _ h3
        refine ⟨rowLens_updateTile _ _ _ _, le_of_eq her, ⟨?_, ?_, ?_, ?_, ?_⟩, ?_, ?_⟩
        · exact playerIn_transfer s _ (rowLens_updateTile _ _ _ _)
            (by rw [hply]) (by rw [hply]) hPin
        · obtain ⟨t, ht, hw⟩ := hPT
          obtain ⟨t', ht', hw'⟩ := exists_walk_transfer s.grid _
            s.player.x.toNat s.player.y.toNat
            (isSome_of_proj _ _ _ h3 _ _) (proj_walk_eq _ _ htw _ _) ⟨t, ht, hw⟩
          refine ⟨t', ?_, hw'⟩
          rw [hply]
          exact ht'
        · exact eow_proj_keep s.grid _ (proj_ew_of_twe s.grid _ h3) hE
        · exact safeHoles_transfer s.grid _ (rowLens_updateTile _ _ _ _) htw hS
        · exact exitsInv_transfer s.grid _ htw (by rw [her]) hX
        · exact treasure_sublist_of_treasure_eq _ _
            (fun a b => tile?_proj_update Tile.treasure s.grid _ _
              (fun t => { t with item := none }) (fun t => rfl) a b)
        · intro hb
          rw [hply]
          exact hbnd hb
      · rw [if_neg hpk]
        have hfail : (item_on_pickup it s.player s.log).1 = s.player :=
          item_on_pickup_fail it s.player s.log (by revert hpk; cases (item_on_pickup it s.player s.log).2.2 <;> simp)
        exact stepOK_player_tweak s s _ (stepOK_refl s ⟨hPin, hPT, hE, hS, hX⟩) rfl
          (by rw [hfail]) (by rw [hfail]) (by rw [hfail]; exact fun h => h)

theorem useStep_stepOK (c : Option Nat) (heal cr : Int) (s : GState)
    (hinv : Inv s) : StepOK s (outSt (useStep c heal cr s)) := by
  simp only [useStep]
  by_cases hie : s.player.inventory.isEmpty = true
  · rw [if_pos hie]
    exact stepOK_player_tweak s s _ (stepOK_refl s hinv) rfl rfl rfl (fun h => h)
  · rw [if_neg hie]
    split
    · exact stepOK_player_tweak s s _ (stepOK_refl s hinv) rfl rfl rfl (fun h => h)
    · next n =>
      by_cases hidx : n - 1 < s.player.inventory.length
      · rw [dif_pos hidx]
        obtain ⟨hp', w', inv', hply, hlo, hhi⟩ :=
          item_on_use_shape heal (s.player.inventory.get ⟨n - 1, hidx⟩) s.player s.log
        have hxuse : (item_on_use heal (s.player.inventory.get ⟨n - 1, hidx⟩)
            s.player s.log).1.x = s.player.x := by rw [hply]
        have hyuse : (item_on_use heal (s.player.inventory.get ⟨n - 1, hidx⟩)
            s.player s.log).1.y = s.player.y := by rw [hply]
        have hluse : s.player.inventory.length ≤ MAX_INVENTORY →
            ((item_on_use heal (s.player.inventory.get ⟨n - 1, hidx⟩)
              s.player s.log).1.inventory.eraseIdx (n - 1)).length ≤ MAX_INVENTORY := by
          intro hb
          rw [hply]
          show (inv'.eraseIdx (n - 1)).length ≤ MAX_INVENTORY
          have hlt : n - 1 < inv'.length := lt_of_lt_of_le hidx hlo
          have hle := List.length_eraseIdx_of_lt hlt
          unfold MAX_INVENTORY at hb ⊢
          omega
        split
        · next hen =>
          exact stepOK_player_tweak s s _ (stepOK_refl s hinv) rfl hxuse hyuse hluse
        · next e hen =>
          split
          · next pl2 heq =>
            obtain ⟨hply2, -⟩ := enemy_attack_error_shape cr e _ _ pl2 heq
            refine stepOK_player_tweak s s _ (stepOK_refl s hinv) rfl
              (by rw [hply2]; exact hxuse) (by rw [hply2]; exact hyuse) ?_
            intro hb
            rw [hply2]
            exact hluse hb
          · next pl2 heq =>
            obtain ⟨hply2, -⟩ := enemy_attack_ok_shape cr e _ _ pl2 heq
            refine stepOK_player_tweak s s _ (stepOK_refl s hinv) rfl
              (by rw [hply2]; exact hxuse) (by rw [hply2]; exact hyuse) ?_
            intro hb
            rw [hply2]
            exact hluse hb
      · rw [dif_neg hidx]
        exact stepOK_refl s hinv

theorem fleeStep_stepOK (die cr : Int) (s : GState) (hinv : Inv s) :
    StepOK s (outSt (fleeStep die cr s)) := by
  simp only [fleeStep]
  by_cases hra : s.run_away = true
  · rw [if_pos hra]
    exact stepOK_player_tweak s s _ (stepOK_refl s hinv) rfl rfl rfl (fun h => h)
  · rw [if_neg hra]
    split
    · exact stepOK_player_tweak s s _ (stepOK_refl s hinv) rfl rfl rfl (fun h => h)
    · next e hen =>
      by_cases hdie : die ≤ 3
      · rw [if_pos hdie]
        exact stepOK_player_tweak s s _ (stepOK_refl s hinv) rfl rfl rfl (fun h => h)
      · rw [if_neg hdie]
        split
        · next pl heq =>
          obtain ⟨hply, -⟩ := enemy_attack_error_shape cr e _ _ pl heq
          exact stepOK_player_tweak s s _ (stepOK_refl s hinv) rfl
            (by rw [hply]; rfl) (by rw [hply]; rfl) (by rw [hply]; exact fun h => h)
        · next pl heq =>
          obtain ⟨hply, -⟩ := enemy_attack_ok_shape cr e _ _ pl heq
          exact stepOK_player_tweak s s _ (stepOK_refl s hinv) rfl
            (by rw [hply]; rfl) (by rw [hply]; rfl) (by rw [hply]; exact fun h => h)

theorem fightStep_stepOK (wr fr cr : Int) (ds : Nat → DropDecision) (s : GState)
    (hinv : Inv s) : StepOK s (outSt (fightStep wr fr cr ds s)) := by
  simp only [fightStep]
  by_cases hra : s.run_away = true
  · rw [if_pos hra]
    exact stepOK_player_tweak s s _ (stepOK_refl s hinv) rfl rfl rfl (fun h => h)
  · rw [if_neg hra]
    split
    · exact stepOK_player_tweak s s _ (stepOK_refl s hinv) rfl rfl rfl (fun h => h)
    · next e hen =>
      have hok1 := take_damage_stepOK
        (match s.player.weapon with | some _ => wr | none => fr) ds
        s.player.x.toNat s.player.y.toNat s hinv
      split
      · exact hok1
      · next e' hen2 =>
        split
        · next pl2 heq =>
          obtain ⟨hply2, -⟩ := enemy_attack_error_shape cr e' _ _ pl2 heq
          exact stepOK_player_tweak s _ _ hok1 rfl
            (by rw [hply2]; rfl) (by rw [hply2]; rfl) (by rw [hply2]; exact fun h => h)
        · next pl2 heq =>
          obtain ⟨hply2, -⟩ := enemy_attack_ok_shape cr e' _ _ pl2 heq
          exact stepOK_player_tweak s _ _ hok1 rfl
            (by rw [hply2]; rfl) (by rw [hply2]; rfl) (by rw [hply2]; exact fun h => h)

theorem move_enemies_effects (rng : MoveRng) (st : GState) (hPin : PlayerIn st)
    (hPT : PlayerTile st) (hE : EnemiesOnWalkable st.grid)
    (hS : SafeHoles st.grid) :
    MoveEffects st (outSt (move_enemies rng st)) ∧
    EnemiesOnWalkable (outSt (move_enemies rng st)).grid :=
  moveEnemiesAux_effects rng _ 0 [] st hPin hPT hE hS

theorem movePlayer_stepOK (rng : MoveRng) (dx dy : Int) (s : GState)
    (hdir : (dx, dy) ∈ ([(0, -1), (0, 1), (-1, 0), (1, 0)] : List (Int × Int)))
    (hinv : Inv s) : StepOK s (outSt (movePlayer rng dx dy s)) := by
  obtain ⟨hPin, hPT, hE, hS, hX⟩ := hinv
  simp only [movePlayer]
  by_cases hob : s.player.x + dx < 0 ∨ (ncols s.grid : Int) ≤ s.player.x + dx ∨
      (s.grid.length : Int) ≤ s.player.y + dy ∨ s.player.y + dy < 0
  · rw [if_pos hob]
    exact stepOK_player_tweak s s _ (stepOK_refl s ⟨hPin, hPT, hE, hS, hX⟩)
      rfl rfl rfl (fun h => h)
  · rw [if_neg hob]
    have hb : 0 ≤ s.player.x + dx ∧ s.player.x + dx < (ncols s.grid : Int) ∧
        s.player.y + dy < (s.grid.length : Int) ∧ 0 ≤ s.player.y + dy := by
      push_neg at hob
      refine ⟨?_, ?_, ?_, ?_⟩ <;> omega
    by_cases hwk : (tileAt s.grid (s.player.x + dx).toNat
        (s.player.y + dy).toNat).walkable = true
    · rw [if_pos hwk]
      -- the target cell really exists (a hole would contradict `SafeHoles`)
      have hex : ∃ t2, tile? s.grid (s.player.x + dx).toNat
          (s.player.y + dy).toNat = some t2 ∧ t2.walkable = true := by
        cases htn : tile? s.grid (s.player.x + dx).toNat (s.player.y + dy).toNat with
        | some t2 =>
          refine ⟨t2, rfl, ?_⟩
          have hA : tileAt s.grid (s.player.x + dx).toNat
              (s.player.y + dy).toNat = t2 := by
            unfold tileAt
            rw [htn]
            rfl
          rw [← hA]
          exact hwk
        | none =>
          exfalso
          obtain ⟨tp, htp, htpw⟩ := hPT
          obtain ⟨hpx1, hpx2, hpy1, hpy2⟩ := hPin
          simp only [List.mem_cons, List.not_mem_nil, or_false, Prod.ext_iff] at hdir
          have hbx : (s.player.x + dx).toNat < ncols s.grid := by omega
          have hby : (s.player.y + dy).toNat < s.grid.length := by omega
          have hmemnbr : (s.player.x.toNat, s.player.y.toNat) ∈
              [((s.player.x + dx).toNat, (s.player.y + dy).toNat - 1),
               ((s.player.x + dx).toNat, (s.player.y + dy).toNat + 1),
               ((s.player.x + dx).toNat - 1, (s.player.y + dy).toNat),
               ((s.player.x + dx).toNat + 1, (s.player.y + dy).toNat)] := by
            simp only [List.mem_cons, List.not_mem_nil, or_false, Prod.ext_iff]
            omega
          have hnbr := hS (s.player.x + dx).toNat (s.player.y + dy).toNat
            hbx hby htn (s.player.x.toNat, s.player.y.toNat) hmemnbr tp htp
          rw [hnbr.1] at htpw
          cases htpw
      obtain ⟨t2, ht2, ht2w⟩ := hex
      obtain ⟨ae, hae⟩ := onEnterTile_shape s.grid
        { s.player with x := s.player.x + dx, y := s.player.y + dy } s.log
        (s.player.x + dx).toNat (s.player.y + dy).toNat
      have hPin1 : PlayerIn { s with
          player := (onEnterTile s.grid
            { s.player with x := s.player.x + dx, y := s.player.y + dy } s.log
            (s.player.x + dx).toNat (s.player.y + dy).toNat).1,
          log := (onEnterTile s.grid
            { s.player with x := s.player.x + dx, y := s.player.y + dy } s.log
            (s.player.x + dx).toNat (s.player.y + dy).toNat).2 } := by
        unfold PlayerIn
        simp only [hae]
        exact ⟨hb.1, hb.2.1, hb.2.2.2, hb.2.2.1⟩
      have hPT1 : PlayerTile { s with
          player := (onEnterTile s.grid
            { s.player with x := s.player.x + dx, y := s.player.y + dy } s.log
            (s.player.x + dx).toNat (s.player.y + dy).toNat).1,
          log := (onEnterTile s.grid
            { s.player with x := s.player.x + dx, y := s.player.y + dy } s.log
            (s.player.x + dx).toNat (s.player.y + dy).toNat).2 } := by
        refine ⟨t2, ?_, ht2w⟩
        show tile? s.grid ((onEnterTile s.grid
          { s.player with x := s.player.x + dx, y := s.player.y + dy } s.log
          (s.player.x + dx).toNat (s.player.y + dy).toNat).1.x).toNat
          ((onEnterTile s.grid
          { s.player with x := s.player.x + dx, y := s.player.y + dy } s.log
          (s.player.x + dx).toNat (s.player.y + dy).toNat).1.y).toNat = some t2
        rw [hae]
        exact ht2
      have hme := move_enemies_effects rng { s with
          player := (onEnterTile s.grid
            { s.player with x := s.player.x + dx, y := s.player.y + dy } s.log
            (s.player.x + dx).toNat (s.player.y + dy).toNat).1,
          log := (onEnterTile s.grid
            { s.player with x := s.player.x + dx, y := s.player.y + dy } s.log
            (s.player.x + dx).toNat (s.player.y + dy).toNat).2 } hPin1 hPT1 hE hS
      obtain ⟨hme1, hme2⟩ := hme
      obtain ⟨hp', hply⟩ := hme1.2.2.1
      refine ⟨hme1.2.1, hme1.2.2.2.2.1,
        ⟨?_, ?_, hme2, ?_, moveEffects_exitsInv hme1 hX⟩,
        treasure_sublist_of_strip _ _ hme1.1, ?_⟩
      · exact playerIn_transfer _ _ hme1.2.1 (by rw [hply]) (by rw [hply]) hPin1
      · exact playerTile_of_strip _ _ hme1.1 (by rw [hply]) (by rw [hply]) hPT1
      · exact safeHoles_transfer _ _ hme1.2.1 (tw_of_strip _ _ hme1.1) hS
      · intro hbnd
        rw [hply]
        show (onEnterTile s.grid
          { s.player with x := s.player.x + dx, y := s.player.y + dy } s.log
          (s.player.x + dx).toNat (s.player.y + dy).toNat).1.inventory.length ≤
          MAX_INVENTORY
        rw [hae]
        exact hbnd
    · rw [if_neg hwk]
      obtain ⟨ae, hae⟩ := onEnterTile_shape s.grid s.player s.log
        (s.player.x + dx).toNat (s.player.y + dy).toNat
      exact stepOK_player_tweak s s _ (stepOK_refl s ⟨hPin, hPT, hE, hS, hX⟩) rfl
        (by rw [hae]; rfl) (by rw [hae]; rfl) (by rw [hae]; exact fun h => h)

theorem moveCommand_stepOK (rng : MoveRng) (dx dy : Int) (s : GState)
    (hdir : (dx, dy) ∈ ([(0, -1), (0, 1), (-1, 0), (1, 0)] : List (Int × Int)))
    (hinv : Inv s) : StepOK s (outSt (moveCommand rng dx dy s)) := by
  simp only [moveCommand]
  by_cases hblk : ¬ s.run_away = true ∧
      (tileAt s.grid s.player.x.toNat s.player.y.toNat).enemy.isSome = true
  · rw [if_pos hblk]
    exact stepOK_player_tweak s s _ (stepOK_refl s hinv) rfl rfl rfl (fun h => h)
  · rw [if_neg hblk]
    by_cases hhp : s.player.hp ≤ 0
    · rw [if_pos hhp]
      exact stepOK_player_tweak s s _ (stepOK_refl s hinv) rfl rfl rfl (fun h => h)
    · rw [if_neg hhp]
      exact movePlayer_stepOK rng dx dy { s with run_away := false } hdir hinv

/-- Every game-loop command preserves the level invariant, keeps the grid's
row shapes, never increases the living-enemy count, only ever shrinks each
tile's treasure, and preserves the inventory-capacity bound. -/
theorem step_ok (s s' : GState) (hstep : Step s s') (hinv : Inv s) :
    StepOK s s' := by
  cases hstep with
  | move dx dy hdir rng _ => exact moveCommand_stepOK rng dx dy s hdir hinv
  | fight wr fr cr ds _ => exact fightStep_stepOK wr fr cr ds s hinv
  | flee die cr _ => exact fleeStep_stepOK die cr s hinv
  | takeCmd ds _ => exact takeStep_stepOK ds s hinv
  | useCmd c heal cr _ => exact useStep_stepOK c heal cr s hinv

/-! ## Facts about the freshly built levels -/

theorem map_enum_snd {α β : Type} (l : List α) (f : α → β) :
    l.enum.map (fun p => f p.2) = l.map f := by
  have h := congrArg (List.map f) (List.enum_map_snd l)
  rw [List.map_map] at h
  exact h

theorem countP_enum_snd {α : Type} (l : List α) (p : α → Bool) :
    l.enum.countP (fun q => p q.2) = l.countP p := by
  have h := congrArg (List.countP p) (List.enum_map_snd l)
  rw [List.countP_map] at h
  exact h

theorem rowLens_make_map (rng : MapRng) (text : List String) (level : Nat) :
    (make_map rng text level).map List.length =
      text.map (fun s => s.toList.length) := by
  unfold make_map
  rw [List.map_map, ← map_enum_snd text (fun s => s.toList.length)]
  apply List.map_congr_left
  intro p _
  show (p.2.toList.enum.map (fun q => buildTile rng level q.1 p.1 q.2)).length =
    p.2.toList.length
  rw [List.length_map, List.enum_length]

theorem length_make_map (rng : MapRng) (text : List String) (level : Nat) :
    (make_map rng text level).length = text.length := by
  unfold make_map
  rw [List.length_map, List.enum_length]

theorem buildTile_enemy (rng : MapRng) (level x y : Nat) (c : Char)
    (h : level = 1 ∨ level = 2 ∨ level = 3) :
    (buildTile rng level x y c).enemy.isSome = (c == 'E') := by
  unfold buildTile
  simp only []
  by_cases hE : c = 'E'
  · subst hE
    rcases h with h | h | h <;> subst h <;>
      cases rng.pickVariant x y <;> rfl
  · rw [if_neg hE]
    have hR : (c == 'E') = false := by
      cases hc : c == 'E'
      · rfl
      · exact absurd (beq_iff_eq.mp hc) hE
    rw [hR]
    split_ifs <;> rfl

theorem buildTile_tw (rng : MapRng) (level x y : Nat) (c : Char) :
    ((buildTile rng level x y c).ttype, (buildTile rng level x y c).walkable) =
      if c = '#' then (TileType.wall, false)
      else if c = 'T' then (TileType.chest, true)
      else if c = 'X' then (TileType.exit, false)
      else (TileType.floor, true) := by
  unfold buildTile
  simp only []
  by_cases hE : c = 'E'
  · subst hE
    rw [if_pos rfl]
    split <;> rfl
  · rw [if_neg hE]
    by_cases h1 : c = '#'
    · subst h1
      rfl
    · by_cases h2 : c = 'T'
      · subst h2
        rfl
      · by_cases h3 : c = 'X'
        · subst h3
          rfl
        · rw [if_neg h1, if_neg h2, if_neg h3, if_neg h1, if_neg h2, if_neg h3]
          split_ifs <;> rfl

theorem make_map_mem (rng : MapRng) (text : List String) (level : Nat) (t : Tile)
    (h : t ∈ (make_map rng text level).flatten) :
    ∃ x y c, t = buildTile rng level x y c := by
  rw [List.mem_flatten] at h
  obtain ⟨row, hrow, ht⟩ := h
  unfold make_map at hrow
  rw [List.mem_map] at hrow
  obtain ⟨p, _, hrow⟩ := hrow
  subst hrow
  rw [List.mem_map] at ht
  obtain ⟨q, _, ht⟩ := ht
  exact ⟨q.1, p.1, q.2, ht.symm⟩

theorem er_make_map (rng : MapRng) (text : List String) (level : Nat)
    (h : level = 1 ∨ level = 2 ∨ level = 3) :
    enemies_remaining (make_map rng text level) =
      (text.map (fun s => s.toList.countP (fun c => c == 'E'))).sum := by
  unfold enemies_remaining make_map
  rw [List.map_map, ← map_enum_snd text
    (fun s => s.toList.countP (fun c => c == 'E'))]
  congr 1
  apply List.map_congr_left
  intro p _
  show (p.2.toList.enum.map (fun q => buildTile rng level q.1 p.1 q.2)).countP
      (fun t => t.enemy.isSome) = p.2.toList.countP (fun c => c == 'E')
  rw [List.countP_map, ← countP_enum_snd p.2.toList (fun c => c == 'E')]
  apply List.countP_congr
  intro q _
  show (buildTile rng level q.1 p.1 q.2).enemy.isSome = true ↔ (q.2 == 'E') = true
  rw [buildTile_enemy rng level q.1 p.1 q.2 h]

theorem Rect_of_const {g : Grid} (n : Nat)
    (h : ∀ m ∈ g.map List.length, m = n) : Rect g := by
  intro row hrow
  cases g with
  | nil => cases hrow
  | cons r rs =>
    have h1 := h _ (List.mem_map_of_mem List.length hrow)
    have h2 := h _ (List.mem_map_of_mem List.length (List.mem_cons_self r rs))
    rw [ncols_eq_headI_map]
    show row.length = ((r :: rs).map List.length).headI
    rw [List.map_cons]
    show row.length = r.length
    omega

theorem exitsInv_of_locked (g : Grid) (her : enemies_remaining g ≠ 0)
    (h : ∀ t ∈ g.flatten, t.ttype = .exit → t.walkable = false) : ExitsInv g := by
  intro x y t ht hexit
  have hw := h t (tile?_mem g x y t ht) hexit
  rw [hw]
  constructor
  · intro hfz
    cases hfz
  · intro h0
    exact absurd h0 her

theorem exitsInv_of_no_exit (g : Grid)
    (h : ∀ t ∈ g.flatten, ¬ t.ttype = .exit) : ExitsInv g := by
  intro x y t ht hexit
  exact absurd hexit (h t (tile?_mem g x y t ht))

theorem make_map_exits_locked (rng : MapRng) (text : List String) (level : Nat) :
    ∀ t ∈ (make_map rng text level).flatten,
      t.ttype = .exit → t.walkable = false := by
  intro t hmem hexit
  obtain ⟨x, y, c, rfl⟩ := make_map_mem rng text level t hmem
  have htw := buildTile_tw rng level x y c
  split_ifs at htw with hc1 hc2 hc3
  · have ht1 := congrArg Prod.fst htw
    simp only [] at ht1
    rw [ht1] at hexit
    cases hexit
  · have ht1 := congrArg Prod.fst htw
    simp only [] at ht1
    rw [ht1] at hexit
    cases hexit
  · exact congrArg Prod.snd htw
  · have ht1 := congrArg Prod.fst htw
    simp only [] at ht1
    rw [ht1] at hexit
    cases hexit

/-- `tile?` of a freshly built map, in terms of the map text's characters. -/
theorem tile?_make_map (rng : MapRng) (text : List String) (lvl x y : Nat) :
    tile? (make_map rng text lvl) x y =
      (text[y]?.bind (fun s => s.toList[x]?)).map
        (fun c => buildTile rng lvl x y c) := by
  unfold tile? make_map
  rw [List.getElem?_map, List.getElem?_enum]
  cases hT : text[y]? with
  | none => rfl
  | some srow =>
    simp only [Option.map_some', Option.some_bind]
    rw [List.getElem?_map, List.getElem?_enum]
    cases srow.toList[x]? <;> rfl

theorem buildTile_walkable_plain (rng : MapRng) (lvl x y : Nat) (c : Char)
    (h1 : ¬ c = '#') (h3 : ¬ c = 'X') :
    (buildTile rng lvl x y c).walkable = true := by
  have h := congrArg Prod.snd (buildTile_tw rng lvl x y c)
  rw [if_neg h1] at h
  by_cases h2 : c = 'T'
  · rw [if_pos h2] at h
    exact h
  · rw [if_neg h2, if_neg h3] at h
    exact h

theorem eow_make_map (rng : MapRng) (text : List String) (lvl : Nat)
    (hlvl : lvl = 1 ∨ lvl = 2 ∨ lvl = 3) :
    EnemiesOnWalkable (make_map rng text lvl) := by
  intro x y t ht hen
  obtain ⟨a, b, c, rfl⟩ := make_map_mem rng text lvl _ (tile?_mem _ x y _ ht)
  have he := buildTile_enemy rng lvl a b c hlvl
  rw [hen] at he
  have hcE : c = 'E' := beq_iff_eq.mp he.symm
  subst hcE
  exact buildTile_walkable_plain rng lvl a b 'E' (by decide) (by decide)

/-- A neighbour cell holding a `#` character is a wall: non-walkable and not
an exit. -/
theorem wall_cell_facts (rng : MapRng) (text : List String) (lvl a b : Nat)
    (hch : text[b]?.bind (fun s => s.toList[a]?) = some '#') :
    ∀ t, tile? (make_map rng text lvl) a b = some t →
      t.walkable = false ∧ ¬ t.ttype = .exit := by
  intro t ht
  rw [tile?_make_map, hch] at ht
  simp only [Option.map_some', Option.some.injEq] at ht
  rw [← ht]
  constructor
  · have h := congrArg Prod.snd (buildTile_tw rng lvl a b '#')
    simpa using h
  · have h := congrArg Prod.fst (buildTile_tw rng lvl a b '#')
    rw [if_pos rfl] at h
    have h2 : (buildTile rng lvl a b '#').ttype = TileType.wall := h
    rw [h2]
    decide

set_option maxRecDepth 40000 in
/-- The one short row of the level-3 map leaves a single missing cell at
`(65, 21)`, and all of its existing neighbours are walls. -/
theorem safeHoles_level3 (rng : MapRng) :
    SafeHoles (make_map rng MAP_TEXT_LEVEL_3 3) := by
  intro x y hx hy hnone p hp t ht
  have hrl := rowLens_make_map rng MAP_TEXT_LEVEL_3 3
  have hnc : ncols (make_map rng MAP_TEXT_LEVEL_3 3) = 66 := by
    rw [ncols_eq_headI_map, hrl]
    decide
  have hlen : (make_map rng MAP_TEXT_LEVEL_3 3).length = 26 := by
    rw [length_make_map]
    rfl
  rw [hnc] at hx
  rw [hlen] at hy
  rw [tile?_make_map] at hnone
  have hnone2 : MAP_TEXT_LEVEL_3[y]?.bind (fun s => s.toList[x]?) = none := by
    cases hq : MAP_TEXT_LEVEL_3[y]?.bind (fun s => s.toList[x]?)
    · rfl
    · rw [hq] at hnone
      cases hnone
  have key : ∀ y' < 26, ∀ x' < 66,
      (MAP_TEXT_LEVEL_3[y']?.bind (fun s => s.toList[x']?)).isNone = true →
      x' = 65 ∧ y' = 21 := by decide
  obtain ⟨hx65, hy21⟩ := key y hy x hx (by rw [hnone2]; rfl)
  subst hx65
  subst hy21
  simp only [List.mem_cons, List.not_mem_nil, or_false] at hp
  rcases hp with rfl | rfl | rfl | rfl
  · exact wall_cell_facts rng MAP_TEXT_LEVEL_3 3 65 (21 - 1) (by decide) t ht
  · exact wall_cell_facts rng MAP_TEXT_LEVEL_3 3 65 (21 + 1) (by decide) t ht
  · exact wall_cell_facts rng MAP_TEXT_LEVEL_3 3 (65 - 1) 21 (by decide) t ht
  · rw [tile?_make_map] at ht
    have hch : MAP_TEXT_LEVEL_3[(21 : Nat)]?.bind
        (fun s => s.toList[(65 : Nat) + 1]?) = none := by decide
    rw [hch] at ht
    cases ht

/-- The facts the claims need about the state a level starts in: the
invariant holds, enemies are present, and every exit starts locked. -/
theorem initFacts_of (rng : MapRng) (text : List String) (level : Nat)
    (hlvl : level = 1 ∨ level = 2 ∨ level = 3) (start : Int × Int)
    (hx : 0 ≤ start.1)
    (hx2 : start.1 < ((((text.map (fun s => s.toList.length)).headI : ℕ)) : ℤ))
    (hy : 0 ≤ start.2) (hy2 : start.2 < (text.length : ℤ))
    (hcnt : 0 < (text.map (fun s => s.toList.countP (fun c => c == 'E'))).sum)
    (hsafe : SafeHoles (make_map rng text level))
    (hpt : ∃ t, tile? (make_map rng text level)
      start.1.toNat start.2.toNat = some t ∧ t.walkable = true) :
    Inv { grid := make_map rng text level, player := mkPlayer start.1 start.2,
          log := [], run_away := false } ∧
    0 < enemies_remaining (make_map rng text level) ∧
    (∀ t ∈ (make_map rng text level).flatten,
      t.ttype = .exit → t.walkable = false) := by
  have hrl := rowLens_make_map rng text level
  have her := er_make_map rng text level hlvl
  have herpos : 0 < enemies_remaining (make_map rng text level) := by
    rw [her]
    exact hcnt
  refine ⟨⟨⟨hx, ?_, hy, ?_⟩, hpt, eow_make_map rng text level hlvl, hsafe, ?_⟩,
    herpos, make_map_exits_locked rng text level⟩
  · show (mkPlayer start.1 start.2).x < (ncols (make_map rng text level) : ℤ)
    have hn : ncols (make_map rng text level) =
        (text.map (fun s => s.toList.length)).headI := by
      rw [ncols_eq_headI_map, hrl]
    rw [hn]
    exact hx2
  · show (mkPlayer start.1 start.2).y < ((make_map rng text level).length : ℤ)
    rw [length_make_map]
    exact hy2
  · show ExitsInv (make_map rng text level)
    exact exitsInv_of_locked _ (by omega) (make_map_exits_locked rng text level)

theorem initLevel_facts (rng : MapRng) (i : Fin 3) :
    Inv (initLevelState rng i) ∧
    0 < enemies_remaining (initLevelState rng i).grid ∧
    (∀ a b t, tile? (initLevelState rng i).grid a b = some t →
      t.ttype = .exit → t.walkable = false) := by
  obtain ⟨v, hv⟩ := i
  have hmk : ∀ (text : List String) (level : Nat)
      (h1 : level = 1 ∨ level = 2 ∨ level = 3)
      (h2 : 0 ≤ ((find_player text 0).getD (0, 0)).1)
      (h3 : ((find_player text 0).getD (0, 0)).1 <
        ((((text.map (fun s => s.toList.length)).headI : ℕ)) : ℤ))
      (h4 : 0 ≤ ((find_player text 0).getD (0, 0)).2)
      (h5 : ((find_player text 0).getD (0, 0)).2 < (text.length : Int))
      (h6 : 0 < (text.map (fun s => s.toList.countP (fun c => c == 'E'))).sum)
      (h7 : SafeHoles (make_map rng text level))
      (h8 : ∃ t, tile? (make_map rng text level)
        ((find_player text 0).getD (0, 0)).1.toNat
        ((find_player text 0).getD (0, 0)).2.toNat = some t ∧ t.walkable = true),
      Inv { grid := make_map rng text level,
            player := mkPlayer ((find_player text 0).getD (0, 0)).1
              ((find_player text 0).getD (0, 0)).2,
            log := [], run_away := false } ∧
      0 < enemies_remaining (make_map rng text level) ∧
      (∀ a b t, tile? (make_map rng text level) a b = some t →
        t.ttype = .exit → t.walkable = false) := by
    intro text level h1 h2 h3 h4 h5 h6 h7 h8
    obtain ⟨hi, hp, hl⟩ := initFacts_of rng text level h1 _ h2 h3 h4 h5 h6 h7 h8
    exact ⟨hi, hp, fun a b t ht hexit => hl t (tile?_mem _ a b t ht) hexit⟩
  interval_cases v
  · refine hmk MAP_TEXT_LEVEL_1 1 (by omega) (by decide) (by decide) (by decide)
      (by decide) (by decide)
      (safeHoles_of_rect _ (Rect_of_const 42 (by rw [rowLens_make_map]; decide))) ?_
    refine ⟨buildTile rng 1 1 1 '@', ?_,
      buildTile_walkable_plain rng 1 1 1 '@' (by decide) (by decide)⟩
    have h1 : ((find_player MAP_TEXT_LEVEL_1 0).getD (0, 0)).1.toNat = 1 := by decide
    have h2 : ((find_player MAP_TEXT_LEVEL_1 0).getD (0, 0)).2.toNat = 1 := by decide
    rw [h1, h2, tile?_make_map]
    have hch : MAP_TEXT_LEVEL_1[(1 : Nat)]?.bind
        (fun s => s.toList[(1 : Nat)]?) = some '@' := by decide
    rw [hch]
    rfl
  · refine hmk MAP_TEXT_LEVEL_2 2 (by omega) (by decide) (by decide) (by decide)
      (by decide) (by decide)
      (safeHoles_of_rect _ (Rect_of_const 54 (by rw [rowLens_make_map]; decide))) ?_
    refine ⟨buildTile rng 2 47 4 '@', ?_,
      buildTile_walkable_plain rng 2 47 4 '@' (by decide) (by decide)⟩
    have h1 : ((find_player MAP_TEXT_LEVEL_2 0).getD (0, 0)).1.toNat = 47 := by decide
    have h2 : ((find_player MAP_TEXT_LEVEL_2 0).getD (0, 0)).2.toNat = 4 := by decide
    rw [h1, h2, tile?_make_map]
    have hch : MAP_TEXT_LEVEL_2[(4 : Nat)]?.bind
        (fun s => s.toList[(47 : Nat)]?) = some '@' := by decide
    rw [hch]
    rfl
  · refine hmk MAP_TEXT_LEVEL_3 3 (by omega) (by decide) (by decide) (by decide)
      (by decide) (by decide) (safeHoles_level3 rng) ?_
    refine ⟨buildTile rng 3 1 21 '@', ?_,
      buildTile_walkable_plain rng 3 1 21 '@' (by decide) (by decide)⟩
    have h1 : ((find_player MAP_TEXT_LEVEL_3 0).getD (0, 0)).1.toNat = 1 := by decide
    have h2 : ((find_player MAP_TEXT_LEVEL_3 0).getD (0, 0)).2.toNat = 21 := by decide
    rw [h1, h2, tile?_make_map]
    have hch : MAP_TEXT_LEVEL_3[(21 : Nat)]?.bind
        (fun s => s.toList[(1 : Nat)]?) = some '@' := by decide
    rw [hch]
    rfl

/-! ## Concrete witnesses -/

def witDeserRng : DeserRng := ⟨fun _ _ => .axe, fun _ _ => 11⟩

def witEnemy : Enemy := mkEnemy 7 5 .lvl2

def witGrid : Grid :=
  [[mkWallTile, mkFloorTile],
   [{ mkFloorTile with item := some (.gold 3), enemy := some witEnemy }, mkExitTile]]

def witPlayer : Player := ⟨1, 1, 12, 9, some .sword, [.potion, .dagger], false, 25⟩

def witSession : Session := ⟨witGrid, witPlayer, 1, 0⟩

theorem serialize_deserialize_round_trip_witness :
    (tile? (gridReload witDeserRng 0 witGrid) 0 1).map Tile.enemy =
      some (some witEnemy) := by
  obtain ⟨-, g', hg, -, -, hf⟩ :=
    serialize_deserialize_round_trip witGrid witPlayer witDeserRng 7
  rw [grid_round] at hg
  injection hg with hgg
  subst hgg
  have h := hf 0 1 { mkFloorTile with item := some (.gold 3), enemy := some witEnemy }
    (tileAt (gridReload witDeserRng 0 witGrid) 0 1) rfl rfl
  rw [show tile? (gridReload witDeserRng 0 witGrid) 0 1 =
      some (tileAt (gridReload witDeserRng 0 witGrid) 0 1) from rfl]
  rw [Option.map_some']
  rw [h.2.2.2.2]

theorem load_only_validated_witness :
    loadStep witDeserRng 7 witSession none = witSession :=
  load_only_validated_and_rejects_unchanged.1 witDeserRng 7 witSession none rfl

def witBogusTileDoc : List (String × JVal) :=
  [("type", .jstr "LavaTile"), ("walkable", .jbool true)]

def witBogusEnemyDoc : List (String × JVal) := [("type", .jstr "Dragon")]

def witBogusItemDoc : List (String × JVal) := [("type", .jstr "Amulet")]

def witKillEnemy : Enemy := mkEnemy 5 5 .withItem

def witKillState : GState :=
  ⟨[[{ mkFloorTile with enemy := some witKillEnemy }, mkExitTile]],
   mkPlayer 0 0, [], false⟩

theorem take_damage_lethal_witness :
    (tileAt (take_damage 99 (fun _ => .keepN) 0 0 witKillState).grid 0 0).enemy = none ∧
    (take_damage 99 (fun _ => .keepN) 0 0 witKillState).player.inventory = [.potion] ∧
    (tileAt (take_damage 99 (fun _ => .keepN) 0 0 witKillState).grid 1 0).walkable = true := by
  have h := take_damage_lethal 99 (fun _ => .keepN) 0 0 witKillState witKillEnemy
    rfl (by decide)
  refine ⟨h.1, ?_, ?_⟩
  · rw [h.2.1 (by decide)]
    decide
  · exact h.2.2 (by decide) 1 0
      (tileAt (take_damage 99 (fun _ => .keepN) 0 0 witKillState).grid 1 0)
      (by decide) (by decide)

/-- C2: Exit tiles start sealed — every level begins satisfying the invariant
with a positive living-enemy count and every exit tile non-walkable; the
living-enemy count (`enemies_remaining`, which equals the count of tiles whose
enemy slot is occupied) never increases across any game-loop step and the
invariant is preserved; and in every invariant state each exit tile's walkable
flag is true exactly when that count is zero. Together these give the claimed
temporal behaviour: along any run the count decreases monotonically from a
positive value, so each exit's flag flips false→true at most once, precisely
at the step at which the count reaches zero, and never flips back. -/
theorem exit_seal_temporal :
    (∀ (rng : MapRng) (i : Fin 3),
      Inv (initLevelState rng i) ∧
      0 < enemies_remaining (initLevelState rng i).grid ∧
      (∀ x y t, tile? (initLevelState rng i).grid x y = some t →
        t.ttype = .exit → t.walkable = false)) ∧
    (∀ s s', Step s s' → Inv s →
      Inv s' ∧ enemies_remaining s'.grid ≤ enemies_remaining s.grid) ∧
    (∀ g : Grid, enemies_remaining g =
      g.flatten.countP (fun t => t.enemy.isSome)) ∧
    (∀ s, Inv s → ∀ x y t, tile? s.grid x y = some t → t.ttype = .exit →
      (t.walkable = true ↔ enemies_remaining s.grid = 0)) := by
  refine ⟨initLevel_facts, ?_, ?_, ?_⟩
  · intro s s' hstep hinv
    obtain ⟨-, hle, hinv', -, -⟩ := step_ok s s' hstep hinv
    exact ⟨hinv', hle⟩
  · intro g
    rw [enemies_remaining, List.countP_flatten]
  · intro s hinv x y t ht hexit
    exact hinv.2.2.2.2 x y t ht hexit

def witMapRng : MapRng := ⟨fun _ _ => true, fun _ _ => 5, fun _ _ => .axe, 7⟩

theorem exit_seal_temporal_witness :
    Inv (initLevelState witMapRng 0) ∧
    0 < enemies_remaining (initLevelState witMapRng 0).grid ∧
    (∀ x y t, tile? (initLevelState witMapRng 0).grid x y = some t →
      t.ttype = .exit → t.walkable = false) :=
  exit_seal_temporal.1 witMapRng 0

/-- C6: The inventory capacity is 5; a fresh level starts within it, every
item pickup and every game-loop step preserve it; a pickup attempted with the
inventory at capacity leaves the player — in particular the inventory's
contents and length — completely unchanged and reports the pickup rejected,
except for Gold, which never enters the inventory and unconditionally
increments the player's gold with the pickup reported successful. -/
theorem inventory_cap_five :
    MAX_INVENTORY = 5 ∧
    (∀ (rng : MapRng) (i : Fin 3),
      (initLevelState rng i).player.inventory.length ≤ MAX_INVENTORY) ∧
    (∀ it p log, p.inventory.length ≤ MAX_INVENTORY →
      (item_on_pickup it p log).1.inventory.length ≤ MAX_INVENTORY) ∧
    (∀ s s', Step s s' → Inv s → s.player.inventory.length ≤ MAX_INVENTORY →
      s'.player.inventory.length ≤ MAX_INVENTORY) ∧
    (∀ it p log, (∀ a, it ≠ .gold a) → p.inventory.length = MAX_INVENTORY →
      (item_on_pickup it p log).1 = p ∧
      (item_on_pickup it p log).2.2 = false) ∧
    (∀ a p log, (item_on_pickup (.gold a) p log).1 =
        { p with gold := p.gold + a } ∧
      (item_on_pickup (.gold a) p log).1.inventory = p.inventory ∧
      (item_on_pickup (.gold a) p log).2.2 = true) := by
  refine ⟨rfl, ?_, ?_, ?_, ?_, ?_⟩
  · intro rng i
    show (0 : Nat) ≤ MAX_INVENTORY
    omega
  · intro it p log h
    obtain ⟨inv, gd, he, hb⟩ := item_on_pickup_shape it p log
    rw [he]
    exact hb h
  · intro s s' hstep hinv hb
    exact (step_ok s s' hstep hinv).2.2.2.2 hb
  · intro it p log hng hfull
    have hnlt : ¬ p.inventory.length < MAX_INVENTORY := by omega
    cases it with
    | gold a => exact absurd rfl (hng a)
    | potion => simp only [item_on_pickup]; rw [if_neg hnlt]; exact ⟨rfl, rfl⟩
    | dagger => simp only [item_on_pickup]; rw [if_neg hnlt]; exact ⟨rfl, rfl⟩
    | sword => simp only [item_on_pickup]; rw [if_neg hnlt]; exact ⟨rfl, rfl⟩
    | axe => simp only [item_on_pickup]; rw [if_neg hnlt]; exact ⟨rfl, rfl⟩
  · intro a p log
    exact ⟨rfl, rfl, rfl⟩

def witFullPlayer : Player :=
  ⟨0, 0, 10, 2, none, [.potion, .potion, .dagger, .sword, .axe], false, 20⟩

theorem inventory_cap_five_witness :
    (item_on_pickup .axe witFullPlayer []).1 = witFullPlayer ∧
    (item_on_pickup .axe witFullPlayer []).2.2 = false ∧
    (item_on_pickup (.gold 3) witFullPlayer []).1.gold = 5 ∧
    (item_on_pickup (.gold 3) witFullPlayer []).1.inventory =
      witFullPlayer.inventory := by
  obtain ⟨h1, h2⟩ := inventory_cap_five.2.2.2.2.1 .axe witFullPlayer []
    (fun a h => by cases h) rfl
  obtain ⟨g1, g2, -⟩ := inventory_cap_five.2.2.2.2.2 3 witFullPlayer []
  exact ⟨h1, h2, by rw [g1]; rfl, g2⟩

/-- C7: Movement semantics. An out-of-bounds target leaves grid, player and
`run_away` untouched and only logs the rejection; an in-bounds non-walkable
target leaves the grid untouched and runs the target tile's on-enter behaviour
on the unmoved player (logging the reason), with no enemy scheduling; an
in-bounds walkable target moves the player onto the cell, runs the tile's
on-enter behaviour, and hands the state to `move_enemies` exactly once.
On-enter never changes the player's position. -/
theorem movement_semantics (rng : MoveRng) (dx dy : Int) (st : GState) :
    ((st.player.x + dx < 0 ∨ (ncols st.grid : Int) ≤ st.player.x + dx ∨
      (st.grid.length : Int) ≤ st.player.y + dy ∨ st.player.y + dy < 0) →
      movePlayer rng dx dy st =
        .ok { st with log := st.log ++ ["You can't move outside the map."] }) ∧
    (¬ (st.player.x + dx < 0 ∨ (ncols st.grid : Int) ≤ st.player.x + dx ∨
        (st.grid.length : Int) ≤ st.player.y + dy ∨ st.player.y + dy < 0) →
      (tileAt st.grid (st.player.x + dx).toNat
        (st.player.y + dy).toNat).walkable = false →
      movePlayer rng dx dy st = .ok { st with
        player := (onEnterTile st.grid st.player st.log
          (st.player.x + dx).toNat (st.player.y + dy).toNat).1,
        log := (onEnterTile st.grid st.player st.log
          (st.player.x + dx).toNat (st.player.y + dy).toNat).2 }) ∧
    (¬ (st.player.x + dx < 0 ∨ (ncols st.grid : Int) ≤ st.player.x + dx ∨
        (st.grid.length : Int) ≤ st.player.y + dy ∨ st.player.y + dy < 0) →
      (tileAt st.grid (st.player.x + dx).toNat
        (st.player.y + dy).toNat).walkable = true →
      movePlayer rng dx dy st = move_enemies rng { st with
        player := (onEnterTile st.grid
          { st.player with x := st.player.x + dx, y := st.player.y + dy }
          st.log (st.player.x + dx).toNat (st.player.y + dy).toNat).1,
        log := (onEnterTile st.grid
          { st.player with x := st.player.x + dx, y := st.player.y + dy }
          st.log (st.player.x + dx).toNat (st.player.y + dy).toNat).2 }) ∧
    (∀ g p log x y, (onEnterTile g p log x y).1.x = p.x ∧
      (onEnterTile g p log x y).1.y = p.y) := by
  refine ⟨?_, ?_, ?_, ?_⟩
  · intro hoob
    simp only [movePlayer]
    rw [if_pos hoob]
  · intro hin hnw
    simp only [movePlayer]
    rw [if_neg hin, if_neg (show ¬ (tileAt st.grid (st.player.x + dx).toNat
      (st.player.y + dy).toNat).walkable = true by rw [hnw]; decide)]
  · intro hin hw
    simp only [movePlayer]
    rw [if_neg hin, if_pos hw]
  · intro g p log x y
    simp only [onEnterTile]
    split
    all_goals try split
    all_goals try split
    all_goals exact ⟨rfl, rfl⟩

def witMoveGrid : Grid := [[mkFloorTile, mkWallTile]]

def witMoveState : GState := ⟨witMoveGrid, mkPlayer 0 0, [], false⟩

def witMoveRng : MoveRng := ⟨id, fun _ => false, fun _ => 0, fun _ => 1⟩

theorem movement_semantics_witness :
    movePlayer witMoveRng (-1) 0 witMoveState =
      .ok { witMoveState with log := ["You can't move outside the map."] } ∧
    movePlayer witMoveRng 1 0 witMoveState =
      .ok { witMoveState with log := ["You bump into a wall."] } := by
  refine ⟨?_, ?_⟩
  · have h := (movement_semantics witMoveRng (-1) 0 witMoveState).1 (by decide)
    rw [h]
    rfl
  · have h := (movement_semantics witMoveRng 1 0 witMoveState).2.1
      (by decide) (by decide)
    rw [h]
    rfl

/-- C8: Encounter semantics. With an enemy on the player's tile and no prior
flight: fighting applies, via `take_damage`, the equipped weapon's attack roll
when a weapon is equipped and the bare-handed roll otherwise; if the enemy is
gone afterwards the command ends there, and if it survives it immediately
counter-attacks — the player's hp drops by the counter roll and the command
signals the fatal game-over condition exactly when that leaves hp ≤ 0.
Fleeing succeeds exactly when the die shows at most 3, setting `run_away`
with no enemy response; on a higher roll the enemy counter-attacks with the
same fatal condition. An enemy attack signals game over iff it brings the
player's hp to ≤ 0. -/
theorem fight_flee_semantics :
    (∀ (wr fr cr : Int) (ds : Nat → DropDecision) (st : GState) (e : Enemy)
       (dmg : Int), st.run_away = false →
      (tileAt st.grid st.player.x.toNat st.player.y.toNat).enemy = some e →
      (match st.player.weapon with | some _ => wr | none => fr) = dmg →
      ((tileAt (take_damage dmg ds st.player.x.toNat st.player.y.toNat st).grid
          st.player.x.toNat st.player.y.toNat).enemy = none →
        fightStep wr fr cr ds st =
          .ok (take_damage dmg ds st.player.x.toNat st.player.y.toNat st)) ∧
      (∀ e', (tileAt (take_damage dmg ds st.player.x.toNat st.player.y.toNat
            st).grid st.player.x.toNat st.player.y.toNat).enemy = some e' →
        (outSt (fightStep wr fr cr ds st)).player.hp =
          (take_damage dmg ds st.player.x.toNat st.player.y.toNat
            st).player.hp - cr ∧
        ((∃ s2, fightStep wr fr cr ds st = .error s2) ↔
          (take_damage dmg ds st.player.x.toNat st.player.y.toNat
            st).player.hp - cr ≤ 0))) ∧
    (∀ (die cr : Int) (st : GState) (e : Enemy), st.run_away = false →
      (tileAt st.grid st.player.x.toNat st.player.y.toNat).enemy = some e →
      (die ≤ 3 →
        fleeStep die cr st = .ok { st with
          run_away := true, log := st.log ++ ["You successfully run away."] }) ∧
      (¬ die ≤ 3 →
        (outSt (fleeStep die cr st)).player.hp = st.player.hp - cr ∧
        ((∃ s2, fleeStep die cr st = .error s2) ↔ st.player.hp - cr ≤ 0))) ∧
    (∀ (roll : Int) (e : Enemy) (p : Player) (log : List String),
      (∃ pl, enemy_attack roll e p log = .error pl) ↔ p.hp - roll ≤ 0) := by
  refine ⟨?_, ?_, ?_⟩
  · intro wr fr cr ds st e dmg hra hen hdmg
    have hra' : ¬ st.run_away = true := by rw [hra]; decide
    constructor
    · intro hgone
      simp only [fightStep]
      rw [if_neg hra', hen, hdmg, hgone]
    · intro e' hsur
      have heq : fightStep wr fr cr ds st =
          (match enemy_attack cr e'
              (take_damage dmg ds st.player.x.toNat st.player.y.toNat st).player
              (take_damage dmg ds st.player.x.toNat st.player.y.toNat st).log with
            | .error pl => .error { take_damage dmg ds st.player.x.toNat
                st.player.y.toNat st with player := pl.1, log := pl.2 }
            | .ok pl => .ok { take_damage dmg ds st.player.x.toNat
                st.player.y.toNat st with player := pl.1, log := pl.2 ++
                ["Press [F] to fight, [R] to run away, or [U] to use an item."] }) := by
        simp only [fightStep]
        rw [if_neg hra', hen, hdmg, hsur]
      cases hea : enemy_attack cr e'
          (take_damage dmg ds st.player.x.toNat st.player.y.toNat st).player
          (take_damage dmg ds st.player.x.toNat st.player.y.toNat st).log with
      | error pl =>
        obtain ⟨hply, hle⟩ := enemy_attack_error_shape cr e' _ _ pl hea
        refine ⟨?_, ?_⟩
        · rw [heq, hea]
          show pl.1.hp = (take_damage dmg ds st.player.x.toNat
            st.player.y.toNat st).player.hp - cr
          rw [hply]
        · rw [heq, hea]
          exact iff_of_true ⟨_, rfl⟩ (by rw [hply] at hle; exact hle)
      | ok pl =>
        obtain ⟨hply, hpos⟩ := enemy_attack_ok_shape cr e' _ _ pl hea
        refine ⟨?_, ?_⟩
        · rw [heq, hea]
          show pl.1.hp = (take_damage dmg ds st.player.x.toNat
            st.player.y.toNat st).player.hp - cr
          rw [hply]
        · rw [heq, hea]
          refine iff_of_false ?_ ?_
          · rintro ⟨s2, habs⟩
            cases habs
          · rw [hply] at hpos
            have hp2 : 0 < (take_damage dmg ds st.player.x.toNat
                st.player.y.toNat st).player.hp - cr := hpos
            omega
  · intro die cr st e hra hen
    have hra' : ¬ st.run_away = true := by rw [hra]; decide
    constructor
    · intro hdie
      simp only [fleeStep]
      rw [if_neg hra', hen]
      simp only [if_pos hdie]
    · intro hdie
      have heq : fleeStep die cr st =
          (match enemy_attack cr e st.player
              (st.log ++ ["You try to run away but fail."]) with
            | .error pl => .error { st with player := pl.1, log := pl.2 }
            | .ok pl => .ok { st with player := pl.1, log := pl.2 ++
                ["Press [F] to fight, [R] to run away, or [U] to use an item."] }) := by
        simp only [fleeStep]
        rw [if_neg hra', hen]
        simp only [if_neg hdie]
      cases hea : enemy_attack cr e st.player
          (st.log ++ ["You try to run away but fail."]) with
      | error pl =>
        obtain ⟨hply, hle⟩ := enemy_attack_error_shape cr e _ _ pl hea
        refine ⟨?_, ?_⟩
        · rw [heq, hea]
          show pl.1.hp = st.player.hp - cr
          rw [hply]
        · rw [heq, hea]
          exact iff_of_true ⟨_, rfl⟩ (by rw [hply] at hle; exact hle)
      | ok pl =>
        obtain ⟨hply, hpos⟩ := enemy_attack_ok_shape cr e _ _ pl hea
        refine ⟨?_, ?_⟩
        · rw [heq, hea]
          show pl.1.hp = st.player.hp - cr
          rw [hply]
        · rw [heq, hea]
          refine iff_of_false ?_ ?_
          · rintro ⟨s2, habs⟩
            cases habs
          · rw [hply] at hpos
            have hp2 : 0 < st.player.hp - cr := hpos
            omega
  · intro roll e p log
    unfold enemy_attack
    simp only []
    split_ifs with hc
    · exact iff_of_true ⟨_, rfl⟩ hc
    · refine iff_of_false ?_ hc
      rintro ⟨pl, habs⟩
      cases habs

def witFightEnemy : Enemy := mkEnemy 6 5 .base

def witFightState : GState :=
  ⟨[[{ mkFloorTile with enemy := some witFightEnemy }]], mkPlayer 0 0, [], false⟩

theorem fight_flee_semantics_witness :
    (∃ s2, fightStep 2 1 100 (fun _ => DropDecision.keepN) witFightState =
      .error s2) ∧
    fleeStep 2 100 witFightState = .ok { witFightState with
      run_away := true, log := ["You successfully run away."] } := by
  refine ⟨?_, ?_⟩
  · have h := ((fight_flee_semantics.1 2 1 100 (fun _ => DropDecision.keepN)
      witFightState witFightEnemy 1 rfl rfl rfl).2
      { witFightEnemy with hp := 5 } rfl).2
    exact h.mpr (by decide)
  · have h := (fight_flee_semantics.2.1 2 100 witFightState witFightEnemy rfl
      rfl).1 (by decide)
    rw [h]
    rfl

/-- C9 (amended): A treasure chest's contents are fixed at creation to
exactly one chosen weapon plus one potion (both for a directly constructed
chest and for a `T` cell of a built map), and over in-game play — any
game-loop step from an invariant state — each tile's treasure only ever
shrinks. Across save and load, however, contents are NOT preserved: the save
document records no treasure, so reloading any chest tile regenerates a fresh
weapon-plus-potion pair regardless of what had been taken (see the
counterexample). -/
theorem chest_contents_lifecycle :
    (∀ w, (mkTreasureChestTile w).treasure = [w, .potion]) ∧
    (∀ (rng : MapRng) (lvl x y : Nat),
      (buildTile rng lvl x y 'T').treasure = [rng.chestWeapon x y, .potion]) ∧
    (∀ s s', Step s s' → Inv s → ∀ a b t t',
      tile? s.grid a b = some t → tile? s'.grid a b = some t' →
      t'.treasure.Sublist t.treasure) ∧
    (∀ (chestW : Item) (fhp roll : Int) (t t' : Tile),
      tile_from_dict chestW fhp roll (tile_to_dict t) = .ok t' →
      t.ttype = .chest → t'.treasure = [chestW, .potion]) := by
  refine ⟨fun w => rfl, fun rng lvl x y => rfl, ?_, ?_⟩
  · intro s s' hstep hinv a b t t' ht ht'
    exact (step_ok s s' hstep hinv).2.2.2.1 a b t t' ht ht'
  · intro chestW fhp roll t t' h hc
    rw [tile_round] at h
    injection h with h
    rw [← h]
    show (reloadTile chestW t).treasure = [chestW, .potion]
    simp [reloadTile, hc]

def witChestState : GState :=
  ⟨[[mkTreasureChestTile .axe]], mkPlayer 0 0, [], false⟩

theorem witChestInv : Inv witChestState :=
  ⟨⟨by decide, by decide, by decide, by decide⟩,
   ⟨mkTreasureChestTile .axe, rfl, rfl⟩,
   eow_of_flatten _ (by decide),
   safeHoles_of_rect _ (Rect_of_const 1 (by decide)),
   exitsInv_of_no_exit _ (by decide)⟩

/-- Emptying the chest by taking both items, then serialising and reloading
its tile, restores a full weapon-plus-potion treasure: the contents grow back
across save/load, refuting the claim's "only ever shrink (including across
save and load)". -/
theorem chest_reload_counterexample :
    (tileAt (takeStep [some 1, some 1] witChestState).grid 0 0).treasure =
      [] ∧
    tile_from_dict .sword 7 5
        (tile_to_dict
          (tileAt (takeStep [some 1, some 1] witChestState).grid 0 0)) =
      .ok (mkTreasureChestTile Item.sword) ∧
    ¬ ((mkTreasureChestTile Item.sword).treasure.Sublist
        (tileAt (takeStep [some 1, some 1] witChestState).grid 0 0).treasure) := by
  refine ⟨rfl, ?_, by decide⟩
  rw [tile_round]
  rfl

theorem chest_contents_lifecycle_witness :
    (tileAt (takeStep [some 1] witChestState).grid 0 0).treasure.Sublist
      (tileAt witChestState.grid 0 0).treasure :=
  chest_contents_lifecycle.2.2.1 witChestState (takeStep [some 1] witChestState)
    (Step.takeCmd [some 1] witChestState) witChestInv 0 0
    (tileAt witChestState.grid 0 0)
    (tileAt (takeStep [some 1] witChestState).grid 0 0) rfl rfl

theorem decode_unknown_type_asymmetry_witness :
    (∃ t, tile_from_dict .dagger 4 4 (.jobj witBogusTileDoc) = .ok t ∧
       t.ttype = .floor) ∧
    (∃ e, enemy_from_dict 4 4 (.jobj witBogusEnemyDoc) = .ok (some e) ∧
       e.etype = .base) ∧
    (∃ msg, item_from_dict (.jobj witBogusItemDoc) = .error msg) := by
  refine ⟨?_, ?_, ?_⟩
  · exact decode_unknown_type_asymmetry.1 witBogusTileDoc "LavaTile" .dagger 4 4
      (.jbool true) none none rfl rfl rfl rfl rfl
  · exact decode_unknown_type_asymmetry.2.1 witBogusEnemyDoc "Dragon" 4 4 [] rfl rfl rfl
  · exact decode_unknown_type_asymmetry.2.2 witBogusItemDoc "Amulet" rfl (by decide)

end Dungeon
